import Mathlib

/-!
# Archiveopteryx: Session, SessionInitialiser, Fetch and Store

A shallow embedding of `src/server/session.cpp` (classes `Session` and
`SessionInitialiser`) and of the IMAP handlers `src/imap/handlers/fetch.cpp`
and `src/imap/handlers/store.cpp`, together with the collaborators they use,
followed by theorems about the embedded code.

Conventions of the embedding:

* pointers to `Session` objects are natural numbers, and the objects live in a
  heap `Nat → SessionData`, so that a list of sessions may mention the same
  object twice, as a `List<Session>` of pointers may;
* `uint` values are natural numbers, reduced modulo `2^32` where the source
  does arithmetic that can wrap; `int64` values are integers;
* calls whose effect lies outside this file (the virtual
  `Session::emitUpdates`, submitting a query, committing a transaction) are
  recorded in a trace.
-/

namespace Aox

/-! ## IntegerSet -/

/-- Modelled from the spec: class `IntegerSet` (`integerset.h`, the spec's
MessageSet) is not among the sources. Following the spec's data model it is a
finite set of UIDs held as a sequence of closed ranges `(lo, hi)` in ascending
order. -/
structure IntegerSet where
  ranges : List (Nat × Nat)
deriving DecidableEq, Repr

namespace IntegerSet

/-- Modelled from the spec: the representation invariant of MessageSet, "ranges
are disjoint and sorted; adjacent ranges are merged". `okFrom b rs` holds when
every range of `rs` is non-empty, the first one starts at `b` or later, and
every further one starts at least two past the end of the one before it. -/
def okFrom : Nat → List (Nat × Nat) → Bool
  | _, [] => true
  | b, r :: rs => decide (b ≤ r.1) && decide (r.1 ≤ r.2) && okFrom (r.2 + 2) rs

/-- Modelled from the spec: a well-formed IntegerSet satisfies the
representation invariant of MessageSet. -/
def wf (s : IntegerSet) : Prop := okFrom 0 s.ranges = true

instance (s : IntegerSet) : Decidable s.wf := by
  unfold wf; infer_instance

/-- Modelled from the spec: the empty IntegerSet, what the default constructor
and `IntegerSet::clear` produce. -/
def empty : IntegerSet := ⟨[]⟩

/-- Modelled from the spec: `IntegerSet::contains`, membership. -/
def contains (s : IntegerSet) (u : Nat) : Bool :=
  s.ranges.any (fun r => decide (r.1 ≤ u) && decide (u ≤ r.2))

/-- Modelled from the spec: `IntegerSet::isEmpty`. -/
def isEmpty (s : IntegerSet) : Bool := s.ranges.isEmpty

/-- Number of UIDs in a sequence of ranges. -/
def countR : List (Nat × Nat) → Nat
  | [] => 0
  | r :: rs => (r.2 - r.1 + 1) + countR rs

/-- Modelled from the spec: `IntegerSet::count`, the number of members. -/
def count (s : IntegerSet) : Nat := countR s.ranges

/-- Modelled from the spec: `IntegerSet::smallest`, 0 for the empty set. -/
def smallest (s : IntegerSet) : Nat :=
  match s.ranges with
  | [] => 0
  | r :: _ => r.1

/-- End of the last range of a sequence, 0 when there is none. -/
def largestR : List (Nat × Nat) → Nat
  | [] => 0
  | [r] => r.2
  | _ :: r :: rs => largestR (r :: rs)

/-- Modelled from the spec: `IntegerSet::largest`, 0 for the empty set. -/
def largest (s : IntegerSet) : Nat := largestR s.ranges

/-- The `n`-th UID (1-based) of a sequence of ranges, 0 when there is none. -/
def valueR : List (Nat × Nat) → Nat → Nat
  | [], _ => 0
  | r :: rs, n =>
    if n = 0 then 0
    else if n ≤ r.2 - r.1 + 1 then r.1 + (n - 1)
    else valueR rs (n - (r.2 - r.1 + 1))

/-- Modelled from the spec: `IntegerSet::value`, "value at 1-based position":
the `n`-th UID in ascending order, 0 if there is no such position. -/
def value (s : IntegerSet) (n : Nat) : Nat := valueR s.ranges n

/-- The 1-based position of `u` in a sequence of ranges, 0 when absent. -/
def indexR : List (Nat × Nat) → Nat → Nat
  | [], _ => 0
  | r :: rs, u =>
    if u < r.1 then 0
    else if u ≤ r.2 then u - r.1 + 1
    else
      match indexR rs u with
      | 0 => 0
      | k + 1 => (r.2 - r.1 + 1) + (k + 1)

/-- Modelled from the spec: `IntegerSet::index`, "1-based position of a UID
(0 if absent)". -/
def index (s : IntegerSet) (u : Nat) : Nat := indexR s.ranges u

/-- Insert one UID into a sequence of ranges, merging with adjacent ranges. -/
def addR (u : Nat) : List (Nat × Nat) → List (Nat × Nat)
  | [] => [(u, u)]
  | r :: rs =>
    if u + 1 < r.1 then (u, u) :: r :: rs
    else if u < r.1 then (u, r.2) :: rs
    else if u ≤ r.2 then r :: rs
    else if r.2 + 1 < u then r :: addR u rs
    else
      match rs with
      | [] => [(r.1, u)]
      | r2 :: rs2 => if u + 1 = r2.1 then (r.1, r2.2) :: rs2 else (r.1, u) :: r2 :: rs2

/-- Modelled from the spec: `IntegerSet::add( uint )`, "`add(uid)` inserts and
merges with adjacent ranges". -/
def add (s : IntegerSet) (u : Nat) : IntegerSet := ⟨addR u s.ranges⟩

/-- Take one UID out of a sequence of ranges, splitting a range when the UID
is in its interior. -/
def removeR (u : Nat) : List (Nat × Nat) → List (Nat × Nat)
  | [] => []
  | r :: rs =>
    if u < r.1 then r :: rs
    else if r.2 < u then r :: removeR u rs
    else if r.1 = r.2 then rs
    else if u = r.1 then (r.1 + 1, r.2) :: rs
    else if u = r.2 then (r.1, r.2 - 1) :: rs
    else (r.1, u - 1) :: (u + 1, r.2) :: rs

/-- Modelled from the spec: `IntegerSet::remove( uint )`, "`remove(uid)` splits
a range if interior". -/
def remove (s : IntegerSet) (u : Nat) : IntegerSet := ⟨removeR u s.ranges⟩

/-- The UIDs of a sequence of ranges, in ascending order. -/
def membersR : List (Nat × Nat) → List Nat
  | [] => []
  | r :: rs => List.range' r.1 (r.2 - r.1 + 1) ++ membersR rs

/-- Modelled from the spec: "iteration in ascending order" over the members. -/
def members (s : IntegerSet) : List Nat := membersR s.ranges

/-- Modelled from the spec: `IntegerSet::add( const IntegerSet & )`, union:
every member of `t` is added to `s`. -/
def addSet (s t : IntegerSet) : IntegerSet := t.members.foldl add s

/-- Modelled from the spec: `IntegerSet::remove( const IntegerSet & )`,
difference: every member of `t` is removed from `s`. -/
def removeSet (s t : IntegerSet) : IntegerSet := t.members.foldl remove s

/-- Modelled from the spec: `IntegerSet::intersection`, the members of `s` that
are members of `t` too. -/
def intersection (s t : IntegerSet) : IntegerSet :=
  (s.members.filter t.contains).foldl add empty

end IntegerSet

/-! ## Collaborators of session.cpp -/

/-- Modelled from the spec: class `Mailbox` (`mailbox.h`) is not among the
sources. These are the values session.cpp reads from it: `id()`, `uidnext()`,
`nextModSeq()`, `uidvalidity()`, `ordinary()` and `sessions()`, the last one a
null pointer or a list of pointers to the sessions on the mailbox. -/
structure Mailbox where
  id : Nat
  uidnext : Nat
  nextModSeq : Int
  uidvalidity : Nat
  ordinary : Bool
  sessions : Option (List Nat)
deriving DecidableEq, Repr

/-- Modelled from the spec: class `Row` (`query.h`) is not among the sources.
A row holds the columns session.cpp reads with `getInt` and `getBigint`. -/
structure Row where
  first_recent : Int
  uid : Int
  modseq : Int
deriving DecidableEq, Repr

/-- The value a `uint` variable takes when it is assigned an `int`. -/
def toUint (i : Int) : Nat := (i % 4294967296).toNat

/-- The `uint` sum `n + 1`, which is 0 when `n` is the largest `uint`. -/
def uintSucc (n : Nat) : Nat := if n = 4294967295 then 0 else n + 1

/-- The `uint` difference `n - 1`, which is the largest `uint` when `n` is 0. -/
def uintPred (n : Nat) : Nat := if n = 0 then 4294967295 else n - 1

/-- Modelled from the spec: class `Query` (`query.h`) is not among the sources:
"`Query(sql, requester)` with positional binds, `execute()`, `done()`,
`nextRow()`". `rows` are the rows that have arrived and have not been read,
`owner` tells whether the query was created with an owner to call back. -/
structure Query where
  text : String
  owner : Bool
  binds : List (Nat × Int)
  rows : List Row
  done : Bool
deriving DecidableEq, Repr

namespace Query

/-- Modelled from the spec: `new Query( text, owner )`: nothing bound, no row
there yet, not done. -/
def new (text : String) (owner : Bool) : Query :=
  { text := text, owner := owner, binds := [], rows := [], done := false }

/-- Modelled from the spec: `Query::bind( n, value )`. -/
def bind (q : Query) (n : Nat) (v : Int) : Query :=
  { q with binds := q.binds ++ [(n, v)] }

/-- Modelled from the spec: `Query::nextRow()`: the first unread row, which is
thereby read, or a null pointer when there is none at present. -/
def nextRow (q : Query) : Option Row × Query :=
  match q.rows with
  | [] => (none, q)
  | r :: rest => (some r, { q with rows := rest })

end Query

/-- Modelled from the spec: class `Transaction` (`transaction.h`) is not among
the sources. These are the two values session.cpp reads from it, `failed()` and
`done()`; the database changes them between two calls of `execute()`. -/
structure Transaction where
  failed : Bool
  done : Bool
deriving DecidableEq, Repr

/-- Calls made by the SessionInitialiser whose effect lies outside
session.cpp, in the order in which they are made. -/
inductive Event where
  /-- `s->setNextModSeq( ms )` on the session at `s` -/
  | setNextModSeq (s : Nat) (ms : Int)
  /-- `s->setUidnext( u )` on the session at `s` -/
  | setUidnext (s : Nat) (u : Nat)
  /-- the virtual `s->emitUpdates( d->t )` on the session at `s` -/
  | emitUpdates (s : Nat)
  /-- `submit( q )`: through the transaction when there is one -/
  | submit (q : Query) (viaTransaction : Bool)
  /-- `d->t->commit()` -/
  | commit
deriving DecidableEq, Repr

/-! ## Session -/

/-- The class SessionData, with the values its constructor gives. -/
structure SessionData where
  readOnly : Bool := true
  mailbox : Option Nat := none
  msns : IntegerSet := IntegerSet.empty
  recent : IntegerSet := IntegerSet.empty
  expunges : IntegerSet := IntegerSet.empty
  uidnext : Nat := 1
  nextModSeq : Int := 1
  permissions : Option Nat := none
  unannounced : IntegerSet := IntegerSet.empty
deriving DecidableEq, Repr

/-- The four sets of a session satisfy the representation invariant of
IntegerSet. -/
def SessionData.wf (d : SessionData) : Prop :=
  d.msns.wf ∧ d.recent.wf ∧ d.expunges.wf ∧ d.unannounced.wf

instance (d : SessionData) : Decidable d.wf := by
  unfold SessionData.wf; infer_instance

namespace Session

/-- Session::initialised, for the mailbox `m` that `d->mailbox` points to. -/
def initialised (d : SessionData) (m : Mailbox) : Bool :=
  if d.nextModSeq < m.nextModSeq then false
  else if d.uidnext < m.uidnext then false
  else true

/-- Session::isEmpty, for the mailbox `m` that `d->mailbox` points to. -/
def isEmpty (d : SessionData) (m : Mailbox) : Bool :=
  if m.uidnext = 1 then true
  else if !d.msns.isEmpty then false
  else if !d.unannounced.isEmpty then false
  else if !initialised d m then false
  else true

/-- Session::readOnly -/
def readOnly (d : SessionData) : Bool := d.readOnly

/-- Session::uidnext -/
def uidnext (d : SessionData) : Nat := d.uidnext

/-- Session::uid: the UID of the message with MSN `msn`, or 0. -/
def uid (d : SessionData) (msn : Nat) : Nat := d.msns.value msn

/-- Session::msn: the MSN of the message with UID `uid`, or 0. -/
def msn (d : SessionData) (uid : Nat) : Nat := d.msns.index uid

/-- Session::count -/
def count (d : SessionData) : Nat := d.msns.count

/-- Session::largestUid -/
def largestUid (d : SessionData) : Nat :=
  if d.uidnext = 1 then 1
  else if d.msns.isEmpty then d.uidnext - 1
  else d.msns.largest

/-- Session::recent -/
def recent (d : SessionData) : IntegerSet := d.recent.intersection d.msns

/-- Session::isRecent -/
def isRecent (d : SessionData) (uid : Nat) : Bool := d.recent.contains uid

/-- Session::addRecent( uint uid ) -/
def addRecent (d : SessionData) (uid : Nat) : SessionData :=
  { d with recent := d.recent.add uid }

/-- Session::addRecent( uint start, uint num ): `while ( num-- )
d->recent.add( start++ )`, where `start++` wraps at `2^32`. -/
def addRecentRange (d : SessionData) (start : Nat) : Nat → SessionData
  | 0 => d
  | num + 1 => addRecentRange (addRecent d start) (uintSucc start) num

/-- Session::expunge -/
def expunge (d : SessionData) (uids : IntegerSet) : SessionData :=
  { d with expunges := d.expunges.addSet uids }

/-- Session::setUidnext -/
def setUidnext (d : SessionData) (u : Nat) : SessionData :=
  { d with uidnext := u }

/-- Session::expunged -/
def expunged (d : SessionData) : IntegerSet := d.expunges

/-- Session::messages -/
def messages (d : SessionData) : IntegerSet := d.msns

/-- Session::clearExpunged -/
def clearExpunged (d : SessionData) (uid : Nat) : SessionData :=
  { d with
    msns := d.msns.remove uid
    expunges := d.expunges.remove uid
    unannounced := d.unannounced.remove uid }

/-- Session::earlydeletems -/
def earlydeletems (d : SessionData) (uids : IntegerSet) : SessionData :=
  { d with msns := d.msns.removeSet uids }

/-- Session::nextModSeq -/
def nextModSeq (d : SessionData) : Int := d.nextModSeq

/-- Session::setNextModSeq -/
def setNextModSeq (d : SessionData) (ms : Int) : SessionData :=
  { d with nextModSeq := ms }

/-- Session::unannounced -/
def unannounced (d : SessionData) : IntegerSet := d.unannounced

/-- Session::addUnannounced( const IntegerSet & ) -/
def addUnannouncedSet (d : SessionData) (s : IntegerSet) : SessionData :=
  { d with unannounced := d.unannounced.addSet s }

/-- Session::addUnannounced( uint ) -/
def addUnannounced (d : SessionData) (uid : Nat) : SessionData :=
  { d with unannounced := d.unannounced.add uid }

/-- Session::clearUnannounced -/
def clearUnannounced (d : SessionData) : SessionData :=
  { d with
    msns := d.msns.addSet d.unannounced
    unannounced := IntegerSet.empty }

/-- The part of the constructor Session::Session that fills in the new
object: `other` is `all->firstElement()`, the first session on the mailbox,
when the mailbox has a list of sessions and the list is not empty. -/
def construct (m : Mailbox) (heap : Nat → SessionData) (readOnly : Bool) : SessionData :=
  let d : SessionData := { mailbox := some m.id, readOnly := readOnly }
  let other : Option Nat :=
    match m.sessions with
    | none => none
    | some all => all.head?
  match other with
  | some o =>
    { d with
      uidnext := (heap o).uidnext
      nextModSeq := (heap o).nextModSeq
      msns := ((d.msns.addSet (heap o).msns).addSet (heap o).unannounced).removeSet
        (heap o).expunges }
  | none => d

/-- A call of one of the public functions of Session that change it. -/
inductive Call where
  | addUnannounced (uid : Nat)
  | addUnannouncedSet (s : IntegerSet)
  | clearUnannounced
  | expunge (uids : IntegerSet)
  | clearExpunged (uid : Nat)
  | earlydeletems (uids : IntegerSet)
  | addRecent (uid : Nat)
  | addRecentRange (start num : Nat)
  | setUidnext (u : Nat)
  | setNextModSeq (ms : Int)
deriving DecidableEq, Repr

/-- The session after the call `c`. -/
def Call.apply (c : Call) (d : SessionData) : SessionData :=
  match c with
  | .addUnannounced uid => Session.addUnannounced d uid
  | .addUnannouncedSet s => Session.addUnannouncedSet d s
  | .clearUnannounced => Session.clearUnannounced d
  | .expunge uids => Session.expunge d uids
  | .clearExpunged uid => Session.clearExpunged d uid
  | .earlydeletems uids => Session.earlydeletems d uids
  | .addRecent uid => Session.addRecent d uid
  | .addRecentRange start num => Session.addRecentRange d start num
  | .setUidnext u => Session.setUidnext d u
  | .setNextModSeq ms => Session.setNextModSeq d ms

/-- The session after a sequence of calls, the first of the list made first. -/
def run (cs : List Call) (d : SessionData) : SessionData :=
  cs.foldl (fun acc c => c.apply acc) d

/-- A sequence of calls on the session `d` that keeps to this discipline:
every set handed to `expunge` is a well-formed set of UIDs that are in
`messages()` at the time of the call, and every set handed to
`earlydeletems` is a well-formed set of UIDs none of which is in `expunged()`
at the time of the call. -/
def keepsExpunges : List Call → SessionData → Prop
  | [], _ => True
  | c :: cs, d =>
    (match c with
      | .expunge uids =>
        uids.wf ∧ ∀ u, uids.contains u = true → (messages d).contains u = true
      | .earlydeletems uids =>
        uids.wf ∧ ∀ u, uids.contains u = true → (expunged d).contains u = false
      | _ => True) ∧
    keepsExpunges cs (c.apply d)

end Session

/-! ## SessionInitialiser -/

/-- The enum SessionInitialiserData::State. -/
inductive State where
  | NoTransaction
  | WaitingForLock
  | HaveUidnext
  | ReceivingChanges
  | Updated
  | QueriesDone
deriving DecidableEq, Repr

/-- The position of a state in the order in which the enum lists them. -/
def State.rank : State → Nat
  | State.NoTransaction => 0
  | State.WaitingForLock => 1
  | State.HaveUidnext => 2
  | State.ReceivingChanges => 3
  | State.Updated => 4
  | State.QueriesDone => 5

/-- The class SessionInitialiserData, with the values its constructor gives.
The constructor leaves `oldModSeq` and `newModSeq` without a value, here they
start at 0; findSessions assigns both before anything reads them. The list
`sessions` holds pointers into the heap of sessions. The field `mailbox` is
kept next to this record, in SessionInitialiser. -/
structure SessionInitialiserData where
  sessions : List Nat := []
  t : Option Transaction := none
  recent : Option Query := none
  messages : Option Query := none
  expunges : Option Query := none
  also : Option Nat := none
  oldUidnext : Nat := 0
  newUidnext : Nat := 0
  oldModSeq : Int := 0
  newModSeq : Int := 0
  state : State := State.NoTransaction
  changeRecent : Bool := false
deriving DecidableEq, Repr

/-- A SessionInitialiser at work: its private data `d`, the mailbox that
`d->mailbox` points to, the Session objects, and the calls made so far. -/
structure SessionInitialiser where
  d : SessionInitialiserData
  mailbox : Mailbox
  heap : Nat → SessionData
  trace : List Event

/-- What can stop the embedded code short of a result. -/
inductive Fault where
  /-- a null pointer is dereferenced -/
  | nullPointer
  /-- the bound on the iterations of a loop of the embedding is used up -/
  | outOfFuel
deriving DecidableEq, Repr

namespace SessionInitialiser

/-- The call `f` on the Session object at `p`. -/
def onSession (x : SessionInitialiser) (p : Nat) (f : SessionData → SessionData) :
    SessionInitialiser :=
  { x with heap := Function.update x.heap p (f (x.heap p)) }

/-- SessionInitialiser::submit -/
def submit (x : SessionInitialiser) (q : Query) : SessionInitialiser :=
  { x with trace := x.trace ++ [Event.submit q x.d.t.isSome] }

/-- The loop of findSessions over the sessions of the mailbox: each is appended
to the work list, and `oldUidnext` and `oldModSeq` are lowered to its values
when those are smaller. -/
def findSessionsLoop (heap : Nat → SessionData) :
    List Nat → SessionInitialiserData → SessionInitialiserData
  | [], d => d
  | s :: rest, d =>
    let d1 := { d with sessions := d.sessions ++ [s] }
    let d2 := if Session.uidnext (heap s) < d1.oldUidnext then
      { d1 with oldUidnext := Session.uidnext (heap s) } else d1
    let d3 := if Session.nextModSeq (heap s) < d2.oldModSeq then
      { d2 with oldModSeq := Session.nextModSeq (heap s) } else d2
    findSessionsLoop heap rest d3

/-- SessionInitialiser::findSessions. When `d->also` is set and the mailbox
has a list of sessions, `sessions->append( d->also )` appends to that very
list. -/
def findSessions (x : SessionInitialiser) : SessionInitialiser :=
  let d0 := { x.d with
    newUidnext := x.mailbox.uidnext
    newModSeq := x.mailbox.nextModSeq
    oldUidnext := x.mailbox.uidnext
    oldModSeq := x.mailbox.nextModSeq }
  let sessions : Option (List Nat) :=
    match x.d.also with
    | none => x.mailbox.sessions
    | some a =>
      match x.mailbox.sessions with
      | none => some [a]
      | some l => some (l ++ [a])
  let mailbox :=
    match x.d.also, x.mailbox.sessions with
    | some a, some l => { x.mailbox with sessions := some (l ++ [a]) }
    | _, _ => x.mailbox
  let d1 := findSessionsLoop x.heap (sessions.getD []) d0
  if d1.newUidnext > d1.oldUidnext ∨ d1.newModSeq > d1.oldModSeq then
    { x with d := d1, mailbox := mailbox }
  else if x.mailbox.ordinary then
    { x with d := { d1 with sessions := [] }, mailbox := mailbox }
  else
    { x with d := d1, mailbox := mailbox }

/-- The loop of grabLock, which stops at the first session that is not
read-only; the result is `d->changeRecent` and `highestRecent`. -/
def grabLockLoop (heap : Nat → SessionData) : List Nat → Bool → Nat → Bool × Nat
  | [], changeRecent, highestRecent => (changeRecent, highestRecent)
  | i :: rest, changeRecent, highestRecent =>
    if changeRecent then (changeRecent, highestRecent)
    else
      let changeRecent1 := if !Session.readOnly (heap i) then true else changeRecent
      let r := (heap i).recent.largest
      let highestRecent1 := if r > highestRecent then r else highestRecent
      grabLockLoop heap rest changeRecent1 highestRecent1

/-- SessionInitialiser::grabLock; `highestRecent + 1` and `d->newUidnext - 1`
are computed in `uint`. The call of `log` is left out. -/
def grabLock (x : SessionInitialiser) : SessionInitialiser :=
  let scan := grabLockLoop x.heap x.d.sessions false 0
  let highestRecent := scan.2
  let changeRecent :=
    if uintSucc highestRecent = x.d.newUidnext then false else scan.1
  let recent : Option Query :=
    if highestRecent < uintPred x.d.newUidnext then
      some (Query.new "select first_recent from mailboxes where id=$1" true)
    else x.d.recent
  match recent with
  | some q =>
    let q1 := q.bind 1 x.mailbox.id
    submit { x with d := { x.d with changeRecent := changeRecent, recent := some q1 } } q1
  | none =>
    { x with d := { x.d with changeRecent := changeRecent, recent := none } }

/-- The first loop of emitUpdates: the cursors of each session of the work list
are raised to the new values. -/
def advanceCursors (newUidnext : Nat) (newModSeq : Int) :
    List Nat → (Nat → SessionData) × List Event → (Nat → SessionData) × List Event
  | [], acc => acc
  | s :: rest, (heap, trace) =>
    let (heap1, trace1) :=
      if Session.nextModSeq (heap s) < newModSeq then
        (Function.update heap s (Session.setNextModSeq (heap s) newModSeq),
          trace ++ [Event.setNextModSeq s newModSeq])
      else (heap, trace)
    let (heap2, trace2) :=
      if Session.uidnext (heap1 s) < newUidnext then
        (Function.update heap1 s (Session.setUidnext (heap1 s) newUidnext),
          trace1 ++ [Event.setUidnext s newUidnext])
      else (heap1, trace1)
    advanceCursors newUidnext newModSeq rest (heap2, trace2)

/-- SessionInitialiser::emitUpdates. The second loop calls the virtual
Session::emitUpdates on each session of the work list; the function of the
class Session itself does nothing, so the call is recorded and the session is
left as it is. -/
def emitUpdates (x : SessionInitialiser) : SessionInitialiser :=
  let r := advanceCursors x.d.newUidnext x.d.newModSeq x.d.sessions (x.heap, x.trace)
  { x with
    heap := r.1
    trace := r.2 ++ x.d.sessions.map Event.emitUpdates
    d := { x.d with sessions := [] } }

/-- SessionInitialiser::releaseLock. The transaction answers `failed()` and
`done()` with the values it holds. -/
def releaseLock (x : SessionInitialiser) : SessionInitialiser :=
  let y := emitUpdates x
  match y.d.t with
  | some t =>
    let z := { y with trace := y.trace ++ [Event.commit] }
    if !t.failed && !t.done then z
    else if !t.failed then { z with d := { z.d with state := State.QueriesDone, t := none } }
    else { z with d := { z.d with t := none } }
  | none => { y with d := { y.d with state := State.QueriesDone } }

/-- The first session of the list that is not read-only: the loop
`while ( i && i->readOnly() ) ++i` of findRecent. -/
def firstWritable (heap : Nat → SessionData) : List Nat → Option Nat
  | [] => none
  | i :: rest => if Session.readOnly (heap i) then firstWritable heap rest else some i

/-- The loop `while ( recent < d->newUidnext ) s->addRecent( recent++ )` of
findRecent, which runs `n = d->newUidnext - recent` times; as `recent` stays
below `d->newUidnext`, `recent++` does not wrap. The result is the session and
the value of `recent` after the loop. -/
def addRecentLoop (d : SessionData) (recent : Nat) : Nat → SessionData × Nat
  | 0 => (d, recent)
  | n + 1 => addRecentLoop (Session.addRecent d recent) (recent + 1) n

/-- SessionInitialiser::findRecent -/
def findRecent (x : SessionInitialiser) : SessionInitialiser :=
  match x.d.recent with
  | none => x
  | some q =>
    match q.nextRow with
    | (none, _) => x
    | (some r, q1) =>
      let x1 := { x with d := { x.d with recent := some q1 } }
      let recent := toUint r.first_recent
      let s : Option Nat :=
        match firstWritable x1.heap x1.d.sessions with
        | some i => some i
        | none => x1.d.sessions.head?
      match s with
      | none => x1
      | some s =>
        if recent ≥ x1.d.newUidnext then x1
        else
          let r := addRecentLoop (x1.heap s) recent (x1.d.newUidnext - recent)
          let x2 := onSession x1 s (fun _ => r.1)
          let recent := r.2
          if !x2.d.changeRecent then x2
          else
            let q := Query.new
              "update mailboxes set first_recent=$2 where id=$1 and first_recent<$2" false
            let q := q.bind 1 x2.mailbox.id
            let q := q.bind 2 recent
            submit x2 q

/-- SessionInitialiser::findMailboxChanges -/
def findMailboxChanges (x : SessionInitialiser) : SessionInitialiser :=
  let initialising : Bool := decide (x.d.oldUidnext ≤ 1)
  let msgs := "select mm.uid, mm.modseq from mailbox_messages mm where mm.mailbox=$1 and mm.uid<$2"
  let msgs := if !initialising then msgs ++ " and (mm.uid>=$3 or mm.modseq>=$4)" else msgs
  let m := Query.new msgs true
  let m := m.bind 1 x.mailbox.id
  let m := m.bind 2 x.d.newUidnext
  let m := if !initialising then (m.bind 3 x.d.oldUidnext).bind 4 x.d.oldModSeq else m
  let x1 := submit { x with d := { x.d with messages := some m } } m
  if initialising then x1
  else
    let e := Query.new "select uid from deleted_messages where mailbox=$1 and modseq>=$2" true
    let e := e.bind 1 x1.mailbox.id
    let e := e.bind 2 x1.d.oldModSeq
    submit { x1 with d := { x1.d with expunges := some e } } e

/-- The loop of addToSessions over the work list. -/
def addToSessionsLoop (uid : Nat) (ms : Int) :
    List Nat → (Nat → SessionData) → (Nat → SessionData)
  | [], heap => heap
  | s :: rest, heap =>
    let heap1 :=
      if uid ≥ Session.uidnext (heap s) ∨ ms = 0 ∨ ms ≥ Session.nextModSeq (heap s) then
        Function.update heap s (Session.addUnannounced (heap s) uid)
      else heap
    addToSessionsLoop uid ms rest heap1

/-- SessionInitialiser::addToSessions -/
def addToSessions (x : SessionInitialiser) (uid : Nat) (ms : Int) : SessionInitialiser :=
  { x with heap := addToSessionsLoop uid ms x.d.sessions x.heap }

/-- The loop of recordMailboxChanges over the rows that `nextRow` hands out. -/
def recordMailboxChangesLoop (x : SessionInitialiser) : List Row → SessionInitialiser
  | [] => x
  | r :: rest => recordMailboxChangesLoop (addToSessions x (toUint r.uid) r.modseq) rest

/-- SessionInitialiser::recordMailboxChanges; `d->messages` is dereferenced
without a test. -/
def recordMailboxChanges (x : SessionInitialiser) : Except Fault SessionInitialiser :=
  match x.d.messages with
  | none => Except.error Fault.nullPointer
  | some m =>
    Except.ok (recordMailboxChangesLoop
      { x with d := { x.d with messages := some { m with rows := [] } } } m.rows)

/-- The loop of recordExpunges over the sessions of the work list. -/
def expungeLoop (uids : IntegerSet) : List Nat → (Nat → SessionData) → (Nat → SessionData)
  | [], heap => heap
  | s :: rest, heap =>
    expungeLoop uids rest (Function.update heap s (Session.expunge (heap s) uids))

/-- SessionInitialiser::recordExpunges -/
def recordExpunges (x : SessionInitialiser) : SessionInitialiser :=
  match x.d.expunges with
  | none => x
  | some e =>
    let uids := e.rows.foldl (fun (acc : IntegerSet) r => acc.add (toUint r.uid))
      IntegerSet.empty
    let x1 := { x with d := { x.d with expunges := some { e with rows := [] } } }
    if uids.isEmpty then x1
    else { x1 with heap := expungeLoop uids x1.d.sessions x1.heap }

/-- The assignment `d->state = s`. -/
def setState (x : SessionInitialiser) (s : State) : SessionInitialiser :=
  { x with d := { x.d with state := s } }

/-- One turn of the loop of SessionInitialiser::execute: the `switch`. -/
def executeStep (x : SessionInitialiser) : Except Fault SessionInitialiser :=
  match x.d.state with
  | State.NoTransaction =>
    let x1 := findSessions x
    if x1.d.sessions.isEmpty then
      let x2 := emitUpdates x1
      Except.ok (setState x2 State.QueriesDone)
    else
      let x2 := grabLock x1
      Except.ok (setState x2 State.WaitingForLock)
  | State.WaitingForLock =>
    let x1 := findRecent x
    match x1.d.recent with
    | none => Except.ok (setState x1 State.HaveUidnext)
    | some q =>
      if q.done then Except.ok (setState x1 State.HaveUidnext)
      else Except.ok x1
  | State.HaveUidnext =>
    let x1 := findMailboxChanges x
    Except.ok (setState x1 State.ReceivingChanges)
  | State.ReceivingChanges =>
    match recordMailboxChanges x with
    | Except.error e => Except.error e
    | Except.ok x1 =>
      let x2 := recordExpunges x1
      match x2.d.messages with
      | none => Except.error Fault.nullPointer
      | some m =>
        let expungesDone : Bool :=
          match x2.d.expunges with
          | none => true
          | some e => e.done
        if m.done && expungesDone then Except.ok (setState x2 State.Updated)
        else Except.ok x2
  | State.Updated => Except.ok (releaseLock x)
  | State.QueriesDone => Except.ok x

/-- The loop `do ... while ( state != d->state )` of
SessionInitialiser::execute, for at most `fuel` turns. -/
def executeLoop : Nat → SessionInitialiser → Except Fault SessionInitialiser
  | 0, _ => Except.error Fault.outOfFuel
  | fuel + 1, x =>
    match executeStep x with
    | Except.error e => Except.error e
    | Except.ok y => if x.d.state ≠ y.d.state then executeLoop fuel y else Except.ok y

/-- SessionInitialiser::execute. Six turns of the loop are always enough, see
`executeLoop_six`. -/
def execute (x : SessionInitialiser) : Except Fault SessionInitialiser :=
  match executeLoop 6 x with
  | Except.error e => Except.error e
  | Except.ok y =>
    match y.d.t with
    | some t =>
      if t.failed then
        let z := releaseLock y
        Except.ok { z with d := { z.d with t := none } }
      else Except.ok y
    | none => Except.ok y

/-- The initialiser waits for the database: no query has a row to be read, the
query for the messages is not done, and the state is not Updated. -/
def awaitsDatabase (x : SessionInitialiser) : Prop :=
  (∀ q, x.d.recent = some q → q.rows = []) ∧
  (∀ q, x.d.messages = some q → q.rows = [] ∧ q.done = false) ∧
  (∀ q, x.d.expunges = some q → q.rows = []) ∧
  x.d.state ≠ State.Updated ∧
  (x.d.state = State.ReceivingChanges → x.d.messages ≠ none)

/-- The constructor SessionInitialiser::SessionInitialiser. The parameter `t`
is the subtransaction `t->subTransaction( this )` when the caller hands over a
transaction. -/
def new (mailbox : Mailbox) (heap : Nat → SessionData) (trace : List Event)
    (t : Option Transaction) (also : Option Nat) : Except Fault SessionInitialiser :=
  execute { d := { also := also, t := t }, mailbox := mailbox, heap := heap, trace := trace }

end SessionInitialiser

/-- The constructor Session::Session for the new object at address `self`: the
object is filled in and a SessionInitialiser is created for it. -/
def Session.new (mailbox : Mailbox) (heap : Nat → SessionData) (trace : List Event)
    (self : Nat) (readOnly : Bool) : Except Fault SessionInitialiser :=
  SessionInitialiser.new mailbox
    (Function.update heap self (Session.construct mailbox heap readOnly)) trace none (some self)

/-! ## Worked examples

A mailbox with two sessions, the first read-only and further behind than the
second, and a SessionInitialiser that is receiving the changes for them. -/

namespace Example

/-- A mailbox whose next UID is 10 and whose next modseq is 6. -/
def mailbox : Mailbox :=
  { id := 9, uidnext := 10, nextModSeq := 6, uidvalidity := 1, ordinary := true,
    sessions := some [1, 2] }

/-- Two sessions on the mailbox, at the addresses 1 and 2; every other address
holds a session as SessionData() makes it. -/
def heap : Nat → SessionData := fun p =>
  if p = 1 then
    { readOnly := true, mailbox := some 9, uidnext := 5, nextModSeq := 3, msns := ⟨[(1, 4)]⟩ }
  else if p = 2 then
    { readOnly := false, mailbox := some 9, uidnext := 7, nextModSeq := 4, msns := ⟨[(1, 6)]⟩,
      recent := ⟨[(5, 6)]⟩ }
  else {}

/-- A SessionInitialiser for the two sessions in the state ReceivingChanges. -/
def initialiser : SessionInitialiser :=
  { d :=
      { sessions := [1, 2], oldUidnext := 5, newUidnext := 10, oldModSeq := 3, newModSeq := 6,
        state := State.ReceivingChanges, changeRecent := true }
    mailbox := mailbox
    heap := heap
    trace := [] }

/-- A SessionInitialiser for the two sessions in the state WaitingForLock,
whose query for `first_recent` has been answered with the row 7. -/
def waiting : SessionInitialiser :=
  { d :=
      { sessions := [1, 2], oldUidnext := 5, newUidnext := 10, oldModSeq := 3, newModSeq := 6,
        state := State.WaitingForLock, changeRecent := true,
        recent := some
          { text := "select first_recent from mailboxes where id=$1", owner := true,
            binds := [(1, 9)], rows := [{ first_recent := 7, uid := 0, modseq := 0 }],
            done := true } }
    mailbox := mailbox
    heap := heap
    trace := [] }

/-- A SessionInitialiser for the two sessions in the state ReceivingChanges,
whose query for the messages has not been answered and whose transaction has
failed. -/
def failing : SessionInitialiser :=
  { initialiser with
    d := { initialiser.d with
      t := some { failed := true, done := false }
      messages := some (Query.new "select mm.uid, mm.modseq from mailbox_messages mm" true) } }

/-- What the database does after the first call of `execute()`: the query for
`first_recent` is answered with the row 8 and is done. -/
def answerRecent (x : SessionInitialiser) : SessionInitialiser :=
  { x with
    d := { x.d with
      recent := x.d.recent.map fun q =>
        { q with rows := [{ first_recent := 8, uid := 0, modseq := 0 }], done := true } } }

/-- What the database does after the second call of `execute()`: the message
row `(uid 7, modseq 5)` and the expunge row `uid 3` arrive, and then the
transaction fails before the queries are done. -/
def failWhileReceiving (x : SessionInitialiser) : SessionInitialiser :=
  { x with
    d := { x.d with
      messages := x.d.messages.map fun q =>
        { q with rows := [{ first_recent := 0, uid := 7, modseq := 5 }] }
      expunges := x.d.expunges.map fun q =>
        { q with rows := [{ first_recent := 0, uid := 3, modseq := 5 }] }
      t := some { failed := true, done := false } } }

/-- A run of a SessionInitialiser with a transaction on the example mailbox:
three calls of `execute()`, the first from the constructor, with the database
at work in between; the transaction has failed by the third call. -/
def failedRun : Except Fault SessionInitialiser :=
  match SessionInitialiser.new mailbox heap [] (some { failed := false, done := false }) none with
  | Except.error e => Except.error e
  | Except.ok x1 =>
    match SessionInitialiser.execute (answerRecent x1) with
    | Except.error e => Except.error e
    | Except.ok x2 => SessionInitialiser.execute (failWhileReceiving x2)

end Example

/-! ## Strings and sets as text -/

namespace EString

/-- EString::lower: the letters A to Z become a to z. -/
def lower (s : String) : String := ⟨s.data.map Char.toLower⟩

/-- EString::upper: the letters a to z become A to Z. -/
def upper (s : String) : String := ⟨s.data.map Char.toUpper⟩

/-- EString::startsWith -/
def startsWith (s p : String) : Bool := p.data.isPrefixOf s.data

/-- EString::endsWith -/
def endsWith (s p : String) : Bool := p.data.reverse.isPrefixOf s.data.reverse

/-- EString::mid( start, num ): at most `num` characters from position
`start` on. -/
def mid (s : String) (start num : Nat) : String := ⟨(s.data.drop start).take num⟩

/-- EStringList::join: the strings with `sep` between them. -/
def join (sep : String) : List String → String
  | [] => ""
  | [a] => a
  | a :: b :: rest => a ++ sep ++ join sep (b :: rest)

/-- The function `fn`: a number in decimal. -/
def fn (n : Nat) : String := toString n

end EString

/-- One range of an IntegerSet in IMAP set syntax. -/
def IntegerSet.rangeText (r : Nat × Nat) : String :=
  if r.1 = r.2 then EString.fn r.1 else EString.fn r.1 ++ ":" ++ EString.fn r.2

/-- Modelled from the spec: `IntegerSet::set`, "`set()` renders IMAP set
syntax (`1:9,11`)". -/
def IntegerSet.set (s : IntegerSet) : String :=
  EString.join "," (s.ranges.map IntegerSet.rangeText)

/-! ## FETCH -/

namespace Fetch

/-- Modelled from the spec: class `Section` (`section.h`) is not among the
sources; these are the members fetch.cpp uses, with the values of a new
Section. The member `partial` is called `ranged` here. -/
structure Section where
  id : String := ""
  part : String := ""
  fields : List String := []
  binary : Bool := false
  ranged : Bool := false
  offset : Nat := 0
  length : Nat := 0
  needsAddresses : Bool := false
  needsHeader : Bool := false
  needsBody : Bool := false
  error : String := ""
  item : String := ""
deriving DecidableEq, Repr

/-- What the ImapParser finds where Fetch::parseSection reads: the numbers of
the section-part, whether the section-part ends with a dot that no digit
follows, the result of `dotLetters( 0, 17 )`, the header-cased names of the
header-list, and the text `following()`. -/
structure SectionText where
  numbers : List Nat := []
  dot : Bool := false
  item : String := ""
  fieldNames : List String := []
  following : String := ""
deriving DecidableEq, Repr

/-- The loop of parseSection over the field names, which runs until both
`needsAddresses` and `needsHeader` are set; `isAddressField` says whether
`HeaderField::fieldType` is the type of an address field. -/
def fieldNeeds (isAddressField : String → Bool) : List String → Section → Section
  | [], s => s
  | i :: rest, s =>
    if !s.needsAddresses || !s.needsHeader then
      if isAddressField i then fieldNeeds isAddressField rest { s with needsAddresses := true }
      else fieldNeeds isAddressField rest { s with needsHeader := true }
    else s

/-- Fetch::parseSection -/
def parseSection (isAddressField : String → Bool) (ip : SectionText) (binary : Bool) :
    Section :=
  let s : Section := { binary := binary }
  let dot : Bool := !ip.numbers.isEmpty && ip.dot
  let s := if ip.numbers.isEmpty then s
    else { s with part := EString.join "." (ip.numbers.map EString.fn) }
  let item := EString.lower ip.item
  let s :=
    if binary && !item.isEmpty then
      { s with error := "BINARY with section-text is not legal, saw " ++ item }
    else if item.isEmpty || item = "text" then
      { s with needsBody := true, needsHeader := true, needsAddresses := true }
    else if item = "header" then
      { s with needsHeader := true, needsAddresses := true }
    else if item = "header.fields" || item = "header.fields.not" then
      let s := { s with fields := s.fields ++ ip.fieldNames }
      let s := if item = "header.fields.not" then
        { s with needsAddresses := true, needsHeader := true } else s
      fieldNeeds isAddressField s.fields s
    else if item = "mime" then
      let s := if s.part.isEmpty then { s with error := "MIME requires a section-part." } else s
      { s with needsHeader := true }
    else if dot then
      { s with error := "Expected text, header, header.fields etc, not " ++ item ++
          ip.following }
    else s
  { s with id := item }

/-- The value Fetch::sectionData gives to `s->item`, the label of the item in
the response. The data that sectionData returns are not part of the embedding;
`bodypart` says whether the message has the body part `s->part`. -/
def sectionDataItem (s : Section) (bodypart : Bool) : String :=
  let item : String :=
    if s.id = "rfc822" then EString.upper s.id
    else if s.id = "mime" || s.id = "rfc822.header" || EString.startsWith s.id "header" then
      let rfc822 := s.id = "rfc822.header"
      let fields := EString.startsWith s.id "header.fields"
      let item := EString.upper s.id
      if !rfc822 then
        let item := if !s.part.isEmpty then s.part ++ "." ++ item else item
        let item := "BODY[" ++ item
        let item := if fields then item ++ (" (" ++ EString.join " " s.fields ++ ")") else item
        item ++ "]"
      else item
    else if s.id = "rfc822.text" then EString.upper s.id
    else if s.id = "text" then
      let item := if s.part.isEmpty then "TEXT" else s.part ++ ".TEXT"
      "BODY[" ++ item ++ "]"
    else if (s.id.isEmpty || s.id = "size") && s.part.isEmpty then
      if s.id = "size" then "BINARY.SIZE[]" else "BODY[]"
    else if s.id.isEmpty || s.id = "size" then
      let item := "BODY"
      let item := if !bodypart then (if s.binary then "BINARY" else item) else item
      let item := if s.binary then "BINARY" else item
      let item := if s.id = "size" then "BINARY.SIZE" else item
      item ++ "[" ++ s.part ++ "]"
    else ""
  if s.ranged then item ++ ("<" ++ EString.fn s.offset ++ ">") else item

end Fetch

/-- Modelled from the spec: the kinds of tagged error response that
`Command::error` takes. -/
inductive Error where
  | No
  | Bad
deriving DecidableEq, Repr

/-- Modelled from the spec: the execution states of a Command, "`Unparsed →
Executing → Finished → Retired`". -/
inductive CommandState where
  | Unparsed
  | Blocked
  | Executing
  | Finished
  | Retired
deriving DecidableEq, Repr

/-- Modelled from the spec: class `Annotation` (`annotation.h`) is not among
the sources: an entry name, the id of the owner, 0 for a shared annotation, and
a value. -/
structure Annotation where
  entryName : String
  ownerId : Nat
  value : String
deriving DecidableEq, Repr

namespace Fetch

/-- Modelled from the spec: class `Message` (`message.h`) is not among the
sources. A message as FETCH needs it: the values `uid()`, `modSeq()` and
`rfc822Size()`, the names of its flags, its annotations, the texts that
Fetch::internalDate, Fetch::envelope and Fetch::bodyStructure make of it, the
quoted data of the sections asked for, and which kinds of data have been
fetched for it. -/
structure Message where
  uid : Nat := 0
  modSeq : Int := 0
  rfc822Size : Nat := 0
  flagNames : List String := []
  annotations : List Annotation := []
  internalDate : String := ""
  envelope : String := ""
  body : String := ""
  bodystructure : String := ""
  sectionData : List (String × String) := []
  bodyparts : List String := []
  hasAddresses : Bool := false
  hasHeaders : Bool := false
  hasBytesAndLines : Bool := false
  hasBodies : Bool := false
  hasTrivia : Bool := false
  hasFlags : Bool := false
  hasAnnotations : Bool := false
deriving DecidableEq, Repr

/-- The kinds of data a Fetcher is asked for. -/
inductive FetcherKind where
  | Addresses
  | OtherHeader
  | Body
  | PartNumbers
  | Flags
  | Trivia
  | Annotations
deriving DecidableEq, Repr

/-- The class FetchData, with the values its constructor gives. `timer` says
whether the Timer exists. -/
structure FetchData where
  state : Int := 0
  peek : Bool := true
  set : IntegerSet := IntegerSet.empty
  expunged : IntegerSet := IntegerSet.empty
  requested : List Message := []
  available : List String := []
  changedSince : Int := 0
  notThose : Option Query := none
  timer : Bool := false
  responseRate : Nat := 0
  uid : Bool := false
  flags : Bool := false
  envelope : Bool := false
  body : Bool := false
  bodystructure : Bool := false
  internaldate : Bool := false
  rfc822size : Bool := false
  annotation : Bool := false
  modseq : Bool := false
  sections : List Section := []
  needsHeader : Bool := false
  needsAddresses : Bool := false
  needsBody : Bool := false
  needsPartNumbers : Bool := false
  entries : List String := []
  attribs : List String := []
deriving DecidableEq, Repr

end Fetch

/-- A Fetch command: its FetchData, and of the Command it is: the group, the
execution state, the error recorded by `error()` if any, the untagged
responses handed to `respond()`; besides, the message sets of the
SeenFlagSetters it has created, the requests it has made of its Fetcher, the
queries it has executed and the sets handed to
ImapSession::recordExpungedFetch. -/
structure Fetch where
  d : Fetch.FetchData := {}
  group : Nat := 0
  state : CommandState := CommandState.Unparsed
  error : Option (Error × String) := none
  responses : List String := []
  seenFlagSetters : List IntegerSet := []
  fetcher : List Fetch.FetcherKind := []
  queries : List Query := []
  expungedFetches : List IntegerSet := []
deriving DecidableEq, Repr

namespace Fetch

/-- Modelled from the spec: `Command::error`: the first error is recorded and
the command is finished. -/
def setError (f : Fetch) (e : Error) (text : String) : Fetch :=
  match f.error with
  | some _ => f
  | none => { f with error := some (e, text), state := CommandState.Finished }

/-- Modelled from the spec: `Command::ok`. -/
def ok (f : Fetch) : Bool := f.error.isNone

/-- Modelled from the spec: `Command::finish`. -/
def finish (f : Fetch) : Fetch := { f with state := CommandState.Finished }

/-- Modelled from the spec: `Command::respond`. -/
def respond (f : Fetch) (r : String) : Fetch := { f with responses := f.responses ++ [r] }

/-- The constructor Fetch::Fetch( bool u ). -/
def new (u : Bool) : Fetch :=
  { d := { uid := u }, group := if u then 1 else 2 }

/-- What the parser finds where Fetch::parseAttribute reads one attribute:
the result of `dotLetters( 3, 13 )`, whether the next character is `[`, and for
a section what parseSection and parseBody read: the section text, whether `]`
follows, and the range `<offset.length>` if there is one; for ANNOTATION the
entries and the attributes. -/
structure AttributeText where
  keyword : String
  bracket : Bool := false
  sectionText : SectionText := {}
  closing : Bool := true
  range : Option (Nat × Nat) := none
  entries : List String := []
  attribs : List String := []
deriving DecidableEq, Repr

/-- Fetch::parseBody -/
def parseBody (isAddressField : String → Bool) (f : Fetch) (a : AttributeText)
    (binary : Bool) : Fetch :=
  let s := parseSection isAddressField a.sectionText binary
  if !s.error.isEmpty then setError f Error.Bad s.error
  else
    let f := if a.closing then f else setError f Error.Bad "Expected: ]"
    let s := match a.range with
      | some (offset, length) => { s with ranged := true, offset := offset, length := length }
      | none => s
    let d := { f.d with sections := f.d.sections ++ [s] }
    let d := if s.needsAddresses then { d with needsAddresses := true } else d
    let d := if s.needsHeader then { d with needsHeader := true } else d
    let d := if s.needsBody then { d with needsBody := true } else d
    { f with d := d }

/-- The table `legalAnnotationAttributes`. -/
def legalAnnotationAttributes : List String :=
  ["value", "value.priv", "value.shared", "size", "size.priv", "size.shared"]

/-- The function `record`: `a` is appended to the list unless the dictionary
has it, and is put into the dictionary. -/
def record (l : List String) (dict : List String) (a : String) : List String × List String :=
  (if !dict.contains (EString.lower a) then l ++ [a] else l, dict ++ [EString.lower a])

/-- The loop of Fetch::parseAnnotation over the attributes. -/
def parseAnnotationAttribs : List String → Fetch → List String → Fetch
  | [], f, _ => f
  | a :: rest, f, dict =>
    let f := if legalAnnotationAttributes.contains a then f
      else setError f Error.Bad ("Unknown annotation attribute: " ++ a)
    if EString.endsWith a ".priv" || EString.endsWith a ".shared" then
      let r := record f.d.attribs dict a
      parseAnnotationAttribs rest { f with d := { f.d with attribs := r.1 } } r.2
    else
      let r1 := record f.d.attribs dict (a ++ ".priv")
      let r2 := record r1.1 r1.2 (a ++ ".shared")
      parseAnnotationAttribs rest { f with d := { f.d with attribs := r2.1 } } r2.2

/-- Fetch::parseAnnotation -/
def parseAnnotation (f : Fetch) (a : AttributeText) : Fetch :=
  let f := { f with d := { f.d with entries := f.d.entries ++ a.entries } }
  parseAnnotationAttribs a.attribs f []

/-- The branch of Fetch::parseAttribute for `binary.size[`: the section
parseBody has appended gets the id `size`. -/
def parseBinarySize (isAddressField : String → Bool) (f : Fetch) (a : AttributeText) :
    Fetch :=
  let f := parseBody isAddressField f a true
  match f.d.sections.getLast? with
  | none => f
  | some s =>
    let s1 := { s with id := "size" }
    let f := { f with d := { f.d with sections := f.d.sections.dropLast ++ [s1] } }
    let f := if s1.ranged then
      setError f Error.Bad "Fetching partial BINARY.SIZE is not meaningful" else f
    if s1.part.isEmpty then { f with d := { f.d with rfc822size := true } } else f

/-- Fetch::parseAttribute -/
def parseAttribute (isAddressField : String → Bool) (f : Fetch) (a : AttributeText)
    (alsoMacro : Bool) : Fetch :=
  let keyword := EString.lower a.keyword
  if alsoMacro && keyword = "all" then
    { f with d := { f.d with flags := true, envelope := true, internaldate := true,
                             rfc822size := true } }
  else if alsoMacro && keyword = "full" then
    { f with d := { f.d with flags := true, envelope := true, body := true,
                             internaldate := true, rfc822size := true } }
  else if alsoMacro && keyword = "fast" then
    { f with d := { f.d with flags := true, internaldate := true, rfc822size := true } }
  else if keyword = "envelope" then { f with d := { f.d with envelope := true } }
  else if keyword = "flags" then { f with d := { f.d with flags := true } }
  else if keyword = "internaldate" then { f with d := { f.d with internaldate := true } }
  else if keyword = "rfc822" then
    { f with d := { f.d with peek := false, needsAddresses := true, needsHeader := true,
                             needsBody := true,
                             sections := f.d.sections ++ [{ id := keyword }] } }
  else if keyword = "rfc822.header" then
    { f with d := { f.d with needsAddresses := true, needsHeader := true,
                             sections := f.d.sections ++ [{ id := keyword }] } }
  else if keyword = "rfc822.size" then { f with d := { f.d with rfc822size := true } }
  else if keyword = "annotation" then
    parseAnnotation { f with d := { f.d with annotation := true } } a
  else if keyword = "rfc822.text" then
    { f with d := { f.d with peek := false, needsHeader := true, needsBody := true,
                             sections := f.d.sections ++ [{ id := keyword }] } }
  else if keyword = "body.peek" && a.bracket then parseBody isAddressField f a false
  else if keyword = "body" then
    if a.bracket then
      parseBody isAddressField { f with d := { f.d with peek := false } } a false
    else { f with d := { f.d with body := true } }
  else if keyword = "bodystructure" then { f with d := { f.d with bodystructure := true } }
  else if keyword = "uid" then { f with d := { f.d with uid := true } }
  else if keyword = "binary.peek" && a.bracket then parseBody isAddressField f a true
  else if keyword = "binary" && a.bracket then
    parseBody isAddressField { f with d := { f.d with peek := false } } a true
  else if keyword = "binary.size" && a.bracket then parseBinarySize isAddressField f a
  else if keyword = "modseq" then { f with d := { f.d with modseq := true } }
  else setError f Error.Bad ("expected fetch attribute, saw word " ++ keyword)

/-- Fetch::parseFetchModifier, for the atom `name` and the number after it. -/
def parseFetchModifier (f : Fetch) (m : String × Nat) : Fetch :=
  if EString.lower m.1 = "changedsince" then
    { f with d := { f.d with changedSince := m.2, modseq := true } }
  else setError f Error.Bad ("Unknown fetch modifier: " ++ EString.lower m.1)

/-- What the parser finds where Fetch::parse reads: the message set, already
turned into UIDs, whether the attributes are in parentheses, the attributes,
and the fetch modifiers. -/
structure FetchText where
  target : IntegerSet
  parenthesised : Bool
  attributes : List AttributeText
  modifiers : List (String × Nat) := []
deriving DecidableEq, Repr

/-- The part of Fetch::parse that reads the attributes: a parenthesised list
of attributes, or one attribute or macro. Without parentheses there is one
attribute, and `end()` rejects what follows it. -/
def parseAttributes (isAddressField : String → Bool) (f : Fetch) (t : FetchText) : Fetch :=
  if t.parenthesised then
    t.attributes.foldl (fun acc a => parseAttribute isAddressField acc a false) f
  else
    match t.attributes with
    | [] => setError f Error.Bad "Expected: fetch attribute"
    | a :: rest =>
      let f := parseAttribute isAddressField f a true
      if rest.isEmpty then f else setError f Error.Bad "Expected: end of command"

/-- The end of Fetch::parse: what ENVELOPE, BODY and BODYSTRUCTURE need. -/
def parseNeeds (f : Fetch) : Fetch :=
  let f := if f.d.envelope then
    { f with d := { f.d with needsHeader := true, needsAddresses := true } } else f
  let f := if f.d.body || f.d.bodystructure then
    { f with d := { f.d with needsHeader := true, needsAddresses := true,
                             needsPartNumbers := true } } else f
  f

/-- Fetch::parse; the call of `log` is left out. -/
def parse (isAddressField : String → Bool) (f : Fetch) (t : FetchText) : Fetch :=
  let f := { f with d := { f.d with set := t.target } }
  let f := parseAttributes isAddressField f t
  let f := t.modifiers.foldl parseFetchModifier f
  parseNeeds f

end Fetch

namespace Fetch

/-- What a Fetch command works with: the ImapSession, of which the part that
is a Session is used, the selected mailbox, the id of the user if there is
one, the messages in the MessageCache, and three functions of classes that are
not among the sources: whether `HeaderField::fieldType` is the type of an
address field, whether `Mailbox::match` returns 2 for a pattern and an entry
name, and `Command::imapQuoted`. -/
structure Context where
  session : SessionData
  mailbox : Mailbox
  user : Option Nat
  cache : Nat → Option Message
  isAddressField : String → Bool
  matchesEntry : String → String → Bool
  imapQuoted : String → String

/-- Fetch::flagList -/
def flagList (m : Message) (uid : Nat) (session : Option SessionData) : String :=
  let r : List String :=
    match session with
    | some s => if Session.isRecent s uid then ["\\recent"] else []
    | none => []
  EString.join " " (r ++ m.flagNames)

/-- Modelled from the spec: `Dict::find` on a dictionary held as a list of
keys and values. -/
def dictFind {α : Type} (d : List (String × α)) (k : String) : Option α :=
  match d.find? (fun e => e.1 = k) with
  | some e => some e.2
  | none => none

/-- Modelled from the spec: `Dict::insert`: the value for the key is
replaced. -/
def dictInsert {α : Type} (d : List (String × α)) (k : String) (v : α) : List (String × α) :=
  d.filter (fun e => e.1 ≠ k) ++ [(k, v)]

/-- The first loop of Fetch::annotation, over the annotations of the message:
the result is the dictionary `entries` and the list `entryNames`. -/
def annotationEntries (matchesEntry : String → String → Bool) (user : Nat)
    (entrySpecs : List String) :
    List Annotation → List (String × List (String × String)) × List String →
      List (String × List (String × String)) × List String
  | [], acc => acc
  | a :: rest, (entries, entryNames) =>
    let entry := a.entryName
    let entryWanted := entrySpecs.any (fun e => matchesEntry e entry)
    let entryNames :=
      if entryWanted && (dictFind entries entry).isNone then entryNames ++ [entry]
      else entryNames
    let entries :=
      if (a.ownerId = 0 || a.ownerId = user) && entryWanted then
        let atts := (dictFind entries entry).getD []
        let suffix := if a.ownerId ≠ 0 then ".priv" else ".shared"
        let atts := dictInsert atts ("value" ++ suffix) a.value
        let atts := dictInsert atts ("size" ++ suffix) (EString.fn a.value.length)
        dictInsert entries entry atts
      else entries
    annotationEntries matchesEntry user entrySpecs rest (entries, entryNames)

/-- The loop of Fetch::annotation over the attributes, for one entry. -/
def annotationAttributes (imapQuoted : String → String)
    (atts : Option (List (String × String))) : List String → String
  | [] => ""
  | attrib :: rest =>
    let value : Option String :=
      match atts with
      | some d => dictFind d attrib
      | none => none
    let tmp := attrib ++ " " ++
      (match value with
        | some v => imapQuoted v
        | none => if EString.startsWith attrib "size." then "\"0\"" else "NIL")
    if rest.isEmpty then tmp else tmp ++ " " ++ annotationAttributes imapQuoted atts rest

/-- The loop of Fetch::annotation over the entry names. -/
def annotationText (imapQuoted : String → String)
    (entries : List (String × List (String × String))) (attributes : List String) :
    List String → String
  | [] => ""
  | entry :: rest =>
    let tmp := annotationAttributes imapQuoted (dictFind entries entry) attributes
    let r := if !tmp.isEmpty then entry ++ " (" ++ tmp ++ ")" else entry
    if rest.isEmpty then r else r ++ " " ++ annotationText imapQuoted entries attributes rest

/-- Fetch::annotation for a message with the annotations `annotations`;
`isMessage` is `m->isMessage()` and `u` is the id of the user, if there is
one. -/
def annotation (matchesEntry : String → String → Bool) (imapQuoted : String → String)
    (isMessage : Bool) (annotations : List Annotation) (u : Option Nat)
    (entrySpecs attributes : List String) : String :=
  if !isMessage then ""
  else
    let user := u.getD 0
    let r := annotationEntries matchesEntry user entrySpecs annotations ([], [])
    "(" ++ annotationText imapQuoted r.1 attributes r.2 ++ ")"

/-- The function `sectionResponse`: the label that sectionData gives the
section, a space, and the data, which are those the message holds under that
label, or NIL. -/
def sectionResponse (s : Section) (m : Message) : String :=
  let item := sectionDataItem s (m.bodyparts.contains s.part)
  item ++ " " ++ ((dictFind m.sectionData item).getD "NIL")

/-- Fetch::makeFetchResponse -/
def makeFetchResponse (ctx : Context) (f : Fetch) (m : Message) (uid msn : Nat) : Fetch :=
  let l : List String := []
  let l := if f.d.uid then l ++ ["UID " ++ EString.fn uid] else l
  let l := if f.d.rfc822size then l ++ ["RFC822.SIZE " ++ EString.fn m.rfc822Size] else l
  let l := if f.d.flags then
    l ++ ["FLAGS (" ++ flagList m uid (some ctx.session) ++ ")"] else l
  let l := if f.d.internaldate then l ++ ["INTERNALDATE " ++ m.internalDate] else l
  let l := if f.d.envelope then l ++ ["ENVELOPE " ++ m.envelope] else l
  let l := if f.d.body then l ++ ["BODY " ++ m.body] else l
  let l := if f.d.bodystructure then l ++ ["BODYSTRUCTURE " ++ m.bodystructure] else l
  let l := if f.d.annotation then
    l ++ ["ANNOTATION " ++ annotation ctx.matchesEntry ctx.imapQuoted true m.annotations
      ctx.user f.d.entries f.d.attribs] else l
  let l := if f.d.modseq then
    l ++ ["MODSEQ (" ++ toString m.modSeq ++ ")"] else l
  let l := l ++ f.d.sections.map (fun s => sectionResponse s m)
  let sections := f.d.sections.map
    (fun s => { s with item := sectionDataItem s (m.bodyparts.contains s.part) })
  let r := EString.fn msn ++ " FETCH (" ++ EString.join " " l ++ ")"
  { f with d := { f.d with available := f.d.available ++ [r], sections := sections } }

/-- The loop of Fetch::pickup over the requested messages; the call of
ImapSession::addFlags is left out. -/
def pickupLoop (ctx : Context) : List Message → Fetch → Fetch
  | [], f => { f with d := { f.d with requested := [] } }
  | m :: rest, f =>
    let msn := Session.msn ctx.session m.uid
    let ok : Bool :=
      !(f.d.needsAddresses && !m.hasAddresses) &&
      !(f.d.needsHeader && !m.hasHeaders) &&
      !(f.d.needsPartNumbers && !m.hasBytesAndLines) &&
      !(f.d.needsBody && !m.hasBodies) &&
      !(f.d.flags && !m.hasFlags) &&
      !((f.d.rfc822size || f.d.internaldate || f.d.modseq) && !m.hasTrivia) &&
      !(f.d.annotation && !m.hasAnnotations) &&
      !(m.uid = 0) && !(msn = 0)
    if ok then pickupLoop ctx rest (makeFetchResponse ctx f m m.uid msn)
    else { f with d := { f.d with requested := m :: rest } }

/-- Fetch::pickup; the calls of `log` are left out. -/
def pickup (ctx : Context) (f : Fetch) : Fetch := pickupLoop ctx f.d.requested f

/-- Fetch::trickle; the calls of `log` and of emitUntaggedResponses are left
out. -/
def trickle (ctx : Context) (f : Fetch) : Fetch :=
  if f.state = CommandState.Finished ∨ f.state = CommandState.Retired then
    { f with d := { f.d with timer := false } }
  else
    let f := pickup ctx f
    let r := f.d.available.length / 30
    let responseRate :=
      if r > f.d.responseRate then r
      else if r < 2 ∧ f.d.responseRate > 1 then 1
      else f.d.responseRate
    { f with
      responses := f.responses ++ f.d.available.take responseRate
      d := { f.d with responseRate := responseRate,
                      available := f.d.available.drop responseRate } }

/-- Modelled from the spec: `Command::shrink`, which removes from the set the
UIDs that are pending expunges of the session. -/
def shrink (ctx : Context) (set : IntegerSet) : IntegerSet :=
  set.removeSet (Session.expunged ctx.session)

/-- The message Fetch::sendFetchQueries takes for a UID: the one in the
MessageCache, without its flags and annotations when it is older than the
mailbox, or a new one. -/
def requestedMessage (ctx : Context) (uid : Nat) : Message :=
  let m : Message :=
    match ctx.cache uid with
    | none => {}
    | some m =>
      if m.modSeq + 1 < ctx.mailbox.nextModSeq then
        { m with hasFlags := false, hasAnnotations := false, modSeq := 0 }
      else m
  { m with uid := uid }

/-- Fetch::sendFetchQueries: the UIDs of the set become the requested
messages, in ascending order, and the Fetcher is asked for the kinds of data
that are needed and that some message lacks. -/
def sendFetchQueries (ctx : Context) (f : Fetch) : Fetch :=
  let l := f.d.set.members.map (requestedMessage ctx)
  let d := { f.d with set := IntegerSet.empty, requested := f.d.requested ++ l, timer := true }
  let k : List FetcherKind := []
  let k := if d.needsAddresses && !l.all (·.hasAddresses) then
    k ++ [FetcherKind.Addresses] else k
  let k := if d.needsHeader && !l.all (·.hasHeaders) then
    k ++ [FetcherKind.OtherHeader] else k
  let k := if d.needsBody && !l.all (·.hasBodies) then k ++ [FetcherKind.Body] else k
  let k := if d.needsPartNumbers && !l.all (·.hasBytesAndLines) then
    k ++ [FetcherKind.PartNumbers] else k
  let k := if d.flags && !l.all (·.hasFlags) then k ++ [FetcherKind.Flags] else k
  let k := if (d.rfc822size || d.internaldate || d.modseq) && !l.all (·.hasTrivia) then
    k ++ [FetcherKind.Trivia] else k
  let k := if d.annotation && !l.all (·.hasAnnotations) then
    k ++ [FetcherKind.Annotations] else k
  { f with d := d, fetcher := f.fetcher ++ k }

/-- The part of Fetch::execute for `d->state == 0`: the result says whether
`execute()` returns there. The text of the query depends on
`IntegerSet::where` and is left out. -/
def executeChangedSince (ctx : Context) (f : Fetch) : Fetch × Bool :=
  if f.d.changedSince ≠ 0 then
    let q : Query :=
      match f.d.notThose with
      | some q => q
      | none => ((Query.new "select uid from mailbox_messages" true).bind 1
          ctx.mailbox.id).bind 2 f.d.changedSince
    let f := if f.d.notThose.isNone then { f with queries := f.queries ++ [q] } else f
    let set := q.rows.foldl (fun (acc : IntegerSet) r => acc.remove (toUint r.uid)) f.d.set
    let f := { f with d := { f.d with set := set, notThose := some { q with rows := [] } } }
    if !q.done then (f, true)
    else ({ f with d := { f.d with state := 1 } }, false)
  else ({ f with d := { f.d with state := 1 } }, false)

/-- The end of Fetch::execute, from `pickup()` on. -/
def executeFinish (ctx : Context) (f : Fetch) : Fetch :=
  let f := pickup ctx f
  if !f.d.requested.isEmpty then f
  else
    let f := { f with responses := f.responses ++ f.d.available,
                      d := { f.d with available := [] } }
    let f :=
      if !f.d.expunged.isEmpty then
        setError { f with expungedFetches := f.expungedFetches ++ [f.d.expunged] } Error.No
          ("UID(s) " ++ f.d.expunged.set ++ " has/have been expunged")
      else f
    finish f

/-- The part of Fetch::execute for `d->state == 2`: the expunged UIDs are
remembered for a FETCH that is not a UID FETCH, and leave the set. -/
def executeShrink (ctx : Context) (f : Fetch) : Fetch :=
  if f.d.state = 2 then
    let f := if f.group = 2 then
      { f with d := { f.d with
          expunged := (Session.expunged ctx.session).intersection f.d.set } }
      else f
    let f := { f with d := { f.d with set := shrink ctx f.d.set, state := 3 } }
    if f.d.set.isEmpty then { f with d := { f.d with state := 5 } } else f
  else f

/-- The part of Fetch::execute from `d->state == 3` on. -/
def executeFetch (ctx : Context) (f : Fetch) : Fetch :=
  let f := if f.d.state = 3 then
    sendFetchQueries ctx { f with d := { f.d with state := 4 } } else f
  if f.d.state < 4 then f
  else executeFinish ctx f

/-- The part of Fetch::execute that goes by `d->state`. A new SeenFlagSetter
is recorded with the message set it is given; what it does then is not part of
the embedding. -/
def executeStates (ctx : Context) (f : Fetch) : Fetch :=
  let r : Fetch × Bool := if f.d.state = 0 then executeChangedSince ctx f else (f, false)
  if r.2 then r.1
  else
    let f := r.1
    if f.d.state = 1 ∧ !f.d.peek then
      { f with d := { f.d with state := 2 }, seenFlagSetters := f.seenFlagSetters ++ [f.d.set] }
    else
      let f := if f.d.state = 1 then { f with d := { f.d with state := 2 } } else f
      executeFetch ctx (executeShrink ctx f)

/-- Fetch::execute -/
def execute (ctx : Context) (f : Fetch) : Fetch :=
  if f.state ≠ CommandState.Executing then f
  else
    executeStates ctx
      (if !f.d.peek && Session.readOnly ctx.session then
        { f with d := { f.d with peek := true } } else f)

end Fetch

namespace Fetch

/-- Parsing went from `f` to `f1` without dropping an error: `f1` has the
error of `f`, or `f` had none and `f1` has a BAD. -/
def errorKept (f f1 : Fetch) : Prop :=
  f1.error = f.error ∨ (f.error = none ∧ ∃ msg, f1.error = some (Error.Bad, msg))

/-- Parsing went from `f` to `f1` and left alone what is not a request field:
the state of the execution, the message set, the CHANGEDSINCE value and the
SeenFlagSetters. -/
def parseKeeps (f f1 : Fetch) : Prop :=
  f1.d.state = f.d.state ∧ f1.d.set = f.d.set ∧ f1.d.changedSince = f.d.changedSince ∧
  f1.seenFlagSetters = f.seenFlagSetters

/-- The attributes that clear `d->peek` in Fetch::parseAttribute: RFC822,
RFC822.TEXT, BODY[ and BINARY[. -/
def clearsPeek (a : AttributeText) : Bool :=
  EString.lower a.keyword = "rfc822" || EString.lower a.keyword = "rfc822.text" ||
  ((EString.lower a.keyword = "body" || EString.lower a.keyword = "binary") && a.bracket)

/-- The names of the macros of FETCH. -/
def isMacro (a : AttributeText) : Bool :=
  EString.lower a.keyword = "all" || EString.lower a.keyword = "full" ||
  EString.lower a.keyword = "fast"

end Fetch

namespace Example

/-- A message as the cache holds it: UID `u`, modseq 5, flag \Seen. -/
def message (u : Nat) : Fetch.Message :=
  { uid := u, modSeq := 5, rfc822Size := 42, flagNames := ["\\Seen"],
    internalDate := "\"01-Jan-2020 00:00:00 +0000\"", envelope := "(...)",
    hasFlags := true, hasTrivia := true, hasAddresses := true, hasHeaders := true }

/-- A read-write session with the messages 1:9, of which UID 5 is a pending
expunge. -/
def imapSession : SessionData :=
  { readOnly := false, msns := ⟨[(1, 9)]⟩, expunges := ⟨[(5, 5)]⟩, uidnext := 10,
    nextModSeq := 6 }

/-- A context for FETCH: the session `imapSession`, user 42, every message in
the cache. -/
def fetchContext : Fetch.Context where
  session := imapSession
  mailbox := mailbox
  user := some 42
  cache := fun u => some (message u)
  isAddressField := fun _ => false
  matchesEntry := fun a b => a = b
  imapQuoted := fun s => "\"" ++ s ++ "\""

end Example

namespace Example

/-- The text of `UID FETCH 7 ALL`. -/
def fetchAll : Fetch.FetchText :=
  { target := ⟨[(7, 7)]⟩, parenthesised := false, attributes := [{ keyword := "ALL" }] }

/-- The text of `UID FETCH 5 FLAGS` and of `FETCH 5 FLAGS`, the message set
turned into UIDs. -/
def fetchFlags : Fetch.FetchText :=
  { target := ⟨[(5, 5)]⟩, parenthesised := false, attributes := [{ keyword := "FLAGS" }] }

/-- The text of `FETCH 4:6 FLAGS`, the message set turned into UIDs. -/
def fetchRange : Fetch.FetchText :=
  { target := ⟨[(4, 6)]⟩, parenthesised := false, attributes := [{ keyword := "FLAGS" }] }

/-- A Fetch that is being executed, from the text of the command. -/
def fetch (u : Bool) (t : Fetch.FetchText) : Fetch :=
  { Fetch.parse fetchContext.isAddressField (Fetch.new u) t with
    state := CommandState.Executing }

end Example

namespace Example

/-- A Fetch that has trickled at a rate of 10 before and has 90 responses
queued. -/
def trickling : Fetch :=
  { state := CommandState.Executing,
    d := { state := 4, responseRate := 10, available := List.replicate 90 "1 FETCH (UID 1)" } }

end Example

/-- EString::contains: `p` stands somewhere in `s`. -/
def EString.contains (s p : String) : Bool := s.data.tails.any (fun t => p.data.isPrefixOf t)

/-! ## STORE -/

namespace Store

/-- The enum StoreData::Op. -/
inductive Op where
  | AddFlags
  | ReplaceFlags
  | RemoveFlags
  | ReplaceAnnotations
deriving DecidableEq, Repr

/-- Modelled from the spec: the rights of class `Permissions` that store.cpp
names. -/
inductive Right where
  | Read
  | KeepSeen
  | DeleteMessages
  | Write
  | WriteSharedAnnotation
deriving DecidableEq, Repr

/-- A row of the table mailbox_messages in the selected mailbox, with the
columns STORE reads and writes. -/
structure MessageRow where
  uid : Nat
  modseq : Int
  seen : Bool := false
  deleted : Bool := false
deriving DecidableEq, Repr

/-- The queries Store::execute hands to its transaction, with the values
bound to them; `text` is the SQL text where the code builds it. -/
inductive Statement where
  | obtainModSeq (mailbox : Nat)
  | findSet (uids : IntegerSet) (modseqSmaller : Option Nat)
  | presentFlags (mailbox : Nat) (uids flags : IntegerSet)
  | deleteFlags (text : String) (mailbox : Nat) (uids flags : IntegerSet)
  | copyFlags (lines : List (Nat × Nat × Nat))
  | deleteAnnotation (text : String) (mailbox : Nat) (uids : IntegerSet) (name : Nat)
      (owner : Option Nat)
  | updateAnnotation (text : String) (value : String) (mailbox : Nat) (uids : IntegerSet)
      (name : Nat) (owner : Option Nat)
  | insertAnnotation (text : String) (value : String) (mailbox : Nat) (uids : IntegerSet)
      (name : Nat) (owner : Option Nat)
  | modseqUpdate (text : String) (modseq : Int) (mailbox : Nat) (uids : IntegerSet)
      (changed : Option IntegerSet)
  | nextModSeq (value : Int) (mailbox : Nat)
deriving DecidableEq, Repr

/-- Whether a statement is the update of `mailboxes.nextmodseq`. -/
def Statement.isNextModSeq : Statement → Bool
  | Statement.nextModSeq _ _ => true
  | _ => false

/-- Whether a statement can change a row that belongs to the message `uid`:
a row of flags, of annotations or of mailbox_messages. For the update of
mailbox_messages this is its first condition `uid=any($3)`. -/
def Statement.writes (q : Statement) (uid : Nat) : Bool :=
  match q with
  | Statement.deleteFlags _ _ uids _ => uids.contains uid
  | Statement.copyFlags lines => lines.any (fun l => l.2.1 = uid)
  | Statement.deleteAnnotation _ _ uids _ _ => uids.contains uid
  | Statement.updateAnnotation _ _ _ uids _ _ => uids.contains uid
  | Statement.insertAnnotation _ _ _ uids _ _ => uids.contains uid
  | Statement.modseqUpdate _ _ _ uids _ => uids.contains uid
  | _ => false

/-- Whether `uid` is in a set of UIDs bound to a statement that writes. -/
def Statement.binds (q : Statement) (uid : Nat) : Bool :=
  match q with
  | Statement.modseqUpdate _ _ _ uids changed =>
    uids.contains uid ||
      (match changed with
        | some c => c.contains uid
        | none => false)
  | _ => q.writes uid

/-- The class StoreData, with the values its constructor gives. The queries
it points to are in the list of statements of the Store, and `obtainModSeq`
says whether that query exists; `present` is the Map from flag ids to sets of
UIDs. -/
structure StoreData where
  specified : IntegerSet := IntegerSet.empty
  s : IntegerSet := IntegerSet.empty
  expunged : IntegerSet := IntegerSet.empty
  flagNames : List String := []
  op : Op := Op.ReplaceFlags
  silent : Bool := false
  uid : Bool := false
  checkedPermission : Bool := false
  seen : Bool := false
  deleted : Bool := false
  unchangedSince : Nat := 0
  seenUnchangedSince : Bool := false
  sentWorkQueries : Bool := false
  modseq : Int := 0
  present : List (Nat × IntegerSet) := []
  annotations : List Annotation := []
  changeSeen : Bool := false
  changeDeleted : Bool := false
  newSeen : Bool := false
  newDeleted : Bool := false
  changedUids : IntegerSet := IntegerSet.empty
  sentNextModSeq : Bool := false
  obtainModSeq : Bool := false
deriving DecidableEq, Repr

end Store

/-- A Store command: its StoreData, and of the Command it is: the execution
state, the error recorded by `error()` if any, the response code set by
`setRespTextCode`, the untagged responses, the rights asked for with
`requireRight`; of its transaction the statements enqueued and the number of
calls of `commit()`. -/
structure Store where
  d : Store.StoreData := {}
  state : CommandState := CommandState.Unparsed
  error : Option (Error × String) := none
  respTextCode : Option String := none
  responses : List String := []
  rights : List Store.Right := []
  statements : List Store.Statement := []
  commits : Nat := 0
deriving DecidableEq, Repr

namespace Store

/-- What a Store command works with. The database: the id of the mailbox, the
row `nextmodseq` that the query obtainModSeq returns if it returns one, the
rows of mailbox_messages and of flags (UID and flag id) for the mailbox, and
whether the transaction fails. The classes that are not among the sources:
`Flag::id`, `FlagCreator::id`, the ids for which `Flag::isSeen` and
`Flag::isDeleted` hold, `AnnotationNameCreator::id`. The session, the id of the
user and the result of `permitted()`. -/
structure Context where
  mailbox : Nat
  nextmodseq : Option Int
  messages : List MessageRow
  flags : List (Nat × Nat)
  failed : Bool := false
  flagId : String → Nat
  createdId : String → Nat
  seenId : Nat
  deletedId : Nat
  annotationId : String → Nat
  session : SessionData
  user : Nat
  permitted : Bool := true

/-- Modelled from the spec: `Flag::isSeen`. -/
def isSeen (ctx : Context) (id : Nat) : Bool := id ≠ 0 && id = ctx.seenId

/-- Modelled from the spec: `Flag::isDeleted`. -/
def isDeleted (ctx : Context) (id : Nat) : Bool := id ≠ 0 && id = ctx.deletedId

/-- The id removeFlags and addFlags use for a flag name: that of the
FlagCreator, or else `Flag::id`. -/
def flagIdOf (ctx : Context) (name : String) : Nat :=
  if ctx.createdId name ≠ 0 then ctx.createdId name else ctx.flagId name

/-- Modelled from the spec: `Command::error`: the first error is recorded and
the command is finished. -/
def setError (c : Store) (e : Error) (text : String) : Store :=
  match c.error with
  | some _ => c
  | none => { c with error := some (e, text), state := CommandState.Finished }

/-- Modelled from the spec: `Command::ok`. -/
def ok (c : Store) : Bool := c.error.isNone

/-- Modelled from the spec: `Command::finish`. -/
def finish (c : Store) : Store := { c with state := CommandState.Finished }

/-- Modelled from the spec: `Command::requireRight`. -/
def requireRight (c : Store) (r : Right) : Store := { c with rights := c.rights ++ [r] }

/-- Modelled from the spec: `Transaction::enqueue`. -/
def enqueue (c : Store) (q : Statement) : Store := { c with statements := c.statements ++ [q] }

/-- Modelled from the spec: `Transaction::commit`. -/
def commit (c : Store) : Store := { c with commits := c.commits + 1 }

/-- Modelled from the spec: `IntegerSet::contains( const IntegerSet & )`:
every member of `t` is a member of `s`. -/
def containsSet (s t : IntegerSet) : Bool := t.members.all s.contains

/-- The constructor Store::Store( bool u ). -/
def new (u : Bool) : Store := { d := { uid := u } }

/-- The start of Store::parse: of the message set `set`, already turned into
UIDs, the pending expunges of the session are remembered in `d->expunged`, and
`shrink` removes them from `d->specified`. -/
def parseSet (session : SessionData) (c : Store) (set : IntegerSet) : Store :=
  { c with d := { c.d with
      specified := set.removeSet (Session.expunged session)
      expunged := (Session.expunged session).intersection set } }

/-- The command `c1` differs from `c` at most in the statements and in the
members of StoreData that the flag operations set: `changedUids`, the four
booleans for \Seen and \Deleted. -/
def workFrame (c c1 : Store) : Prop :=
  c1.error = c.error ∧ c1.state = c.state ∧ c1.responses = c.responses ∧
  c1.commits = c.commits ∧ c1.rights = c.rights ∧ c1.respTextCode = c.respTextCode ∧
  c1.d.s = c.d.s ∧ c1.d.specified = c.d.specified ∧ c1.d.expunged = c.d.expunged ∧
  c1.d.silent = c.d.silent ∧ c1.d.seenUnchangedSince = c.d.seenUnchangedSince ∧
  c1.d.modseq = c.d.modseq ∧ c1.d.sentNextModSeq = c.d.sentNextModSeq ∧
  c1.d.present = c.d.present ∧ c1.d.sentWorkQueries = c.d.sentWorkQueries

/-- Every statement of the list writes only to rows of messages of the set
`s`. -/
def writesWithin (s : IntegerSet) (l : List Statement) : Prop :=
  ∀ q ∈ l, ∀ uid, q.writes uid = true → s.contains uid = true

/-! ### Parsing an annotation entry -/

/-- The search of Store::parseAnnotationEntry for an annotation that is
there already: the position of the first one with the entry name and, for a
shared attribute, the owner `id`, for a private one the owner 0. -/
def findAnnotation (annotations : List Annotation) (entry : String) (shared : Bool)
    (id : Nat) : Option Nat :=
  let owner := if shared then id else 0
  let i := annotations.findIdx (fun a => !(a.entryName ≠ entry || a.ownerId ≠ owner))
  if i < annotations.length then some i else none

/-- One turn of the loop of Store::parseAnnotationEntry: the attribute
`attrib` with the value `value` for the entry `entry`, `id` being the id of
the user. -/
def parseAnnotationAttribute (id : Nat) (entry : String) (c : Store)
    (av : String × String) : Store :=
  let attrib := av.1
  let value := av.2
  let shared := EString.endsWith attrib ".shared"
  let c := if shared then c
    else if EString.endsWith attrib ".priv" then c
    else setError c Error.Bad "Must store either .priv or .shared attributes"
  let attrib :=
    if shared then EString.mid attrib 0 (attrib.length - 7)
    else if EString.endsWith attrib ".priv" then EString.mid attrib 0 (attrib.length - 5)
    else attrib
  let found := findAnnotation c.d.annotations entry shared id
  let annotations :=
    match found with
    | some _ => c.d.annotations
    | none => c.d.annotations ++
        [{ entryName := entry, ownerId := if shared then 0 else id, value := "" }]
  let i := match found with
    | some i => i
    | none => c.d.annotations.length
  if attrib = "value" then
    { c with d := { c.d with
        annotations := annotations.modify (fun a => { a with value := value }) i } }
  else
    setError { c with d := { c.d with annotations := annotations } } Error.Bad
      ("Unknown attribute: " ++ attrib)

/-- Store::parseAnnotationEntry for the entry name `entry` and the attributes
and values in the parentheses; the three tests of the entry name come
first. -/
def parseAnnotationEntry (id : Nat) (c : Store) (entry : String)
    (attribs : List (String × String)) : Store :=
  let c := if EString.startsWith entry "/flags/" then
    setError c Error.Bad "Cannot set top-level flags using STORE ANNOTATION" else c
  let c := if EString.contains entry "//" then
    setError c Error.Bad "Annotation entry names cannot contain //" else c
  let c := if EString.endsWith entry "/" then
    setError c Error.Bad "Annotation entry names cannot end with /" else c
  if !ok c then c
  else attribs.foldl (parseAnnotationAttribute id entry) c

/-! ### Execution -/

/-- The loop of Store::execute over the flag names, which sets `d->deleted`
and `d->seen` and says whether there is another flag. -/
def checkFlagNames : List String → StoreData × Bool → StoreData × Bool
  | [], r => r
  | n :: rest, (d, other) =>
    if EString.lower n = "\\deleted" then checkFlagNames rest ({ d with deleted := true }, other)
    else if EString.lower n = "\\seen" then checkFlagNames rest ({ d with seen := true }, other)
    else checkFlagNames rest (d, true)

/-- The rights Store::execute asks for with `requireRight` in a STORE
ANNOTATION, in the order of the calls. -/
def annotationRights (d : StoreData) : List Right :=
  let hasShared := d.annotations.any (fun a => a.ownerId ≠ 0)
  let hasPriv := d.annotations.any (fun a => a.ownerId = 0)
  (if hasPriv then [Right.Read] else []) ++
    (if hasShared then [Right.WriteSharedAnnotation] else [])

/-- The rights Store::execute asks for with `requireRight` in a flag STORE,
in the order of the calls, after the loop over the flag names. -/
def flagRights (d : StoreData) (other : Bool) : List Right :=
  (if d.seen then [Right.KeepSeen] else []) ++
    (if d.deleted then [Right.DeleteMessages] else []) ++
    (if other || d.flagNames.isEmpty then [Right.Write] else [])

/-- The block of Store::execute under `if ( !d->checkedPermission )`. -/
def checkPermission (c : Store) : Store :=
  if !c.d.checkedPermission then
    if c.d.op = Op.ReplaceAnnotations then
      { c with
        rights := c.rights ++ annotationRights c.d
        d := { c.d with checkedPermission := true } }
    else
      let r := checkFlagNames c.d.flagNames (c.d, false)
      { c with
        rights := c.rights ++ flagRights r.1 r.2
        d := { r.1 with checkedPermission := true } }
  else c

/-- The bound of the Selector `Modseq Smaller d->unchangedSince+1`, a sum of
`uint`. -/
def modseqBound (d : StoreData) : Nat := uintSucc d.unchangedSince

/-- Modelled from the spec: the rows the query of the Selector returns: the
UIDs of `d->specified` in the mailbox, with UNCHANGEDSINCE those whose modseq
is smaller than the bound. -/
def findSetRows (ctx : Context) (d : StoreData) : List Nat :=
  (ctx.messages.filter (fun r =>
    d.specified.contains r.uid &&
      (!d.seenUnchangedSince || decide (r.modseq < (modseqBound d : Int))))).map (fun r => r.uid)

/-- The flags of `d->flagNames` that the block for `d->present` takes: those
with an id that are neither \Seen nor \Deleted. -/
def presentIds (ctx : Context) (d : StoreData) : List Nat :=
  (d.flagNames.map ctx.flagId).filter
    (fun id => id ≠ 0 && !isSeen ctx id && !isDeleted ctx id)

/-- The Map `d->present` once the rows of the query presentFlags are read:
for each flag of `presentIds` the UIDs of `d->specified` that have it. -/
def presentMap (ctx : Context) (d : StoreData) : List (Nat × IntegerSet) :=
  (presentIds ctx d).map (fun id =>
    (id, (ctx.flags.filter (fun r => r.2 = id && d.specified.contains r.1)).foldl
      (fun (acc : IntegerSet) r => acc.add r.1) IntegerSet.empty))

/-- Modelled from the spec: `Map::find`. -/
def findPresent (d : StoreData) (id : Nat) : Option IntegerSet :=
  match d.present.find? (fun e => e.1 = id) with
  | some e => some e.2
  | none => none

/-- The part of Store::execute under `if ( !d->obtainModSeq )` and the two
loops that read the rows of findSet and presentFlags. -/
def sendQueries (ctx : Context) (c : Store) : Store :=
  let c := enqueue c (Statement.obtainModSeq ctx.mailbox)
  let c := enqueue c (Statement.findSet c.d.specified
    (if c.d.seenUnchangedSince then some (modseqBound c.d) else none))
  let c :=
    if c.d.op = Op.AddFlags ∨ c.d.op = Op.RemoveFlags ∨ c.d.op = Op.ReplaceFlags then
      let ids := presentIds ctx c.d
      let c := if !ids.isEmpty then
        enqueue c (Statement.presentFlags ctx.mailbox c.d.specified
          (ids.foldl IntegerSet.add IntegerSet.empty)) else c
      { c with d := { c.d with present := presentMap ctx c.d } }
    else c
  { c with d := { c.d with
      obtainModSeq := true
      s := (findSetRows ctx c.d).foldl IntegerSet.add c.d.s } }

/-- The loop of Store::removeFlags over the flag names: the ids of the flags
that some message has, and the set `unchanged`. -/
def removeFlagsLoop (ctx : Context) (d : StoreData) :
    List String → IntegerSet × IntegerSet → IntegerSet × IntegerSet
  | [], r => r
  | n :: rest, (flags, unchanged) =>
    let id := flagIdOf ctx n
    if id ≠ 0 then
      match findPresent d id with
      | some present =>
        if !present.isEmpty then
          removeFlagsLoop ctx d rest (flags.add id, unchanged.intersection present)
        else removeFlagsLoop ctx d rest (flags, unchanged)
      | none => removeFlagsLoop ctx d rest (flags, unchanged)
    else removeFlagsLoop ctx d rest (flags, unchanged)

/-- Store::removeFlags( bool opposite ) -/
def removeFlags (ctx : Context) (c : Store) (opposite : Bool) : Store × Bool :=
  let r := removeFlagsLoop ctx c.d c.d.flagNames (IntegerSet.empty, c.d.specified)
  let flags := r.1
  let unchanged := r.2
  let changed := c.d.specified.removeSet unchanged
  let d := { c.d with changedUids := c.d.changedUids.addSet changed }
  let d := if (d.seen && !opposite) || (opposite && !d.seen) then
    { d with changeSeen := true, newSeen := false } else d
  let d := if (d.deleted && !opposite) || (opposite && !d.deleted) then
    { d with changeDeleted := true, newDeleted := false } else d
  let c := { c with d := d }
  if flags.isEmpty && !opposite then (c, false)
  else
    let s := "delete from flags where mailbox=$1 and uid=any($2) and " ++
      (if opposite then "not " else "") ++ "flag=any($3)"
    (enqueue c (Statement.deleteFlags s ctx.mailbox c.d.s flags), true)

/-- The lines Store::addFlags submits for one flag: the UIDs of `s` from the
last to the first. -/
def copyLines (mailbox flag : Nat) (s : IntegerSet) : List (Nat × Nat × Nat) :=
  ((List.range s.count).reverse.map (fun c => (mailbox, s.value (c + 1), flag)))

/-- The loop of Store::addFlags over the flag names. -/
def addFlagsLoop (ctx : Context) :
    List String → StoreData × List (Nat × Nat × Nat) × Bool →
      StoreData × List (Nat × Nat × Nat) × Bool
  | [], r => r
  | n :: rest, (d, lines, work) =>
    let flag := flagIdOf ctx n
    if isSeen ctx flag then
      addFlagsLoop ctx rest ({ d with changeSeen := true, newSeen := true }, lines, work)
    else if isDeleted ctx flag then
      addFlagsLoop ctx rest ({ d with changeDeleted := true, newDeleted := true }, lines, work)
    else if flag ≠ 0 then
      let s := match findPresent d flag with
        | some p => d.s.removeSet p
        | none => d.s
      if !s.isEmpty then
        addFlagsLoop ctx rest (d, lines ++ copyLines ctx.mailbox flag s, true)
      else addFlagsLoop ctx rest (d, lines, work)
    else addFlagsLoop ctx rest (d, lines, work)

/-- Store::addFlags -/
def addFlags (ctx : Context) (c : Store) : Store × Bool :=
  let r := addFlagsLoop ctx c.d.flagNames (c.d, [], false)
  let c := { c with d := r.1 }
  if r.2.2 then (enqueue c (Statement.copyFlags r.2.1), true)
  else (c, false)

/-- Store::replaceFlags -/
def replaceFlags (ctx : Context) (c : Store) : Store × Bool :=
  let r1 := removeFlags ctx c true
  let r2 := addFlags ctx r1.1
  (r2.1, r1.2 || r2.2)

/-- The queries of Store::replaceAnnotations for one annotation. -/
def annotationStatements (ctx : Context) (d : StoreData) (a : Annotation) : List Statement :=
  let aid := ctx.annotationId a.entryName
  if a.value.isEmpty then
    let o := if a.ownerId = 0 then "owner is null" else "owner=$4"
    [ Statement.deleteAnnotation
      ("delete from annotations where mailbox=$1 and uid=any($2) and name=$3 and " ++ o)
      ctx.mailbox d.s aid (if a.ownerId ≠ 0 then some ctx.user else none)]
  else
    let o := if a.ownerId = 0 then "owner is null" else "owner=$5"
    let existing := "where mailbox=$2 and uid=any($3) and name=$4 and " ++ o
    [ Statement.updateAnnotation ("update annotations set value=$1 " ++ existing)
      a.value ctx.mailbox d.s aid (if a.ownerId ≠ 0 then some ctx.user else none),
      Statement.insertAnnotation
      ("insert into annotations (mailbox, uid, name, value, owner) " ++
        "select $2,uid,$4,$1,$5 from mailbox_messages where " ++
        "mailbox=$2 and uid=any($3) and uid not in " ++
        "(select uid from annotations " ++ existing ++ ")")
      a.value ctx.mailbox d.s aid (if a.ownerId ≠ 0 then some a.ownerId else none)]

/-- Store::replaceAnnotations -/
def replaceAnnotations (ctx : Context) (c : Store) : Store :=
  { c with statements := c.statements ++
      (c.d.annotations.map (annotationStatements ctx c.d)).flatten }

/-- The list `extraConditions` that Store::execute builds for the update of
mailbox_messages. -/
def extraConditions (d : StoreData) : List String :=
  let uidCondition : List String :=
    if d.changedUids.isEmpty then []
    else if containsSet d.changedUids d.s then []
    else ["uid=any($4)"]
  let checkSeenDeleted : Bool :=
    if d.changedUids.isEmpty then true
    else if containsSet d.changedUids d.s then false
    else true
  let seenCondition : List String :=
    if checkSeenDeleted && d.changeSeen then
      [if d.newSeen then "not seen" else "seen"] else []
  let deletedCondition : List String :=
    if checkSeenDeleted && d.changeDeleted then
      [if d.newDeleted then "not deleted" else "deleted"] else []
  uidCondition ++ seenCondition ++ deletedCondition

/-- The text of the update of mailbox_messages. -/
def modseqUpdateText (d : StoreData) : String :=
  let uq := "update mailbox_messages set modseq=$1"
  let uq := if d.changeSeen then
    uq ++ ",seen=" ++ (if d.newSeen then "true" else "false") else uq
  let uq := if d.changeDeleted then
    uq ++ ",deleted=" ++ (if d.newDeleted then "true" else "false") else uq
  let uq := uq ++ " where mailbox=$2 and uid=any($3)"
  let e := extraConditions d
  if e.isEmpty then uq
  else if e.length = 1 then uq ++ " and " ++ EString.join "" e
  else uq ++ " and (" ++ EString.join " or " e ++ ")"

/-- The query `d->modseqUpdate` with its bound values; $4 is bound when the
condition `uid=any($4)` is there. -/
def modseqUpdate (ctx : Context) (d : StoreData) : Statement :=
  Statement.modseqUpdate (modseqUpdateText d) d.modseq ctx.mailbox d.s
    (if (extraConditions d).contains "uid=any($4)" then some d.changedUids else none)

/-- Modelled from the spec: what a condition of `extraConditions` says of a
row of mailbox_messages, `changed` being the value bound to $4. -/
def holds (changed : IntegerSet) (r : MessageRow) (condition : String) : Bool :=
  if condition = "uid=any($4)" then changed.contains r.uid
  else if condition = "not seen" then !r.seen
  else if condition = "seen" then r.seen
  else if condition = "not deleted" then !r.deleted
  else if condition = "deleted" then r.deleted
  else false

/-- Modelled from the spec: whether the WHERE clause of the update of
mailbox_messages matches the row `r`: `uid=any($3)`, and one of the extra
conditions if there is any. -/
def updateMatches (d : StoreData) (r : MessageRow) : Bool :=
  d.s.contains r.uid &&
    ((extraConditions d).isEmpty || (extraConditions d).any (holds d.changedUids r))

/-- Modelled from the spec: `Query::rows` of the update: the number of rows
of mailbox_messages it matches. -/
def updatedRows (ctx : Context) (d : StoreData) : Nat :=
  (ctx.messages.filter (updateMatches d)).length

/-- The responses of Store::execute for a silent STORE with UNCHANGEDSINCE:
one for each position of `d->s`. -/
def silentResponses (ctx : Context) (d : StoreData) : List String :=
  (List.range d.s.count).map (fun n =>
    EString.fn (Session.msn ctx.session (d.s.value (n + 1))) ++ " FETCH (UID " ++
      EString.fn (d.s.value (n + 1)) ++ " MODSEQ (" ++ toString d.modseq ++ "))")

/-- The end of Store::execute, from `if ( transaction()->failed() )` on. -/
def executeEnd (ctx : Context) (c : Store) : Store :=
  if ctx.failed then finish (setError c Error.No "Database error. Rolling transaction back")
  else
    let c := if c.d.silent && c.d.seenUnchangedSince then
      { c with responses := c.responses ++ silentResponses ctx c.d } else c
    if !c.d.silent && !c.d.expunged.isEmpty then
      setError c Error.No "Cannot store on expunged messages"
    else finish c

/-- The part of Store::execute from `if ( !d->modseq )` on. -/
def executeModSeq (ctx : Context) (c : Store) : Store :=
  let r : Store × Bool :=
    if c.d.modseq = 0 then
      match ctx.nextmodseq with
      | none => (setError c Error.No "Could not obtain modseq", true)
      | some m =>
        let c := { c with d := { c.d with modseq := m } }
        (enqueue c (modseqUpdate ctx c.d), false)
    else (c, false)
  if r.2 then r.1
  else
    let c := r.1
    if !c.d.sentNextModSeq then
      if updatedRows ctx c.d = 0 then finish (commit c)
      else
        let c := { c with d := { c.d with sentNextModSeq := true } }
        let c := enqueue c (Statement.nextModSeq (c.d.modseq + 1) ctx.mailbox)
        executeEnd ctx (commit c)
    else executeEnd ctx c

/-- The start of the block of Store::execute under
`if ( !d->sentWorkQueries )`: the response code MODIFIED. -/
def workStart (c : Store) : Store :=
  let c := { c with d := { c.d with sentWorkQueries := true } }
  if c.d.seenUnchangedSince then
    let modified := (IntegerSet.empty.addSet c.d.specified).removeSet c.d.s
    if !modified.isEmpty then { c with respTextCode := some ("MODIFIED " ++ modified.set) }
    else c
  else c

/-- The switch of Store::execute over `d->op`, with the value of `work`. -/
def workOp (ctx : Context) (c : Store) : Store × Bool :=
  match c.d.op with
  | Op.ReplaceFlags => replaceFlags ctx c
  | Op.AddFlags => addFlags ctx c
  | Op.RemoveFlags => removeFlags ctx c false
  | Op.ReplaceAnnotations => (replaceAnnotations ctx c, true)

/-- The block of Store::execute under `if ( !d->sentWorkQueries )`; the
result says whether `execute()` returns there. -/
def executeWork (ctx : Context) (c : Store) : Store × Bool :=
  let c := workStart c
  if c.d.s.isEmpty then
    let c := commit c
    let c := if !c.d.silent && !c.d.expunged.isEmpty then
      setError c Error.No "Cannot store on expunged messages" else c
    (finish c, true)
  else
    let r := workOp ctx c
    let c := r.1
    if !r.2 && !c.d.changeSeen && !c.d.changeDeleted then (finish (commit c), true)
    else (c, false)

/-- Store::execute, for a database that answers every query at once: the
places where execute() returns to wait for a query, for the FlagCreator or
for the AnnotationNameCreator are passed. The calls of sendFlagUpdate,
ignoreModSeq and refreshMailboxes are left out. -/
def execute (ctx : Context) (c : Store) : Store :=
  if c.state ≠ CommandState.Executing then c
  else
    let c := checkPermission c
    if !ok c || !ctx.permitted then c
    else
      let c := if !c.d.obtainModSeq then sendQueries ctx c else c
      let r : Store × Bool := if !c.d.sentWorkQueries then executeWork ctx c else (c, false)
      if r.2 then r.1
      else executeModSeq ctx r.1

end Store

namespace Example

/-- A table of flags: \Seen is 1, \Deleted is 2, \Flagged is 3. -/
def flagIds (n : String) : Nat :=
  if EString.lower n = "\\seen" then 1
  else if EString.lower n = "\\deleted" then 2
  else if EString.lower n = "\\flagged" then 3
  else 0

/-- A mailbox with the messages 1, 2 and 3: UID 1 is seen and has the flag
\Flagged, UID 2 is neither seen nor flagged, UID 3 is seen; the next modseq is
5 and the user has the id 42. -/
def storeContext : Store.Context where
  mailbox := 7
  nextmodseq := some 5
  messages := [{ uid := 1, modseq := 3, seen := true }, { uid := 2, modseq := 4 },
               { uid := 3, modseq := 2, seen := true }]
  flags := [(1, 3)]
  flagId := flagIds
  createdId := flagIds
  seenId := 1
  deletedId := 2
  annotationId := fun _ => 9
  session := { readOnly := false, msns := ⟨[(1, 3)]⟩, uidnext := 4, nextModSeq := 5 }
  user := 42

/-- A flag STORE on the messages `specified` that is being executed. -/
def store (specified : IntegerSet) (op : Store.Op) (names : List String) (silent : Bool)
    (unchangedSince : Option Nat) : Store :=
  { state := CommandState.Executing,
    d := { specified := specified, op := op, flagNames := names, silent := silent,
           seenUnchangedSince := unchangedSince.isSome,
           unchangedSince := unchangedSince.getD 0 } }

end Example

namespace Example

/-- A session with the messages 1:3 of which UID 3 is a pending expunge. -/
def expungeSession : SessionData :=
  { readOnly := false, msns := ⟨[(1, 3)]⟩, expunges := ⟨[(3, 3)]⟩, uidnext := 4,
    nextModSeq := 5 }

/-- A flag STORE on the messages 1:3 in the session `expungeSession`, after
the message set is parsed, that is being executed. -/
def storeExpunged (op : Store.Op) (names : List String) (silent : Bool) : Store :=
  Store.parseSet expungeSession (store IntegerSet.empty op names silent none) ⟨[(1, 3)]⟩

end Example

end Aox
namespace Aox

namespace IntegerSet

/-! ## Lemmas about the IntegerSet model -/

theorem okFrom_cons (b : Nat) (r : Nat × Nat) (rs : List (Nat × Nat)) :
    okFrom b (r :: rs) = true ↔ b ≤ r.1 ∧ r.1 ≤ r.2 ∧ okFrom (r.2 + 2) rs = true := by
  simp [okFrom, and_assoc]

theorem okFrom_mono {b c : Nat} {rs : List (Nat × Nat)} (h : okFrom b rs = true)
    (hc : c ≤ b) : okFrom c rs = true := by
  cases rs with
  | nil => rfl
  | cons r rs =>
    rw [okFrom_cons] at h ⊢
    exact ⟨by omega, h.2.1, h.2.2⟩

/-- Membership in a sequence of ranges, as a proposition. -/
theorem containsR_cons (r : Nat × Nat) (rs : List (Nat × Nat)) (x : Nat) :
    contains ⟨r :: rs⟩ x = true ↔ (r.1 ≤ x ∧ x ≤ r.2) ∨ contains ⟨rs⟩ x = true := by
  simp [contains]

theorem containsR_nil (x : Nat) : contains ⟨[]⟩ x = false := rfl

theorem okFrom_le_of_contains {b : Nat} {rs : List (Nat × Nat)} {x : Nat}
    (h : okFrom b rs = true) (hx : contains ⟨rs⟩ x = true) : b ≤ x := by
  induction rs generalizing b with
  | nil => simp [containsR_nil] at hx
  | cons r rs ih =>
    rw [okFrom_cons] at h
    rw [containsR_cons] at hx
    rcases hx with hx | hx
    · omega
    · have := ih h.2.2 hx
      omega

theorem addR_ok {b u : Nat} {rs : List (Nat × Nat)} (h : okFrom b rs = true)
    (hu : b ≤ u) : okFrom b (addR u rs) = true := by
  induction rs generalizing b with
  | nil => simp [addR, okFrom, hu]
  | cons r rs ih =>
    rw [okFrom_cons] at h
    obtain ⟨h1, h2, h3⟩ := h
    unfold addR
    split_ifs with c1 c2 c3 c4
    · rw [okFrom_cons, okFrom_cons]
      exact ⟨hu, le_refl _, by simpa using c1, h2, h3⟩
    · rw [okFrom_cons]
      exact ⟨hu, by omega, h3⟩
    · rw [okFrom_cons]
      exact ⟨h1, h2, h3⟩
    · rw [okFrom_cons]
      exact ⟨h1, h2, ih h3 (by omega)⟩
    · cases rs with
      | nil =>
        simp only [okFrom_cons]
        exact ⟨h1, by omega, rfl⟩
      | cons r2 rs2 =>
        rw [okFrom_cons] at h3
        obtain ⟨g1, g2, g3⟩ := h3
        simp only
        split_ifs with c5
        · rw [okFrom_cons]
          exact ⟨h1, by omega, g3⟩
        · rw [okFrom_cons, okFrom_cons]
          exact ⟨h1, by omega, by omega, g2, g3⟩

theorem contains_addR {b : Nat} {rs : List (Nat × Nat)} (h : okFrom b rs = true)
    (u x : Nat) :
    contains ⟨addR u rs⟩ x = true ↔ x = u ∨ contains ⟨rs⟩ x = true := by
  induction rs generalizing b with
  | nil => simp [addR, containsR_cons, containsR_nil]; omega
  | cons r rs ih =>
    rw [okFrom_cons] at h
    obtain ⟨h1, h2, h3⟩ := h
    unfold addR
    split_ifs with c1 c2 c3 c4
    · rw [containsR_cons]
      simp only
      constructor
      · rintro (hx | hx)
        · left; omega
        · right; exact hx
      · rintro (hx | hx)
        · left; omega
        · right; exact hx
    · rw [containsR_cons, containsR_cons]
      simp only
      constructor
      · rintro (hx | hx)
        · by_cases hxu : x = u
          · left; exact hxu
          · right; left; omega
        · right; right; exact hx
      · rintro (hx | hx | hx)
        · left; omega
        · left; omega
        · right; exact hx
    · rw [containsR_cons]
      constructor
      · intro hx; right; exact hx
      · rintro (hx | hx)
        · left; omega
        · exact hx
    · rw [containsR_cons, containsR_cons, ih h3]
      tauto
    · cases rs with
      | nil =>
        simp only [containsR_cons, containsR_nil]
        simp
        omega
      | cons r2 rs2 =>
        rw [okFrom_cons] at h3
        obtain ⟨g1, g2, g3⟩ := h3
        simp only
        split_ifs with c5
        · simp only [containsR_cons]
          constructor
          · rintro (hx | hx)
            · by_cases hxu : x = u
              · left; exact hxu
              · by_cases hxr : x ≤ r.2
                · right; left; omega
                · right; right; left; omega
            · right; right; right; exact hx
          · rintro (hx | hx | hx | hx)
            · left; omega
            · left; omega
            · left; omega
            · right; exact hx
        · simp only [containsR_cons]
          constructor
          · rintro (hx | hx | hx)
            · by_cases hxu : x = u
              · left; exact hxu
              · right; left; omega
            · right; right; left; exact hx
            · right; right; right; exact hx
          · rintro (hx | hx | hx | hx)
            · left; omega
            · left; omega
            · right; left; exact hx
            · right; right; exact hx

theorem removeR_ok {b : Nat} {rs : List (Nat × Nat)} (h : okFrom b rs = true)
    (u : Nat) : okFrom b (removeR u rs) = true := by
  induction rs generalizing b with
  | nil => rfl
  | cons r rs ih =>
    rw [okFrom_cons] at h
    obtain ⟨h1, h2, h3⟩ := h
    unfold removeR
    split_ifs with c1 c2 c3 c4 c5
    · rw [okFrom_cons]; exact ⟨h1, h2, h3⟩
    · rw [okFrom_cons]; exact ⟨h1, h2, ih h3⟩
    · exact okFrom_mono h3 (by omega)
    · rw [okFrom_cons]; exact ⟨by omega, by omega, h3⟩
    · rw [okFrom_cons]; exact ⟨h1, by omega, okFrom_mono h3 (by simp)⟩
    · rw [okFrom_cons, okFrom_cons]
      exact ⟨h1, by omega, by omega, by omega, h3⟩

theorem contains_removeR {b : Nat} {rs : List (Nat × Nat)} (h : okFrom b rs = true)
    (u x : Nat) :
    contains ⟨removeR u rs⟩ x = true ↔ x ≠ u ∧ contains ⟨rs⟩ x = true := by
  induction rs generalizing b with
  | nil => simp [removeR, containsR_nil]
  | cons r rs ih =>
    rw [okFrom_cons] at h
    obtain ⟨h1, h2, h3⟩ := h
    have hlater : ∀ y, contains ⟨rs⟩ y = true → r.2 + 2 ≤ y :=
      fun y hy => okFrom_le_of_contains h3 hy
    unfold removeR
    split_ifs with c1 c2 c3 c4 c5
    · rw [containsR_cons]
      constructor
      · rintro (hx | hx)
        · exact ⟨by omega, Or.inl hx⟩
        · exact ⟨by have := hlater x hx; omega, Or.inr hx⟩
      · rintro ⟨_, hx⟩; exact hx
    · rw [containsR_cons, containsR_cons, ih h3]
      constructor
      · rintro (hx | ⟨hx1, hx2⟩)
        · exact ⟨by omega, Or.inl hx⟩
        · exact ⟨hx1, Or.inr hx2⟩
      · rintro ⟨hx1, hx | hx⟩
        · exact Or.inl hx
        · exact Or.inr ⟨hx1, hx⟩
    · rw [containsR_cons]
      constructor
      · intro hx
        exact ⟨by have := hlater x hx; omega, Or.inr hx⟩
      · rintro ⟨hx1, hx | hx⟩
        · omega
        · exact hx
    · rw [containsR_cons, containsR_cons]
      simp only
      constructor
      · rintro (hx | hx)
        · exact ⟨by omega, Or.inl (by omega)⟩
        · exact ⟨by have := hlater x hx; omega, Or.inr hx⟩
      · rintro ⟨hx1, hx | hx⟩
        · exact Or.inl (by omega)
        · exact Or.inr hx
    · rw [containsR_cons, containsR_cons]
      simp only
      constructor
      · rintro (hx | hx)
        · exact ⟨by omega, Or.inl (by omega)⟩
        · exact ⟨by have := hlater x hx; omega, Or.inr hx⟩
      · rintro ⟨hx1, hx | hx⟩
        · exact Or.inl (by omega)
        · exact Or.inr hx
    · simp only [containsR_cons]
      constructor
      · rintro (hx | hx | hx)
        · exact ⟨by omega, Or.inl (by omega)⟩
        · exact ⟨by omega, Or.inl (by omega)⟩
        · exact ⟨by have := hlater x hx; omega, Or.inr hx⟩
      · rintro ⟨hx1, hx | hx⟩
        · by_cases hxu : x < u
          · exact Or.inl (by omega)
          · exact Or.inr (Or.inl (by omega))
        · exact Or.inr (Or.inr hx)

theorem mem_membersR {b : Nat} {rs : List (Nat × Nat)} (h : okFrom b rs = true)
    (x : Nat) : x ∈ membersR rs ↔ contains ⟨rs⟩ x = true := by
  induction rs generalizing b with
  | nil => simp [membersR, containsR_nil]
  | cons r rs ih =>
    rw [okFrom_cons] at h
    obtain ⟨h1, h2, h3⟩ := h
    rw [containsR_cons, membersR, List.mem_append, ih h3, List.mem_range'_1]
    constructor
    · rintro (hx | hx)
      · left; omega
      · right; exact hx
    · rintro (hx | hx)
      · left; omega
      · right; exact hx

/-! ### Well-formedness and membership for the set operations -/

theorem wf_empty : empty.wf := rfl

theorem contains_empty (x : Nat) : empty.contains x = false := rfl

theorem wf_add {s : IntegerSet} (h : s.wf) (u : Nat) : (s.add u).wf :=
  addR_ok h (Nat.zero_le u)

theorem contains_add {s : IntegerSet} (h : s.wf) (u x : Nat) :
    (s.add u).contains x = true ↔ x = u ∨ s.contains x = true :=
  contains_addR h u x

theorem wf_remove {s : IntegerSet} (h : s.wf) (u : Nat) : (s.remove u).wf :=
  removeR_ok h u

theorem contains_remove {s : IntegerSet} (h : s.wf) (u x : Nat) :
    (s.remove u).contains x = true ↔ x ≠ u ∧ s.contains x = true :=
  contains_removeR h u x

theorem mem_members {s : IntegerSet} (h : s.wf) (x : Nat) :
    x ∈ s.members ↔ s.contains x = true :=
  mem_membersR h x

theorem wf_foldl_add (l : List Nat) {s : IntegerSet} (h : s.wf) :
    (l.foldl add s).wf := by
  induction l generalizing s with
  | nil => exact h
  | cons a l ih => exact ih (wf_add h a)

theorem contains_foldl_add (l : List Nat) {s : IntegerSet} (h : s.wf) (x : Nat) :
    (l.foldl add s).contains x = true ↔ x ∈ l ∨ s.contains x = true := by
  induction l generalizing s with
  | nil => simp
  | cons a l ih =>
    rw [List.foldl_cons, ih (wf_add h a), contains_add h, List.mem_cons]
    tauto

theorem wf_foldl_remove (l : List Nat) {s : IntegerSet} (h : s.wf) :
    (l.foldl remove s).wf := by
  induction l generalizing s with
  | nil => exact h
  | cons a l ih => exact ih (wf_remove h a)

theorem contains_foldl_remove (l : List Nat) {s : IntegerSet} (h : s.wf) (x : Nat) :
    (l.foldl remove s).contains x = true ↔ x ∉ l ∧ s.contains x = true := by
  induction l generalizing s with
  | nil => simp
  | cons a l ih =>
    rw [List.foldl_cons, ih (wf_remove h a), contains_remove h, List.mem_cons]
    tauto

theorem wf_addSet {s : IntegerSet} (h : s.wf) (t : IntegerSet) : (s.addSet t).wf :=
  wf_foldl_add _ h

theorem contains_addSet {s t : IntegerSet} (hs : s.wf) (ht : t.wf) (x : Nat) :
    (s.addSet t).contains x = true ↔ s.contains x = true ∨ t.contains x = true := by
  unfold addSet
  rw [contains_foldl_add _ hs, mem_members ht]
  tauto

theorem wf_removeSet {s : IntegerSet} (h : s.wf) (t : IntegerSet) : (s.removeSet t).wf :=
  wf_foldl_remove _ h

theorem contains_removeSet {s t : IntegerSet} (hs : s.wf) (ht : t.wf) (x : Nat) :
    (s.removeSet t).contains x = true ↔ s.contains x = true ∧ t.contains x = false := by
  unfold removeSet
  rw [contains_foldl_remove _ hs, mem_members ht]
  cases t.contains x <;> simp

theorem wf_intersection (s t : IntegerSet) : (s.intersection t).wf :=
  wf_foldl_add _ wf_empty

theorem contains_intersection {s : IntegerSet} (hs : s.wf) (t : IntegerSet) (x : Nat) :
    (s.intersection t).contains x = true ↔ s.contains x = true ∧ t.contains x = true := by
  unfold intersection
  rw [contains_foldl_add _ wf_empty, List.mem_filter, mem_members hs, contains_empty]
  simp

/-! ### Positions: `value` and `index` are inverse to each other -/

theorem indexR_pos_of_contains {b : Nat} {rs : List (Nat × Nat)} (h : okFrom b rs = true)
    {u : Nat} (hu : contains ⟨rs⟩ u = true) : 0 < indexR rs u := by
  induction rs generalizing b with
  | nil => simp [containsR_nil] at hu
  | cons r rs ih =>
    rw [okFrom_cons] at h
    obtain ⟨h1, h2, h3⟩ := h
    rw [containsR_cons] at hu
    unfold indexR
    rcases hu with hu | hu
    · rw [if_neg (by omega), if_pos (by omega)]
      omega
    · have hlater := okFrom_le_of_contains h3 hu
      rw [if_neg (by omega), if_neg (by omega)]
      have := ih h3 hu
      cases hk : indexR rs u with
      | zero => omega
      | succ k => simp

theorem valueR_indexR {b : Nat} {rs : List (Nat × Nat)} (h : okFrom b rs = true)
    {u : Nat} (hu : contains ⟨rs⟩ u = true) : valueR rs (indexR rs u) = u := by
  induction rs generalizing b with
  | nil => simp [containsR_nil] at hu
  | cons r rs ih =>
    rw [okFrom_cons] at h
    obtain ⟨h1, h2, h3⟩ := h
    rw [containsR_cons] at hu
    rcases hu with hu | hu
    · unfold indexR
      rw [if_neg (by omega), if_pos (by omega)]
      unfold valueR
      rw [if_neg (by omega), if_pos (by omega)]
      omega
    · have hlater := okFrom_le_of_contains h3 hu
      have hpos := indexR_pos_of_contains h3 hu
      have hrec := ih h3 hu
      unfold indexR
      rw [if_neg (by omega), if_neg (by omega)]
      cases hk : indexR rs u with
      | zero => omega
      | succ k =>
        simp only
        unfold valueR
        rw [if_neg (by omega), if_neg (by omega)]
        rw [hk] at hrec
        have : r.2 - r.1 + 1 + (k + 1) - (r.2 - r.1 + 1) = k + 1 := by omega
        rw [this]
        exact hrec

theorem contains_valueR {b : Nat} {rs : List (Nat × Nat)} (h : okFrom b rs = true)
    {n : Nat} (h1 : 1 ≤ n) (hn : n ≤ countR rs) : contains ⟨rs⟩ (valueR rs n) = true := by
  induction rs generalizing b n with
  | nil => simp [countR] at hn; omega
  | cons r rs ih =>
    rw [okFrom_cons] at h
    obtain ⟨g1, g2, g3⟩ := h
    rw [containsR_cons]
    unfold valueR
    rw [if_neg (by omega)]
    split_ifs with c
    · left; omega
    · right
      simp only [countR] at hn
      exact ih g3 (by omega) (by omega)

theorem indexR_valueR {b : Nat} {rs : List (Nat × Nat)} (h : okFrom b rs = true)
    {n : Nat} (h1 : 1 ≤ n) (hn : n ≤ countR rs) : indexR rs (valueR rs n) = n := by
  induction rs generalizing b n with
  | nil => simp [countR] at hn; omega
  | cons r rs ih =>
    rw [okFrom_cons] at h
    obtain ⟨g1, g2, g3⟩ := h
    unfold valueR
    rw [if_neg (by omega)]
    split_ifs with c
    · unfold indexR
      rw [if_neg (by omega), if_pos (by omega)]
      omega
    · simp only [countR] at hn
      have hrec := ih g3 (n := n - (r.2 - r.1 + 1)) (by omega) (by omega)
      have hmem := contains_valueR g3 (n := n - (r.2 - r.1 + 1)) (by omega) (by omega)
      have hlater := okFrom_le_of_contains g3 hmem
      unfold indexR
      rw [if_neg (by omega), if_neg (by omega), hrec]
      cases hk : n - (r.2 - r.1 + 1) with
      | zero => omega
      | succ k => simp only; omega

end IntegerSet

end Aox

namespace Aox

/-! ## Lemmas about Session -/

namespace Session

theorem wf_default : SessionData.wf {} := by decide

theorem wf_addRecent {d : SessionData} (h : d.wf) (uid : Nat) : (addRecent d uid).wf :=
  ⟨h.1, IntegerSet.wf_add h.2.1 uid, h.2.2.1, h.2.2.2⟩

theorem wf_addRecentRange {d : SessionData} (h : d.wf) (start num : Nat) :
    (addRecentRange d start num).wf := by
  induction num generalizing d start with
  | zero => exact h
  | succ n ih => exact ih (wf_addRecent h start) _

theorem construct_peer (m : Mailbox) (heap : Nat → SessionData) (readOnly : Bool)
    (o : Nat) (rest : List Nat) (h : m.sessions = some (o :: rest)) :
    construct m heap readOnly =
      { mailbox := some m.id, readOnly := readOnly,
        uidnext := (heap o).uidnext, nextModSeq := (heap o).nextModSeq,
        msns := ((IntegerSet.empty.addSet (heap o).msns).addSet (heap o).unannounced).removeSet
          (heap o).expunges } := by
  simp [construct, h]

theorem construct_alone (m : Mailbox) (heap : Nat → SessionData) (readOnly : Bool)
    (h : m.sessions = none ∨ m.sessions = some []) :
    construct m heap readOnly = { mailbox := some m.id, readOnly := readOnly } := by
  rcases h with h | h <;> simp [construct, h]

theorem wf_construct (m : Mailbox) (heap : Nat → SessionData) (readOnly : Bool) :
    (construct m heap readOnly).wf := by
  cases hm : m.sessions with
  | none =>
    rw [construct_alone m heap readOnly (Or.inl hm)]
    exact ⟨IntegerSet.wf_empty, IntegerSet.wf_empty, IntegerSet.wf_empty, IntegerSet.wf_empty⟩
  | some l =>
    cases l with
    | nil =>
      rw [construct_alone m heap readOnly (Or.inr hm)]
      exact ⟨IntegerSet.wf_empty, IntegerSet.wf_empty, IntegerSet.wf_empty, IntegerSet.wf_empty⟩
    | cons o rest =>
      rw [construct_peer m heap readOnly o rest hm]
      exact ⟨IntegerSet.wf_removeSet
        (IntegerSet.wf_addSet (IntegerSet.wf_addSet IntegerSet.wf_empty _) _) _,
        IntegerSet.wf_empty, IntegerSet.wf_empty, IntegerSet.wf_empty⟩

theorem wf_apply {d : SessionData} (h : d.wf) (c : Call) : (c.apply d).wf := by
  obtain ⟨h1, h2, h3, h4⟩ := h
  cases c with
  | addUnannounced uid => exact ⟨h1, h2, h3, IntegerSet.wf_add h4 uid⟩
  | addUnannouncedSet s => exact ⟨h1, h2, h3, IntegerSet.wf_addSet h4 s⟩
  | clearUnannounced => exact ⟨IntegerSet.wf_addSet h1 _, h2, h3, IntegerSet.wf_empty⟩
  | expunge uids => exact ⟨h1, h2, IntegerSet.wf_addSet h3 uids, h4⟩
  | clearExpunged uid =>
    exact ⟨IntegerSet.wf_remove h1 uid, h2, IntegerSet.wf_remove h3 uid,
      IntegerSet.wf_remove h4 uid⟩
  | earlydeletems uids => exact ⟨IntegerSet.wf_removeSet h1 uids, h2, h3, h4⟩
  | addRecent uid => exact wf_addRecent ⟨h1, h2, h3, h4⟩ uid
  | addRecentRange start num => exact wf_addRecentRange ⟨h1, h2, h3, h4⟩ start num
  | setUidnext u => exact ⟨h1, h2, h3, h4⟩
  | setNextModSeq ms => exact ⟨h1, h2, h3, h4⟩

theorem wf_run (cs : List Call) {d : SessionData} (h : d.wf) : (run cs d).wf := by
  induction cs generalizing d with
  | nil => exact h
  | cons c cs ih => exact ih (wf_apply h c)

theorem run_cons (c : Call) (cs : List Call) (d : SessionData) :
    run (c :: cs) d = run cs (c.apply d) := rfl

theorem run_append (cs : List Call) (c : Call) (d : SessionData) :
    run (cs ++ [c]) d = c.apply (run cs d) := by
  simp [run, List.foldl_append]

end Session

end Aox

namespace Aox

namespace IntegerSet

theorem addR_of_contains {b : Nat} {rs : List (Nat × Nat)} (h : okFrom b rs = true)
    {u : Nat} (hu : contains ⟨rs⟩ u = true) : addR u rs = rs := by
  induction rs generalizing b with
  | nil => simp [containsR_nil] at hu
  | cons r rs ih =>
    rw [okFrom_cons] at h
    obtain ⟨h1, h2, h3⟩ := h
    rw [containsR_cons] at hu
    unfold addR
    rcases hu with hu | hu
    · rw [if_neg (by omega), if_neg (by omega), if_pos (by omega)]
    · have hlater := okFrom_le_of_contains h3 hu
      rw [if_neg (by omega), if_neg (by omega), if_neg (by omega), if_pos (by omega),
        ih h3 hu]

theorem add_of_contains {s : IntegerSet} (h : s.wf) {u : Nat}
    (hu : s.contains u = true) : s.add u = s := by
  cases s with
  | mk rs => exact congrArg IntegerSet.mk (addR_of_contains h hu)

theorem add_add_self {s : IntegerSet} (h : s.wf) (u : Nat) :
    (s.add u).add u = s.add u :=
  add_of_contains (wf_add h u) ((contains_add h u u).2 (Or.inl rfl))

theorem valueR_lt_valueR {b : Nat} {rs : List (Nat × Nat)} (h : okFrom b rs = true)
    {i j : Nat} (h1 : 1 ≤ i) (hij : i < j) (hj : j ≤ countR rs) :
    valueR rs i < valueR rs j := by
  induction rs generalizing b i j with
  | nil => simp [countR] at hj; omega
  | cons r rs ih =>
    rw [okFrom_cons] at h
    obtain ⟨g1, g2, g3⟩ := h
    simp only [countR] at hj
    have hi0 : ¬ i = 0 := by omega
    have hj0 : ¬ j = 0 := by omega
    simp only [valueR, hi0, hj0, if_false]
    by_cases ci : i ≤ r.2 - r.1 + 1
    · rw [if_pos ci]
      by_cases cj : j ≤ r.2 - r.1 + 1
      · rw [if_pos cj]; omega
      · rw [if_neg cj]
        have hmem := contains_valueR g3 (n := j - (r.2 - r.1 + 1)) (by omega) (by omega)
        have := okFrom_le_of_contains g3 hmem
        omega
    · have cj : ¬ j ≤ r.2 - r.1 + 1 := by omega
      rw [if_neg ci, if_neg cj]
      exact ih g3 (by omega) (by omega) (by omega)

end IntegerSet

namespace SessionInitialiser

/-! ## Lemmas about the loops of SessionInitialiser -/

/-- One turn of the first loop of emitUpdates: the session at `a` has both
cursors raised, and the calls made are recorded. -/
theorem advanceCursors_step (nu : Nat) (nm : Int) (a : Nat) (l : List Nat)
    (heap : Nat → SessionData) (tr : List Event) :
    ∃ tr1, advanceCursors nu nm (a :: l) (heap, tr) =
      advanceCursors nu nm l
        (Function.update heap a
          { heap a with
            nextModSeq := max (heap a).nextModSeq nm
            uidnext := max (heap a).uidnext nu }, tr1) := by
  rw [advanceCursors]
  simp only [Session.nextModSeq, Session.uidnext, Session.setNextModSeq, Session.setUidnext]
  by_cases c1 : (heap a).nextModSeq < nm <;> by_cases c2 : (heap a).uidnext < nu
  · refine ⟨tr ++ [Event.setNextModSeq a nm] ++ [Event.setUidnext a nu], ?_⟩
    simp only [c1, c2, if_true, Function.update_same, Function.update_idem]
    rw [max_eq_right (le_of_lt c1), max_eq_right (le_of_lt c2)]
  · refine ⟨tr ++ [Event.setNextModSeq a nm], ?_⟩
    simp only [c1, c2, if_true, if_false, Function.update_same]
    rw [max_eq_right (le_of_lt c1), max_eq_left (not_lt.1 c2)]
  · refine ⟨tr ++ [Event.setUidnext a nu], ?_⟩
    simp only [c1, c2, if_true, if_false, Function.update_same]
    rw [max_eq_left (not_lt.1 c1), max_eq_right (le_of_lt c2)]
  · refine ⟨tr, ?_⟩
    simp only [c1, c2, if_false]
    rw [max_eq_left (not_lt.1 c1), max_eq_left (not_lt.1 c2)]
    simp

theorem advanceCursors_not_mem (nu : Nat) (nm : Int) (l : List Nat)
    (heap : Nat → SessionData) (tr : List Event) (s : Nat) (hs : s ∉ l) :
    (advanceCursors nu nm l (heap, tr)).1 s = heap s := by
  induction l generalizing heap tr with
  | nil => rfl
  | cons a l ih =>
    have ha : s ≠ a := fun e => hs (e ▸ List.mem_cons_self _ _)
    have hl : s ∉ l := fun e => hs (List.mem_cons_of_mem _ e)
    obtain ⟨tr1, e⟩ := advanceCursors_step nu nm a l heap tr
    rw [e, ih _ _ hl, Function.update_noteq ha]

theorem advanceCursors_mem (nu : Nat) (nm : Int) (l : List Nat)
    (heap : Nat → SessionData) (tr : List Event) (s : Nat) (hs : s ∈ l) :
    (advanceCursors nu nm l (heap, tr)).1 s =
      { heap s with
        nextModSeq := max (heap s).nextModSeq nm
        uidnext := max (heap s).uidnext nu } := by
  induction l generalizing heap tr with
  | nil => simp at hs
  | cons a l ih =>
    obtain ⟨tr1, e⟩ := advanceCursors_step nu nm a l heap tr
    rw [e]
    by_cases hl : s ∈ l
    · rw [ih _ _ hl]
      by_cases ha : s = a
      · subst ha
        simp
      · simp [Function.update_noteq ha]
    · have ha : s = a := by
        rcases List.mem_cons.1 hs with h | h
        · exact h
        · exact absurd h hl
      subst ha
      rw [advanceCursors_not_mem _ _ _ _ _ _ hl]
      simp

end SessionInitialiser

end Aox

namespace Aox

namespace SessionInitialiser

theorem addToSessionsLoop_spec (uid : Nat) (ms : Int) (l : List Nat)
    (heap : Nat → SessionData) (hwf : ∀ s, (heap s).unannounced.wf) (s : Nat) :
    (s ∈ l ∧ ((heap s).uidnext ≤ uid ∨ ms = 0 ∨ (heap s).nextModSeq ≤ ms) →
      addToSessionsLoop uid ms l heap s = Session.addUnannounced (heap s) uid) ∧
    (¬ (s ∈ l ∧ ((heap s).uidnext ≤ uid ∨ ms = 0 ∨ (heap s).nextModSeq ≤ ms)) →
      addToSessionsLoop uid ms l heap s = heap s) := by
  induction l generalizing heap with
  | nil =>
    constructor
    · rintro ⟨h, _⟩
      simp at h
    · intro _
      rfl
  | cons a l ih =>
    rw [addToSessionsLoop]
    simp only [Session.uidnext, Session.nextModSeq, ge_iff_le]
    by_cases c : (heap a).uidnext ≤ uid ∨ ms = 0 ∨ (heap a).nextModSeq ≤ ms
    · rw [if_pos c]
      have hwf1 : ∀ s, ((Function.update heap a (Session.addUnannounced (heap a) uid)) s).unannounced.wf := by
        intro s
        by_cases hs : s = a
        · subst hs
          rw [Function.update_same]
          exact IntegerSet.wf_add (hwf s) uid
        · rw [Function.update_noteq hs]
          exact hwf s
      obtain ⟨ih1, ih2⟩ := ih _ hwf1
      by_cases hs : s = a
      · subst hs
        simp only [Function.update_same] at ih1 ih2
        have hidem : Session.addUnannounced (Session.addUnannounced (heap s) uid) uid =
            Session.addUnannounced (heap s) uid := by
          simp only [Session.addUnannounced]
          rw [IntegerSet.add_add_self (hwf s)]
        constructor
        · intro _
          by_cases hl : s ∈ l
          · rw [ih1 ⟨hl, c⟩, hidem]
          · rw [ih2 (fun h => hl h.1)]
        · intro h
          exact absurd ⟨List.mem_cons_self _ _, c⟩ h
      · simp only [Function.update_noteq hs] at ih1 ih2
        constructor
        · rintro ⟨hm, hc⟩
          have hl : s ∈ l := by
            rcases List.mem_cons.1 hm with h | h
            · exact absurd h hs
            · exact h
          exact ih1 ⟨hl, hc⟩
        · intro h
          exact ih2 (fun g => h ⟨List.mem_cons_of_mem _ g.1, g.2⟩)
    · rw [if_neg c]
      obtain ⟨ih1, ih2⟩ := ih heap hwf
      constructor
      · rintro ⟨hm, hc⟩
        have hl : s ∈ l := by
          rcases List.mem_cons.1 hm with h | h
          · subst h
            exact absurd hc c
          · exact h
        exact ih1 ⟨hl, hc⟩
      · intro h
        by_cases hs : s = a
        · subst hs
          exact ih2 (fun g => c g.2)
        · exact ih2 (fun g => h ⟨List.mem_cons_of_mem _ g.1, g.2⟩)

end SessionInitialiser

end Aox

namespace Aox

namespace Example

theorem heap_wf (s : Nat) : (heap s).wf := by
  unfold heap
  split_ifs <;> decide

theorem heap_le_mailbox (s : Nat) :
    (heap s).uidnext ≤ mailbox.uidnext ∧ (heap s).nextModSeq ≤ mailbox.nextModSeq := by
  unfold heap
  split_ifs <;> decide

end Example

end Aox

namespace Aox

namespace Session

theorem construct_expunges (m : Mailbox) (heap : Nat → SessionData) (readOnly : Bool) :
    (construct m heap readOnly).expunges = IntegerSet.empty := by
  cases hm : m.sessions with
  | none => rw [construct_alone m heap readOnly (Or.inl hm)]
  | some l =>
    cases l with
    | nil => rw [construct_alone m heap readOnly (Or.inr hm)]
    | cons o rest => rw [construct_peer m heap readOnly o rest hm]

theorem addRecentRange_frame (d : SessionData) (start num : Nat) :
    (addRecentRange d start num).msns = d.msns ∧
    (addRecentRange d start num).expunges = d.expunges ∧
    (addRecentRange d start num).unannounced = d.unannounced := by
  induction num generalizing d start with
  | zero => exact ⟨rfl, rfl, rfl⟩
  | succ n ih => exact ih (addRecent d start) _

/-- One disciplined call keeps the pending expunges within the messages. -/
theorem expunges_subset_apply {d : SessionData} (hwf : d.wf)
    (hinv : ∀ u, d.expunges.contains u = true → d.msns.contains u = true)
    (c : Call) (cs : List Call) (hk : keepsExpunges (c :: cs) d) (u : Nat)
    (hu : (c.apply d).expunges.contains u = true) : (c.apply d).msns.contains u = true := by
  obtain ⟨h1, _, h3, h4⟩ := hwf
  cases c with
  | addUnannounced uid => exact hinv u hu
  | addUnannouncedSet s => exact hinv u hu
  | clearUnannounced =>
    exact (IntegerSet.contains_addSet h1 h4 u).2 (Or.inl (hinv u hu))
  | expunge uids =>
    obtain ⟨⟨hw, hsub⟩, _⟩ := hk
    rcases (IntegerSet.contains_addSet h3 hw u).1 hu with g | g
    · exact hinv u g
    · exact hsub u g
  | clearExpunged uid =>
    obtain ⟨g1, g2⟩ := (IntegerSet.contains_remove h3 uid u).1 hu
    exact (IntegerSet.contains_remove h1 uid u).2 ⟨g1, hinv u g2⟩
  | earlydeletems uids =>
    obtain ⟨⟨hw, hdis⟩, _⟩ := hk
    have hu' : d.expunges.contains u = true := hu
    refine (IntegerSet.contains_removeSet h1 hw u).2 ⟨hinv u hu', ?_⟩
    cases hc : uids.contains u with
    | false => rfl
    | true =>
      have := hdis u hc
      simp only [expunged] at this
      rw [hu'] at this
      exact absurd this (by decide)
  | addRecent uid => exact hinv u hu
  | addRecentRange start num =>
    have e := addRecentRange_frame d start num
    simp only [Call.apply] at hu ⊢
    rw [e.1]
    rw [e.2.1] at hu
    exact hinv u hu
  | setUidnext v => exact hinv u hu
  | setNextModSeq ms => exact hinv u hu

theorem expunges_subset_run (cs : List Call) {d : SessionData} (hwf : d.wf)
    (hinv : ∀ u, d.expunges.contains u = true → d.msns.contains u = true)
    (hk : keepsExpunges cs d) (u : Nat)
    (hu : (run cs d).expunges.contains u = true) : (run cs d).msns.contains u = true := by
  induction cs generalizing d with
  | nil => exact hinv u hu
  | cons c cs ih =>
    rw [run_cons] at hu ⊢
    exact ih (wf_apply hwf c) (fun v hv => expunges_subset_apply hwf hinv c cs hk v hv) hk.2 hu

end Session

end Aox

namespace Aox

namespace SessionInitialiser

theorem addRecentLoop_spec (d : SessionData) (hwf : d.recent.wf) (recent n : Nat) :
    (addRecentLoop d recent n).2 = recent + n ∧
    (addRecentLoop d recent n).1 = { d with recent := (addRecentLoop d recent n).1.recent } ∧
    (addRecentLoop d recent n).1.recent.wf ∧
    ∀ v, (addRecentLoop d recent n).1.recent.contains v = true ↔
      (recent ≤ v ∧ v < recent + n) ∨ d.recent.contains v = true := by
  induction n generalizing d recent with
  | zero =>
    refine ⟨rfl, rfl, hwf, fun v => ?_⟩
    simp [addRecentLoop]
  | succ n ih =>
    have hwf1 : (Session.addRecent d recent).recent.wf := IntegerSet.wf_add hwf recent
    obtain ⟨h1, h2, h3, h4⟩ := ih (Session.addRecent d recent) hwf1 (recent + 1)
    rw [addRecentLoop]
    refine ⟨by omega, ?_, h3, fun v => ?_⟩
    · rw [h2]
      rfl
    · rw [h4 v]
      have := IntegerSet.contains_add hwf recent v
      simp only [Session.addRecent]
      rw [this]
      constructor
      · rintro (⟨a, b⟩ | rfl | c)
        · left; omega
        · left; omega
        · right; exact c
      · rintro (⟨a, b⟩ | c)
        · by_cases e : v = recent
          · right; left; exact e
          · left; omega
        · right; right; exact c

theorem firstWritable_append (heap : Nat → SessionData) (pre : List Nat) (p : Nat)
    (post : List Nat) (hpre : ∀ s ∈ pre, (heap s).readOnly = true)
    (hp : (heap p).readOnly = false) :
    firstWritable heap (pre ++ p :: post) = some p := by
  induction pre with
  | nil => simp [firstWritable, Session.readOnly, hp]
  | cons a pre ih =>
    have ha : (heap a).readOnly = true := hpre a (List.mem_cons_self _ _)
    simp only [List.cons_append, firstWritable, Session.readOnly, ha, if_true]
    exact ih (fun s hs => hpre s (List.mem_cons_of_mem _ hs))

theorem firstWritable_none (heap : Nat → SessionData) (l : List Nat)
    (h : ∀ s ∈ l, (heap s).readOnly = true) : firstWritable heap l = none := by
  induction l with
  | nil => rfl
  | cons a l ih =>
    have ha : (heap a).readOnly = true := h a (List.mem_cons_self _ _)
    simp only [firstWritable, Session.readOnly, ha, if_true]
    exact ih (fun s hs => h s (List.mem_cons_of_mem _ hs))

/-- What findRecent does when a row is there to read and the session `p` is
the one it picks. -/
theorem findRecent_row (x : SessionInitialiser) (q : Query) (row : Row) (rest : List Row)
    (p : Nat) (hq : x.d.recent = some q) (hrow : q.rows = row :: rest)
    (hp : (match firstWritable x.heap x.d.sessions with
      | some i => some i
      | none => x.d.sessions.head?) = some p) :
    findRecent x =
      if toUint row.first_recent ≥ x.d.newUidnext then
        { x with d := { x.d with recent := some { q with rows := rest } } }
      else if x.d.changeRecent then
        { x with
          d := { x.d with recent := some { q with rows := rest } }
          heap := Function.update x.heap p
            (addRecentLoop (x.heap p) (toUint row.first_recent)
              (x.d.newUidnext - toUint row.first_recent)).1
          trace := x.trace ++ [Event.submit
            { text := "update mailboxes set first_recent=$2 where id=$1 and first_recent<$2"
              owner := false
              binds := [(1, (x.mailbox.id : Int)),
                (2, ((addRecentLoop (x.heap p) (toUint row.first_recent)
                  (x.d.newUidnext - toUint row.first_recent)).2 : Int))]
              rows := []
              done := false } x.d.t.isSome] }
      else
        { x with
          d := { x.d with recent := some { q with rows := rest } }
          heap := Function.update x.heap p
            (addRecentLoop (x.heap p) (toUint row.first_recent)
              (x.d.newUidnext - toUint row.first_recent)).1 } := by
  unfold findRecent
  simp only [hq, Query.nextRow, hrow]
  simp only [hp]
  by_cases c : toUint row.first_recent ≥ x.d.newUidnext
  · simp only [c, if_true]
  · simp only [c, if_false]
    cases hc : x.d.changeRecent <;>
      simp [hc, onSession, submit, Query.new, Query.bind]

end SessionInitialiser

end Aox

namespace Aox

namespace SessionInitialiser

/-! ## Lemmas about the steps of SessionInitialiser::execute -/

theorem findSessionsLoop_spec (heap : Nat → SessionData) (l : List Nat)
    (d : SessionInitialiserData) :
    ∃ ou om, findSessionsLoop heap l d =
        { d with sessions := d.sessions ++ l, oldUidnext := ou, oldModSeq := om } ∧
      ((∀ s ∈ l, d.oldUidnext ≤ (heap s).uidnext) → ou = d.oldUidnext) ∧
      ((∀ s ∈ l, d.oldModSeq ≤ (heap s).nextModSeq) → om = d.oldModSeq) := by
  induction l generalizing d with
  | nil => exact ⟨d.oldUidnext, d.oldModSeq, by simp [findSessionsLoop], fun _ => rfl, fun _ => rfl⟩
  | cons a l ih =>
    rw [findSessionsLoop]
    simp only [Session.uidnext, Session.nextModSeq]
    by_cases c1 : (heap a).uidnext < d.oldUidnext <;>
      by_cases c2 : (heap a).nextModSeq < d.oldModSeq
    · obtain ⟨ou, om, e, h1, h2⟩ := ih
        { d with sessions := d.sessions ++ [a], oldUidnext := (heap a).uidnext,
                 oldModSeq := (heap a).nextModSeq }
      refine ⟨ou, om, ?_, fun h => ?_, fun h => ?_⟩
      · simp only [c1, c2, if_true]
        rw [e]
        simp
      · exact absurd (h a (List.mem_cons_self _ _)) (by omega)
      · exact absurd (h a (List.mem_cons_self _ _)) (by omega)
    · obtain ⟨ou, om, e, h1, h2⟩ := ih
        { d with sessions := d.sessions ++ [a], oldUidnext := (heap a).uidnext }
      refine ⟨ou, om, ?_, fun h => ?_, fun h => ?_⟩
      · simp only [c1, c2, if_true, if_false]
        rw [e]
        simp
      · exact absurd (h a (List.mem_cons_self _ _)) (by omega)
      · exact h2 (fun s hs => h s (List.mem_cons_of_mem _ hs))
    · obtain ⟨ou, om, e, h1, h2⟩ := ih
        { d with sessions := d.sessions ++ [a], oldModSeq := (heap a).nextModSeq }
      refine ⟨ou, om, ?_, fun h => ?_, fun h => ?_⟩
      · simp only [c1, c2, if_true, if_false]
        rw [e]
        simp
      · exact h1 (fun s hs => h s (List.mem_cons_of_mem _ hs))
      · exact absurd (h a (List.mem_cons_self _ _)) (by omega)
    · obtain ⟨ou, om, e, h1, h2⟩ := ih { d with sessions := d.sessions ++ [a] }
      refine ⟨ou, om, ?_, fun h => ?_, fun h => ?_⟩
      · simp only [c1, c2, if_false]
        rw [e]
        simp
      · exact h1 (fun s hs => h s (List.mem_cons_of_mem _ hs))
      · exact h2 (fun s hs => h s (List.mem_cons_of_mem _ hs))

/-- The sessions findSessions looks at: those of the mailbox, then `d->also`. -/
theorem findSessions_spec (x : SessionInitialiser) :
    ∃ ss ou om mb, findSessions x =
        { x with
          d := { x.d with
            sessions := ss, oldUidnext := ou, oldModSeq := om,
            newUidnext := x.mailbox.uidnext, newModSeq := x.mailbox.nextModSeq }
          mailbox := mb } ∧
      ((∀ s ∈ x.mailbox.sessions.getD [], x.mailbox.uidnext ≤ (x.heap s).uidnext ∧
          x.mailbox.nextModSeq ≤ (x.heap s).nextModSeq) →
        (∀ a, x.d.also = some a → x.mailbox.uidnext ≤ (x.heap a).uidnext ∧
          x.mailbox.nextModSeq ≤ (x.heap a).nextModSeq) →
        x.mailbox.ordinary = true → ss = []) := by
  obtain ⟨ou, om, e, h1, h2⟩ := findSessionsLoop_spec x.heap
    ((match x.d.also with
      | none => x.mailbox.sessions
      | some a =>
        match x.mailbox.sessions with
        | none => some [a]
        | some l => some (l ++ [a])).getD [])
    { x.d with
      newUidnext := x.mailbox.uidnext
      newModSeq := x.mailbox.nextModSeq
      oldUidnext := x.mailbox.uidnext
      oldModSeq := x.mailbox.nextModSeq }
  unfold findSessions
  simp only [e]
  split_ifs with c1 c2
  · refine ⟨_, ou, om, _, rfl, fun hs ha hord => ?_⟩
    exfalso
    have hall : ∀ s ∈ ((match x.d.also with
        | none => x.mailbox.sessions
        | some a =>
          match x.mailbox.sessions with
          | none => some [a]
          | some l => some (l ++ [a])).getD []),
        x.mailbox.uidnext ≤ (x.heap s).uidnext ∧ x.mailbox.nextModSeq ≤ (x.heap s).nextModSeq := by
      intro s hmem
      cases halso : x.d.also with
      | none =>
        rw [halso] at hmem
        exact hs s hmem
      | some a =>
        rw [halso] at hmem
        cases hl : x.mailbox.sessions with
        | none =>
          rw [hl] at hmem
          simp at hmem
          subst hmem
          exact ha _ halso
        | some l =>
          rw [hl] at hmem
          simp at hmem
          rcases hmem with g | g
          · exact hs s (by rw [hl]; exact g)
          · subst g
            exact ha _ halso
    have e1 := h1 (fun s hmem => (hall s hmem).1)
    have e2 := h2 (fun s hmem => (hall s hmem).2)
    simp only at e1 e2
    subst e1 e2
    simp at c1
  · exact ⟨[], ou, om, _, rfl, fun _ _ _ => rfl⟩
  · refine ⟨_, ou, om, _, rfl, fun _ _ hord => ?_⟩
    exact absurd hord c2

end SessionInitialiser

end Aox

namespace Aox

namespace SessionInitialiser

/-- The first loop of emitUpdates records calls of setNextModSeq and
setUidnext, on sessions of the work list, and nothing else. -/
theorem advanceCursors_trace (nu : Nat) (nm : Int) (l : List Nat)
    (heap : Nat → SessionData) (tr : List Event) :
    ∃ evs, (advanceCursors nu nm l (heap, tr)).2 = tr ++ evs ∧
      ∀ e ∈ evs, (∃ s, s ∈ l ∧ e = Event.setNextModSeq s nm) ∨
        (∃ s, s ∈ l ∧ e = Event.setUidnext s nu) := by
  induction l generalizing heap tr with
  | nil => exact ⟨[], by simp [advanceCursors], by simp⟩
  | cons a l ih =>
    rw [advanceCursors]
    by_cases c1 : Session.nextModSeq (heap a) < nm
    · simp only [c1, if_true]
      by_cases c2 : Session.uidnext
          (Function.update heap a (Session.setNextModSeq (heap a) nm) a) < nu
      · simp only [c2, if_true]
        obtain ⟨evs, e, h⟩ := ih
          (Function.update (Function.update heap a (Session.setNextModSeq (heap a) nm)) a
            (Session.setUidnext
              (Function.update heap a (Session.setNextModSeq (heap a) nm) a) nu))
          (tr ++ [Event.setNextModSeq a nm] ++ [Event.setUidnext a nu])
        refine ⟨[Event.setNextModSeq a nm, Event.setUidnext a nu] ++ evs, ?_, ?_⟩
        · rw [e]; simp
        · intro ev hev
          simp only [List.mem_append, List.mem_cons, List.mem_singleton, List.not_mem_nil,
            or_false] at hev
          rcases hev with (rfl | rfl) | hev
          · exact Or.inl ⟨a, List.mem_cons_self _ _, rfl⟩
          · exact Or.inr ⟨a, List.mem_cons_self _ _, rfl⟩
          · rcases h ev hev with ⟨s, hs, g⟩ | ⟨s, hs, g⟩
            · exact Or.inl ⟨s, List.mem_cons_of_mem _ hs, g⟩
            · exact Or.inr ⟨s, List.mem_cons_of_mem _ hs, g⟩
      · simp only [c2, if_false]
        obtain ⟨evs, e, h⟩ := ih
          (Function.update heap a (Session.setNextModSeq (heap a) nm))
          (tr ++ [Event.setNextModSeq a nm])
        refine ⟨[Event.setNextModSeq a nm] ++ evs, ?_, ?_⟩
        · rw [e]; simp
        · intro ev hev
          simp only [List.mem_append, List.mem_singleton] at hev
          rcases hev with rfl | hev
          · exact Or.inl ⟨a, List.mem_cons_self _ _, rfl⟩
          · rcases h ev hev with ⟨s, hs, g⟩ | ⟨s, hs, g⟩
            · exact Or.inl ⟨s, List.mem_cons_of_mem _ hs, g⟩
            · exact Or.inr ⟨s, List.mem_cons_of_mem _ hs, g⟩
    · simp only [c1, if_false]
      by_cases c2 : Session.uidnext (heap a) < nu
      · simp only [c2, if_true]
        obtain ⟨evs, e, h⟩ := ih
          (Function.update heap a (Session.setUidnext (heap a) nu))
          (tr ++ [Event.setUidnext a nu])
        refine ⟨[Event.setUidnext a nu] ++ evs, ?_, ?_⟩
        · rw [e]; simp
        · intro ev hev
          simp only [List.mem_append, List.mem_singleton] at hev
          rcases hev with rfl | hev
          · exact Or.inr ⟨a, List.mem_cons_self _ _, rfl⟩
          · rcases h ev hev with ⟨s, hs, g⟩ | ⟨s, hs, g⟩
            · exact Or.inl ⟨s, List.mem_cons_of_mem _ hs, g⟩
            · exact Or.inr ⟨s, List.mem_cons_of_mem _ hs, g⟩
      · simp only [c2, if_false]
        obtain ⟨evs, e, h⟩ := ih heap tr
        refine ⟨evs, e, ?_⟩
        intro ev hev
        rcases h ev hev with ⟨s, hs, g⟩ | ⟨s, hs, g⟩
        · exact Or.inl ⟨s, List.mem_cons_of_mem _ hs, g⟩
        · exact Or.inr ⟨s, List.mem_cons_of_mem _ hs, g⟩

/-- What emitUpdates does to a session: the cursors are raised when the
session is on the work list, the sets are left as they are. -/
theorem emitUpdates_heap (x : SessionInitialiser) (s : Nat) :
    (s ∈ x.d.sessions → (emitUpdates x).heap s =
      { x.heap s with
        nextModSeq := max (x.heap s).nextModSeq x.d.newModSeq
        uidnext := max (x.heap s).uidnext x.d.newUidnext }) ∧
    (s ∉ x.d.sessions → (emitUpdates x).heap s = x.heap s) ∧
    ((emitUpdates x).heap s).msns = (x.heap s).msns ∧
    ((emitUpdates x).heap s).unannounced = (x.heap s).unannounced ∧
    ((emitUpdates x).heap s).expunges = (x.heap s).expunges ∧
    ((emitUpdates x).heap s).recent = (x.heap s).recent := by
  have hmem : s ∈ x.d.sessions → (emitUpdates x).heap s =
      { x.heap s with
        nextModSeq := max (x.heap s).nextModSeq x.d.newModSeq
        uidnext := max (x.heap s).uidnext x.d.newUidnext } :=
    fun hs => advanceCursors_mem _ _ _ _ _ s hs
  have hnot : s ∉ x.d.sessions → (emitUpdates x).heap s = x.heap s :=
    fun hs => advanceCursors_not_mem _ _ _ _ _ s hs
  refine ⟨hmem, hnot, ?_⟩
  by_cases hs : s ∈ x.d.sessions
  · rw [hmem hs]
    exact ⟨rfl, rfl, rfl, rfl⟩
  · rw [hnot hs]
    exact ⟨rfl, rfl, rfl, rfl⟩

end SessionInitialiser

end Aox

namespace Aox

namespace SessionInitialiser

/-! ### The turns of the loop, state by state -/

theorem executeStep_noTransaction (x : SessionInitialiser)
    (h : x.d.state = State.NoTransaction) :
    executeStep x =
      if (findSessions x).d.sessions.isEmpty then
        Except.ok (setState (emitUpdates (findSessions x)) State.QueriesDone)
      else Except.ok (setState (grabLock (findSessions x)) State.WaitingForLock) := by
  simp only [executeStep, h]

theorem executeStep_waitingForLock (x : SessionInitialiser)
    (h : x.d.state = State.WaitingForLock) :
    executeStep x =
      match (findRecent x).d.recent with
      | none => Except.ok (setState (findRecent x) State.HaveUidnext)
      | some q =>
        if q.done then Except.ok (setState (findRecent x) State.HaveUidnext)
        else Except.ok (findRecent x) := by
  simp only [executeStep, h]

theorem executeStep_haveUidnext (x : SessionInitialiser)
    (h : x.d.state = State.HaveUidnext) :
    executeStep x = Except.ok (setState (findMailboxChanges x) State.ReceivingChanges) := by
  simp only [executeStep, h]

theorem executeStep_receivingChanges (x : SessionInitialiser)
    (h : x.d.state = State.ReceivingChanges) :
    executeStep x =
      match recordMailboxChanges x with
      | Except.error e => Except.error e
      | Except.ok x1 =>
        match (recordExpunges x1).d.messages with
        | none => Except.error Fault.nullPointer
        | some m =>
          if m.done && (match (recordExpunges x1).d.expunges with
              | none => true
              | some e => e.done) then
            Except.ok (setState (recordExpunges x1) State.Updated)
          else Except.ok (recordExpunges x1) := by
  simp only [executeStep, h]

theorem executeStep_updated (x : SessionInitialiser) (h : x.d.state = State.Updated) :
    executeStep x = Except.ok (releaseLock x) := by
  simp only [executeStep, h]

theorem executeStep_queriesDone (x : SessionInitialiser) (h : x.d.state = State.QueriesDone) :
    executeStep x = Except.ok x := by
  simp only [executeStep, h]

theorem findRecent_state (x : SessionInitialiser) : (findRecent x).d.state = x.d.state := by
  simp only [findRecent]
  repeat' split
  all_goals rfl

theorem recordMailboxChangesLoop_frame (rows : List Row) (x : SessionInitialiser) :
    (recordMailboxChangesLoop x rows).d = x.d ∧
    (recordMailboxChangesLoop x rows).trace = x.trace ∧
    (recordMailboxChangesLoop x rows).mailbox = x.mailbox := by
  induction rows generalizing x with
  | nil => exact ⟨rfl, rfl, rfl⟩
  | cons r rows ih =>
    rw [recordMailboxChangesLoop]
    exact ih (addToSessions x (toUint r.uid) r.modseq)

theorem recordMailboxChanges_ok (x y : SessionInitialiser)
    (h : recordMailboxChanges x = Except.ok y) :
    ∃ m, x.d.messages = some m ∧
      y = recordMailboxChangesLoop
        { x with d := { x.d with messages := some { m with rows := [] } } } m.rows := by
  unfold recordMailboxChanges at h
  split at h
  · exact absurd h (by simp)
  next m hm =>
    injection h with h
    exact ⟨m, hm, h.symm⟩

theorem recordMailboxChanges_state (x y : SessionInitialiser)
    (h : recordMailboxChanges x = Except.ok y) : y.d.state = x.d.state := by
  obtain ⟨m, _, e⟩ := recordMailboxChanges_ok x y h
  rw [e, (recordMailboxChangesLoop_frame _ _).1]

theorem recordExpunges_state (x : SessionInitialiser) :
    (recordExpunges x).d.state = x.d.state := by
  simp only [recordExpunges]
  repeat' split
  all_goals rfl

theorem releaseLock_state (x : SessionInitialiser) :
    (releaseLock x).d.state = x.d.state ∨ (releaseLock x).d.state = State.QueriesDone := by
  simp only [releaseLock]
  repeat' split
  all_goals first | exact Or.inl rfl | exact Or.inr rfl

/-- A turn of the loop of `execute()` leaves the state as it is or moves it to
a later one. -/
theorem executeStep_rank (x y : SessionInitialiser) (h : executeStep x = Except.ok y) :
    y.d.state = x.d.state ∨ x.d.state.rank < y.d.state.rank := by
  cases hst : x.d.state with
  | NoTransaction =>
    rw [executeStep_noTransaction x hst] at h
    split_ifs at h <;> injection h with h <;> rw [← h] <;> right <;> simp [setState, State.rank]
  | WaitingForLock =>
    rw [executeStep_waitingForLock x hst] at h
    have hfr := findRecent_state x
    rw [hst] at hfr
    split at h
    · injection h with h
      rw [← h]
      right; simp [setState, State.rank]
    · split_ifs at h
      · injection h with h
        rw [← h]
        right; simp [setState, State.rank]
      · injection h with h
        rw [← h]
        left; exact hfr
  | HaveUidnext =>
    rw [executeStep_haveUidnext x hst] at h
    injection h with h
    rw [← h]
    right; simp [setState, State.rank]
  | ReceivingChanges =>
    rw [executeStep_receivingChanges x hst] at h
    split at h
    · exact absurd h (by simp)
    next x1 hx1 =>
      have h1 := recordMailboxChanges_state x x1 hx1
      have h2 := recordExpunges_state x1
      rw [h1, hst] at h2
      split at h
      · exact absurd h (by simp)
      · split_ifs at h
        · injection h with h
          rw [← h]
          right; simp [setState, State.rank]
        · injection h with h
          rw [← h]
          left; exact h2
  | Updated =>
    rw [executeStep_updated x hst] at h
    injection h with h
    rw [← h]
    rcases releaseLock_state x with g | g
    · left; rw [g, hst]
    · rw [g]; right; simp [setState, State.rank]
  | QueriesDone =>
    rw [executeStep_queriesDone x hst] at h
    injection h with h
    rw [← h]
    left; exact hst

theorem executeStep_ne_outOfFuel (x : SessionInitialiser) :
    executeStep x ≠ Except.error Fault.outOfFuel := by
  cases hst : x.d.state with
  | NoTransaction =>
    rw [executeStep_noTransaction x hst]
    split_ifs <;> simp
  | WaitingForLock =>
    rw [executeStep_waitingForLock x hst]
    split
    · simp
    · split_ifs <;> simp
  | HaveUidnext =>
    rw [executeStep_haveUidnext x hst]
    simp
  | ReceivingChanges =>
    rw [executeStep_receivingChanges x hst]
    split
    next e he =>
      unfold recordMailboxChanges at he
      split at he
      · injection he with he
        rw [← he]
        simp
      · exact absurd he (by simp)
    · split
      · simp
      · split_ifs <;> simp
  | Updated =>
    rw [executeStep_updated x hst]
    simp
  | QueriesDone =>
    rw [executeStep_queriesDone x hst]
    simp

theorem rank_le_five (s : State) : s.rank ≤ 5 := by
  cases s <;> decide

theorem executeLoop_ne_outOfFuel (fuel : Nat) (x : SessionInitialiser)
    (h : 5 < x.d.state.rank + fuel) : executeLoop fuel x ≠ Except.error Fault.outOfFuel := by
  induction fuel generalizing x with
  | zero =>
    have := rank_le_five x.d.state
    omega
  | succ n ih =>
    rw [executeLoop]
    cases hs : executeStep x with
    | error e =>
      simp only
      intro he
      injection he with he
      exact executeStep_ne_outOfFuel x (by rw [hs, he])
    | ok y =>
      simp only
      split_ifs with c
      · apply ih
        rcases executeStep_rank x y hs with g | g
        · exact absurd g.symm c
        · omega
      · simp

/-- Six turns are enough for the loop of `execute()`. -/
theorem executeLoop_six (x : SessionInitialiser) :
    executeLoop 6 x ≠ Except.error Fault.outOfFuel :=
  executeLoop_ne_outOfFuel 6 x (by omega)

end SessionInitialiser

end Aox

namespace Aox

namespace SessionInitialiser

/-! ### While the database has not answered, `execute()` changes no session -/

theorem findSessions_frame (x : SessionInitialiser) :
    (findSessions x).heap = x.heap ∧ (findSessions x).trace = x.trace ∧
    (findSessions x).d.t = x.d.t ∧ (findSessions x).d.recent = x.d.recent ∧
    (findSessions x).d.messages = x.d.messages ∧
    (findSessions x).d.expunges = x.d.expunges ∧
    (findSessions x).d.state = x.d.state := by
  obtain ⟨ss, ou, om, mb, e, _⟩ := findSessions_spec x
  rw [e]
  exact ⟨rfl, rfl, rfl, rfl, rfl, rfl, rfl⟩

theorem emitUpdates_of_nil (x : SessionInitialiser) (h : x.d.sessions = []) :
    emitUpdates x = x := by
  cases x with
  | mk d mailbox heap trace =>
    cases d
    simp only at h
    subst h
    simp [emitUpdates, advanceCursors]

theorem grabLock_frame (x : SessionInitialiser) :
    (grabLock x).heap = x.heap ∧ (grabLock x).d.t = x.d.t ∧
    (grabLock x).d.messages = x.d.messages ∧ (grabLock x).d.expunges = x.d.expunges ∧
    (grabLock x).d.state = x.d.state ∧
    ((∀ q, x.d.recent = some q → q.rows = []) →
      ∀ q, (grabLock x).d.recent = some q → q.rows = []) := by
  unfold grabLock
  simp only []
  split
  next q hq =>
    refine ⟨rfl, rfl, rfl, rfl, rfl, fun hx q' hq' => ?_⟩
    have e : q' = q.bind 1 x.mailbox.id := by
      have : some (q.bind 1 x.mailbox.id) = some q' := hq'
      injection this with this
      exact this.symm
    rw [e]
    show q.rows = []
    by_cases c : (grabLockLoop x.heap x.d.sessions false 0).2 < uintPred x.d.newUidnext
    · rw [if_pos c] at hq
      injection hq with hq
      rw [← hq]
      rfl
    · rw [if_neg c] at hq
      exact hx q hq
  next hq =>
    refine ⟨rfl, rfl, rfl, rfl, rfl, fun _ q' hq' => ?_⟩
    have : (none : Option Query) = some q' := hq'
    exact absurd this (by simp)
theorem findMailboxChanges_frame (x : SessionInitialiser) :
    (findMailboxChanges x).heap = x.heap ∧ (findMailboxChanges x).d.t = x.d.t ∧
    (findMailboxChanges x).d.recent = x.d.recent ∧
    (findMailboxChanges x).d.state = x.d.state ∧
    (∃ m, (findMailboxChanges x).d.messages = some m ∧ m.rows = [] ∧ m.done = false) ∧
    ((∀ q, x.d.expunges = some q → q.rows = []) →
      ∀ q, (findMailboxChanges x).d.expunges = some q → q.rows = []) := by
  unfold findMailboxChanges
  by_cases c : x.d.oldUidnext ≤ 1
  · simp only [c, decide_True, Bool.not_true, Bool.false_eq_true, if_false, if_true]
    exact ⟨rfl, rfl, rfl, rfl, ⟨_, rfl, rfl, rfl⟩, fun hx q hq => hx q hq⟩
  · simp only [c, decide_False, Bool.not_false, Bool.false_eq_true, if_false, if_true]
    refine ⟨rfl, rfl, rfl, rfl, ⟨_, rfl, rfl, rfl⟩, fun _ q hq => ?_⟩
    · have e : some ((Query.new "select uid from deleted_messages where mailbox=$1 and modseq>=$2"
          true).bind 1 x.mailbox.id |>.bind 2 x.d.oldModSeq) = some q := hq
      injection e with e
      rw [← e]
      rfl

theorem findRecent_idle (x : SessionInitialiser) (h : ∀ q, x.d.recent = some q → q.rows = []) :
    findRecent x = x := by
  simp only [findRecent]
  split
  · rfl
  next q hq =>
    have hr := h q hq
    simp only [Query.nextRow, hr]

theorem recordMailboxChanges_idle (x : SessionInitialiser) (m : Query)
    (hm : x.d.messages = some m) (hr : m.rows = []) :
    recordMailboxChanges x = Except.ok x := by
  cases x with
  | mk d mailbox heap trace =>
    cases d
    cases m
    simp only at hm hr
    subst hm hr
    simp [recordMailboxChanges, recordMailboxChangesLoop]

theorem recordExpunges_idle (x : SessionInitialiser)
    (h : ∀ q, x.d.expunges = some q → q.rows = []) : recordExpunges x = x := by
  cases x with
  | mk d mailbox heap trace =>
    cases d with
    | mk sessions t recent messages expunges also ou nu om nm state cr =>
      cases expunges with
      | none => simp [recordExpunges]
      | some e =>
        cases e with
        | mk text owner binds rows done =>
          have hr : rows = [] := h _ rfl
          subst hr
          simp [recordExpunges, IntegerSet.isEmpty, IntegerSet.empty]

theorem executeStep_idle (x : SessionInitialiser) (h : awaitsDatabase x) :
    ∃ y, executeStep x = Except.ok y ∧ y.heap = x.heap ∧ y.d.t = x.d.t ∧ awaitsDatabase y := by
  obtain ⟨h1, h2, h3, h4, h5⟩ := h
  cases hst : x.d.state with
  | NoTransaction =>
    rw [executeStep_noTransaction x hst]
    obtain ⟨f1, _, f3, f4, f5, f6, f7⟩ := findSessions_frame x
    split_ifs with c
    · have hnil : (findSessions x).d.sessions = [] := by simpa using c
      rw [emitUpdates_of_nil _ hnil]
      refine ⟨_, rfl, f1, f3, ?_, ?_, ?_, ?_, ?_⟩
      · intro q hq; exact h1 q (f4 ▸ hq)
      · intro q hq; exact h2 q (f5 ▸ hq)
      · intro q hq; exact h3 q (f6 ▸ hq)
      · simp [setState]
      · simp [setState]
    · obtain ⟨g1, g2, g3, g4, g5, g6⟩ := grabLock_frame (findSessions x)
      refine ⟨_, rfl, g1.trans f1, g2.trans f3, ?_, ?_, ?_, ?_, ?_⟩
      · intro q hq
        exact g6 (fun q' hq' => h1 q' (f4 ▸ hq')) q hq
      · intro q hq
        exact h2 q (f5 ▸ g3 ▸ hq)
      · intro q hq
        exact h3 q (f6 ▸ g4 ▸ hq)
      · simp [setState]
      · simp [setState]
  | WaitingForLock =>
    rw [executeStep_waitingForLock x hst, findRecent_idle x h1]
    split
    · exact ⟨_, rfl, rfl, rfl, h1, h2, h3, by simp [setState], by simp [setState]⟩
    · split_ifs
      · exact ⟨_, rfl, rfl, rfl, h1, h2, h3, by simp [setState], by simp [setState]⟩
      · exact ⟨_, rfl, rfl, rfl, h1, h2, h3, h4, h5⟩
  | HaveUidnext =>
    rw [executeStep_haveUidnext x hst]
    obtain ⟨g1, g2, g3, g4, ⟨m, gm, gr, gd⟩, g6⟩ := findMailboxChanges_frame x
    refine ⟨_, rfl, g1, g2, ?_, ?_, ?_, ?_, ?_⟩
    · intro q hq; exact h1 q (g3 ▸ hq)
    · intro q hq
      have hq' : (findMailboxChanges x).d.messages = some q := hq
      rw [gm] at hq'
      injection hq' with hq'
      rw [← hq']
      exact ⟨gr, gd⟩
    · intro q hq; exact g6 h3 q hq
    · simp [setState]
    · intro _
      show (findMailboxChanges x).d.messages ≠ none
      rw [gm]
      simp
  | ReceivingChanges =>
    rw [executeStep_receivingChanges x hst]
    cases hm : x.d.messages with
    | none => exact absurd hm (h5 hst)
    | some m =>
      obtain ⟨hr, hd⟩ := h2 m hm
      rw [recordMailboxChanges_idle x m hm hr]
      simp only
      rw [recordExpunges_idle x h3, hm]
      simp only [hd, Bool.false_and]
      exact ⟨_, rfl, rfl, rfl, h1, h2, h3, h4, h5⟩
  | Updated => exact absurd hst h4
  | QueriesDone =>
    rw [executeStep_queriesDone x hst]
    exact ⟨_, rfl, rfl, rfl, h1, h2, h3, h4, h5⟩

theorem executeLoop_idle (fuel : Nat) (x : SessionInitialiser) (h : awaitsDatabase x) :
    executeLoop fuel x = Except.error Fault.outOfFuel ∨
    ∃ y, executeLoop fuel x = Except.ok y ∧ y.heap = x.heap ∧ y.d.t = x.d.t := by
  induction fuel generalizing x with
  | zero => left; rfl
  | succ n ih =>
    obtain ⟨y, hy, g1, g2, g3⟩ := executeStep_idle x h
    rw [executeLoop, hy]
    simp only
    split_ifs with c
    · rcases ih y g3 with e | ⟨z, e, k1, k2⟩
      · left; exact e
      · right; exact ⟨z, e, k1.trans g1, k2.trans g2⟩
    · right; exact ⟨y, rfl, g1, g2⟩

/-- A call of `execute()` without a transaction, made while the database has
not answered, has a result and changes no session. -/
theorem execute_idle (x : SessionInitialiser) (h : awaitsDatabase x) (ht : x.d.t = none) :
    ∃ y, execute x = Except.ok y ∧ y.heap = x.heap := by
  rcases executeLoop_idle 6 x h with e | ⟨y, e, k1, k2⟩
  · exact absurd e (executeLoop_six x)
  · refine ⟨y, ?_, k1⟩
    unfold execute
    rw [e]
    simp only
    rw [k2, ht]

end SessionInitialiser

end Aox

namespace Aox

namespace SessionInitialiser

/-! ### `execute()` has a result -/

theorem recordExpunges_messages (x : SessionInitialiser) :
    (recordExpunges x).d.messages = x.d.messages := by
  simp only [recordExpunges]
  repeat' split
  all_goals rfl

theorem executeStep_total (x : SessionInitialiser)
    (h : x.d.state = State.ReceivingChanges → x.d.messages ≠ none) :
    ∃ y, executeStep x = Except.ok y ∧
      (y.d.state = State.ReceivingChanges → y.d.messages ≠ none) := by
  cases hst : x.d.state with
  | NoTransaction =>
    rw [executeStep_noTransaction x hst]
    split_ifs
    · exact ⟨_, rfl, fun g => by simp [setState] at g⟩
    · exact ⟨_, rfl, fun g => by simp [setState] at g⟩
  | WaitingForLock =>
    rw [executeStep_waitingForLock x hst]
    have hfr := findRecent_state x
    rw [hst] at hfr
    split
    · exact ⟨_, rfl, fun g => by simp [setState] at g⟩
    · split_ifs
      · exact ⟨_, rfl, fun g => by simp [setState] at g⟩
      · exact ⟨_, rfl, fun g => by rw [hfr] at g; exact absurd g (by decide)⟩
  | HaveUidnext =>
    rw [executeStep_haveUidnext x hst]
    obtain ⟨_, _, _, _, ⟨m, gm, _, _⟩, _⟩ := findMailboxChanges_frame x
    refine ⟨_, rfl, fun _ => ?_⟩
    show (findMailboxChanges x).d.messages ≠ none
    rw [gm]
    simp
  | ReceivingChanges =>
    rw [executeStep_receivingChanges x hst]
    cases hm : x.d.messages with
    | none => exact absurd hm (h hst)
    | some m =>
      have hx1 : recordMailboxChanges x = Except.ok (recordMailboxChangesLoop
          { x with d := { x.d with messages := some { m with rows := [] } } } m.rows) := by
        simp only [recordMailboxChanges, hm]
      rw [hx1]
      simp only
      have hmsg : (recordExpunges (recordMailboxChangesLoop
          { x with d := { x.d with messages := some { m with rows := [] } } } m.rows)).d.messages =
          some { m with rows := [] } := by
        rw [recordExpunges_messages, (recordMailboxChangesLoop_frame _ _).1]
      rw [hmsg]
      simp only
      split_ifs
      · exact ⟨_, rfl, fun g => by simp [setState] at g⟩
      · exact ⟨_, rfl, fun _ => by rw [hmsg]; simp⟩
  | Updated =>
    rw [executeStep_updated x hst]
    refine ⟨_, rfl, fun g => ?_⟩
    rcases releaseLock_state x with e | e
    · rw [e, hst] at g
      exact absurd g (by decide)
    · rw [e] at g
      exact absurd g (by decide)
  | QueriesDone =>
    rw [executeStep_queriesDone x hst]
    exact ⟨_, rfl, fun g => by rw [hst] at g; exact absurd g (by decide)⟩

theorem executeLoop_total (fuel : Nat) (x : SessionInitialiser)
    (h : x.d.state = State.ReceivingChanges → x.d.messages ≠ none) :
    executeLoop fuel x = Except.error Fault.outOfFuel ∨
    ∃ y, executeLoop fuel x = Except.ok y ∧ x.d.state.rank ≤ y.d.state.rank ∧
      (y.d.state = State.ReceivingChanges → y.d.messages ≠ none) := by
  induction fuel generalizing x with
  | zero => left; rfl
  | succ n ih =>
    obtain ⟨y, hy, hinv⟩ := executeStep_total x h
    have hr : x.d.state.rank ≤ y.d.state.rank := by
      rcases executeStep_rank x y hy with g | g
      · rw [g]
      · omega
    rw [executeLoop, hy]
    simp only
    split_ifs with c
    · rcases ih y hinv with e | ⟨z, e, k1, k2⟩
      · left; exact e
      · right; exact ⟨z, e, by omega, k2⟩
    · right; exact ⟨y, rfl, hr, hinv⟩

/-- A call of `execute()` in a state in which the query for the messages
exists whenever the changes are being received has a result, and its state is
not an earlier one. -/
theorem execute_total (x : SessionInitialiser)
    (h : x.d.state = State.ReceivingChanges → x.d.messages ≠ none) :
    ∃ y, execute x = Except.ok y ∧ x.d.state.rank ≤ y.d.state.rank ∧
      (y.d.state = State.ReceivingChanges → y.d.messages ≠ none) := by
  rcases executeLoop_total 6 x h with e | ⟨y, e, k1, k2⟩
  · exact absurd e (executeLoop_six x)
  · unfold execute
    rw [e]
    simp only
    cases ht : y.d.t with
    | none => exact ⟨y, rfl, k1, k2⟩
    | some t =>
      simp only
      split_ifs with hf
      · have hst : (releaseLock y).d.state = y.d.state ∧
            (releaseLock y).d.messages = y.d.messages := by
          have ht' : (emitUpdates y).d.t = some t := ht
          simp [releaseLock, ht', hf]
          exact ⟨rfl, rfl⟩
        refine ⟨_, rfl, ?_, ?_⟩
        · show x.d.state.rank ≤ (releaseLock y).d.state.rank
          rw [hst.1]
          exact k1
        · intro g
          show (releaseLock y).d.messages ≠ none
          rw [hst.2]
          exact k2 (hst.1 ▸ g)
      · exact ⟨y, rfl, k1, k2⟩

end SessionInitialiser

end Aox
namespace Aox
namespace Fetch

/-! ### Parsing a FETCH: what happens to the error and to `peek` -/

theorem errorKept_refl (f : Fetch) : errorKept f f := Or.inl rfl

theorem errorKept_of_eq {f f1 : Fetch} (h : f1.error = f.error) : errorKept f f1 := Or.inl h

theorem errorKept_d (f : Fetch) (d : FetchData) : errorKept f { f with d := d } := Or.inl rfl

theorem errorKept_trans {f f1 f2 : Fetch} (h1 : errorKept f f1) (h2 : errorKept f1 f2) :
    errorKept f f2 := by
  rcases h1 with h1 | ⟨h1, m1, e1⟩
  · rcases h2 with h2 | ⟨h2, m2, e2⟩
    · exact Or.inl (h2.trans h1)
    · exact Or.inr ⟨h1 ▸ h2, m2, e2⟩
  · rcases h2 with h2 | ⟨h2, m2, e2⟩
    · exact Or.inr ⟨h1, m1, h2.trans e1⟩
    · rw [e1] at h2; cases h2

theorem setError_d (f : Fetch) (e : Error) (t : String) : (setError f e t).d = f.d := by
  unfold setError; split <;> rfl

theorem errorKept_setError (f : Fetch) (t : String) : errorKept f (setError f Error.Bad t) := by
  unfold setError
  cases h : f.error with
  | none => exact Or.inr ⟨h, t, rfl⟩
  | some x => exact Or.inl rfl

theorem setError_rejected {f : Fetch} (t : String) (h : f.error = none) :
    (setError f Error.Bad t).error = some (Error.Bad, t) := by
  unfold setError; rw [h]

theorem errorKept_parseBody (g : String → Bool) (f : Fetch) (a : AttributeText) (b : Bool) :
    errorKept f (parseBody g f a b) := by
  unfold parseBody
  simp only []
  split
  · exact errorKept_setError f _
  · cases a.closing
    · exact errorKept_trans (errorKept_setError f "Expected: ]") (errorKept_of_eq rfl)
    · exact errorKept_of_eq rfl

theorem parseBody_peek (g : String → Bool) (f : Fetch) (a : AttributeText) (b : Bool) :
    (parseBody g f a b).d.peek = f.d.peek := by
  unfold parseBody
  simp only []
  split
  · rw [setError_d]
  · cases a.closing <;> simp only [setError_d, Bool.false_eq_true, if_false, if_true] <;>
      split <;> split <;> split <;> rfl

theorem errorKept_parseAnnotationAttribs (l : List String) :
    ∀ (f : Fetch) (dict : List String), errorKept f (parseAnnotationAttribs l f dict) := by
  induction l with
  | nil => intro f dict; exact errorKept_refl f
  | cons a rest ih =>
    intro f dict
    unfold parseAnnotationAttribs
    simp only []
    have h0 : errorKept f (if legalAnnotationAttributes.contains a then f
        else setError f Error.Bad ("Unknown annotation attribute: " ++ a)) := by
      split
      · exact errorKept_refl f
      · exact errorKept_setError f _
    split
    · exact errorKept_trans h0 (errorKept_trans (errorKept_of_eq rfl) (ih _ _))
    · exact errorKept_trans h0 (errorKept_trans (errorKept_of_eq rfl) (ih _ _))

theorem parseAnnotationAttribs_peek (l : List String) :
    ∀ (f : Fetch) (dict : List String), (parseAnnotationAttribs l f dict).d.peek = f.d.peek := by
  induction l with
  | nil => intro f dict; rfl
  | cons a rest ih =>
    intro f dict
    unfold parseAnnotationAttribs
    simp only []
    split <;> rw [ih] <;> split <;> simp only [setError_d]

theorem errorKept_parseAnnotation (f : Fetch) (a : AttributeText) :
    errorKept f ( parseAnnotation f a) :=
  errorKept_trans (errorKept_of_eq rfl) (errorKept_parseAnnotationAttribs _ _ _)

theorem parseAnnotation_peek (f : Fetch) (a : AttributeText) :
    ( parseAnnotation f a).d.peek = f.d.peek := by
  unfold parseAnnotation; rw [parseAnnotationAttribs_peek]

theorem errorKept_ite {f x y : Fetch} (c : Prop) [Decidable c] (hx : errorKept f x)
    (hy : errorKept f y) : errorKept f (if c then x else y) := by
  split
  · exact hx
  · exact hy

theorem errorKept_parseBinarySize (g : String → Bool) (f : Fetch) (a : AttributeText) :
    errorKept f (parseBinarySize g f a) := by
  unfold parseBinarySize
  simp only []
  split
  · exact errorKept_parseBody g f a true
  · refine errorKept_trans (errorKept_parseBody g f a true) ?_
    refine errorKept_ite _ ?_ ?_
    · refine errorKept_trans (errorKept_ite _ ?_ ?_) (errorKept_of_eq rfl)
      · exact errorKept_trans (errorKept_of_eq rfl) (errorKept_setError _ _)
      · exact errorKept_of_eq rfl
    · refine errorKept_ite _ ?_ ?_
      · exact errorKept_trans (errorKept_of_eq rfl) (errorKept_setError _ _)
      · exact errorKept_of_eq rfl

theorem parseBinarySize_peek (g : String → Bool) (f : Fetch) (a : AttributeText) :
    (parseBinarySize g f a).d.peek = f.d.peek := by
  unfold parseBinarySize
  simp only []
  split
  · exact parseBody_peek g f a true
  · split <;> split <;> simp only [setError_d, parseBody_peek]

theorem errorKept_parseAttribute (g : String → Bool) (f : Fetch) (a : AttributeText)
    (b : Bool) : errorKept f (parseAttribute g f a b) := by
  unfold parseAttribute
  simp only []
  generalize EString.lower a.keyword = k
  repeat' first
    | with_reducible refine errorKept_ite _ ?_ ?_
    | with_reducible exact errorKept_parseBinarySize g f a
    | with_reducible exact errorKept_setError _ _
    | with_reducible exact errorKept_parseBody g f a _
    | exact errorKept_trans (errorKept_d f _) (errorKept_parseBody g _ a _)
    | exact errorKept_trans (errorKept_d f _) ( errorKept_parseAnnotation _ a)
    | exact errorKept_of_eq rfl

theorem peek_ite {c : Prop} [Decidable c] {x y : Fetch} {v : Bool}
    (hx : c → x.d.peek = v) (hy : ¬ c → y.d.peek = v) :
    (if c then x else y).d.peek = v := by
  split
  · exact hx ‹_›
  · exact hy ‹_›

theorem parseAttribute_peek (g : String → Bool) (f : Fetch) (a : AttributeText) (b : Bool) :
    (parseAttribute g f a b).d.peek = (f.d.peek && !clearsPeek a) := by
  unfold parseAttribute clearsPeek
  simp only []
  generalize EString.lower a.keyword = k
  repeat' (with_reducible refine peek_ite (fun h => ?_) (fun h => ?_))
  all_goals simp only [parseBody_peek, parseBinarySize_peek, parseAnnotation_peek, setError_d]
  all_goals try simp_all
  all_goals tauto

theorem errorKept_some {f f1 : Fetch} {x : Error × String} (h : errorKept f f1)
    (hx : f.error = some x) : f1.error = some x := by
  rcases h with h | ⟨h, _⟩
  · rw [h, hx]
  · rw [hx] at h; cases h

theorem errorKept_none {f f1 : Fetch} (h : errorKept f f1) (hx : f.error = none) :
    f1.error = none ∨ ∃ msg, f1.error = some (Error.Bad, msg) := by
  rcases h with h | ⟨_, h⟩
  · exact Or.inl (h.trans hx)
  · exact Or.inr h

theorem errorKept_foldl (g : String → Bool) (b : Bool) (l : List AttributeText) :
    ∀ f : Fetch, errorKept f (l.foldl (fun acc a => parseAttribute g acc a b) f) := by
  induction l with
  | nil => intro f; exact errorKept_refl f
  | cons a rest ih =>
    intro f
    exact errorKept_trans (errorKept_parseAttribute g f a b) (ih _)

theorem peek_foldl (g : String → Bool) (b : Bool) (l : List AttributeText) :
    ∀ f : Fetch, (l.foldl (fun acc a => parseAttribute g acc a b) f).d.peek =
      (f.d.peek && !l.any clearsPeek) := by
  induction l with
  | nil => intro f; simp
  | cons a rest ih =>
    intro f
    rw [List.foldl_cons, ih, parseAttribute_peek, List.any_cons]
    cases f.d.peek <;> cases clearsPeek a <;> simp

theorem parseAttribute_of_isMacro (g : String → Bool) (f : Fetch) {a : AttributeText}
    (h : isMacro a = true) :
    parseAttribute g f a false =
      setError f Error.Bad ("expected fetch attribute, saw word " ++ EString.lower a.keyword) := by
  unfold isMacro at h
  unfold parseAttribute
  simp only []
  generalize EString.lower a.keyword = k at h
  simp only [Bool.or_eq_true, decide_eq_true_eq] at h
  rcases h with (rfl | rfl) | rfl <;> rfl

theorem rejected_foldl (g : String → Bool) (l : List AttributeText) :
    ∀ f : Fetch, f.error = none → (∃ a ∈ l, isMacro a = true) →
      ∃ msg, (l.foldl (fun acc a => parseAttribute g acc a false) f).error =
        some (Error.Bad, msg) := by
  induction l with
  | nil => intro f _ h; obtain ⟨a, ha, _⟩ := h; cases ha
  | cons x rest ih =>
    intro f hf h
    rw [List.foldl_cons]
    by_cases hx : isMacro x = true
    · refine ⟨"expected fetch attribute, saw word " ++ EString.lower x.keyword,
        errorKept_some (errorKept_foldl g false rest _) ?_⟩
      rw [parseAttribute_of_isMacro g f hx]
      exact setError_rejected _ hf
    · have hrest : ∃ a ∈ rest, isMacro a = true := by
        obtain ⟨a, ha, hm⟩ := h
        rcases List.mem_cons.mp ha with rfl | ha
        · exact absurd hm hx
        · exact ⟨a, ha, hm⟩
      rcases errorKept_none (errorKept_parseAttribute g f x false) hf with h1 | ⟨msg, h1⟩
      · exact ih _ h1 hrest
      · exact ⟨msg, errorKept_some (errorKept_foldl g false rest _) h1⟩

theorem errorKept_parseFetchModifier (f : Fetch) (m : String × Nat) :
    errorKept f (parseFetchModifier f m) := by
  unfold parseFetchModifier
  split
  · exact errorKept_of_eq rfl
  · exact errorKept_setError f _

theorem parseFetchModifier_peek (f : Fetch) (m : String × Nat) :
    (parseFetchModifier f m).d.peek = f.d.peek := by
  unfold parseFetchModifier
  split
  · rfl
  · rw [setError_d]

theorem errorKept_modifiers (l : List (String × Nat)) :
    ∀ f : Fetch, errorKept f (l.foldl parseFetchModifier f) := by
  induction l with
  | nil => intro f; exact errorKept_refl f
  | cons a rest ih =>
    intro f
    exact errorKept_trans (errorKept_parseFetchModifier f a) (ih _)

theorem modifiers_peek (l : List (String × Nat)) :
    ∀ f : Fetch, (l.foldl parseFetchModifier f).d.peek = f.d.peek := by
  induction l with
  | nil => intro f; rfl
  | cons a rest ih =>
    intro f
    rw [List.foldl_cons, ih, parseFetchModifier_peek]

theorem parseNeeds_error (f : Fetch) : (parseNeeds f).error = f.error := by
  unfold parseNeeds
  simp only []
  split <;> split <;> rfl

theorem parseNeeds_peek (f : Fetch) : (parseNeeds f).d.peek = f.d.peek := by
  unfold parseNeeds
  simp only []
  split <;> split <;> rfl

theorem parse_error_of_attributes (g : String → Bool) (f : Fetch) (t : FetchText)
    {x : Error × String}
    (h : (parseAttributes g { f with d := { f.d with set := t.target } } t).error = some x) :
    (parse g f t).error = some x := by
  unfold parse
  simp only []
  rw [parseNeeds_error]
  exact errorKept_some (errorKept_modifiers _ _) h

theorem parse_peek (g : String → Bool) (f : Fetch) (t : FetchText) :
    (parse g f t).d.peek =
      (parseAttributes g { f with d := { f.d with set := t.target } } t).d.peek := by
  unfold parse
  simp only []
  rw [parseNeeds_peek, modifiers_peek]

end Fetch
end Aox
namespace Aox
namespace Fetch

theorem makeFetchResponse_frame (ctx : Context) (f : Fetch) (m : Message) (uid msn : Nat) :
    (makeFetchResponse ctx f m uid msn).seenFlagSetters = f.seenFlagSetters ∧
    (makeFetchResponse ctx f m uid msn).responses = f.responses ∧
    (makeFetchResponse ctx f m uid msn).error = f.error ∧
    (makeFetchResponse ctx f m uid msn).state = f.state ∧
    (makeFetchResponse ctx f m uid msn).group = f.group ∧
    (makeFetchResponse ctx f m uid msn).expungedFetches = f.expungedFetches ∧
    (makeFetchResponse ctx f m uid msn).d.expunged = f.d.expunged ∧
    (makeFetchResponse ctx f m uid msn).d.responseRate = f.d.responseRate ∧
    (makeFetchResponse ctx f m uid msn).d.available.length = f.d.available.length + 1 := by
  unfold makeFetchResponse
  simp

theorem pickupLoop_frame (ctx : Context) (l : List Message) :
    ∀ f : Fetch,
      (pickupLoop ctx l f).seenFlagSetters = f.seenFlagSetters ∧
      (pickupLoop ctx l f).responses = f.responses ∧
      (pickupLoop ctx l f).error = f.error ∧
      (pickupLoop ctx l f).state = f.state ∧
      (pickupLoop ctx l f).group = f.group ∧
      (pickupLoop ctx l f).expungedFetches = f.expungedFetches ∧
      (pickupLoop ctx l f).d.expunged = f.d.expunged ∧
      (pickupLoop ctx l f).d.responseRate = f.d.responseRate := by
  induction l with
  | nil => intro f; simp [pickupLoop]
  | cons m rest ih =>
    intro f
    unfold pickupLoop
    simp only []
    split
    · obtain ⟨h1, h2, h3, h4, h5, h6, h7, h8, _⟩ := makeFetchResponse_frame ctx f m m.uid
        (Session.msn ctx.session m.uid)
      obtain ⟨i1, i2, i3, i4, i5, i6, i7, i8⟩ := ih (makeFetchResponse ctx f m m.uid
        (Session.msn ctx.session m.uid))
      exact ⟨i1.trans h1, i2.trans h2, i3.trans h3, i4.trans h4, i5.trans h5, i6.trans h6,
        i7.trans h7, i8.trans h8⟩
    · simp

/-- What pickup does with the requested messages: those it takes are a prefix
of the list, and each gives one response. -/
theorem pickupLoop_requested (ctx : Context) (l : List Message) :
    ∀ f : Fetch, ∃ answered : List Message,
      answered ++ (pickupLoop ctx l f).d.requested = l ∧
      (pickupLoop ctx l f).d.available.length = f.d.available.length + answered.length := by
  induction l with
  | nil => intro f; exact ⟨[], by simp [pickupLoop]⟩
  | cons m rest ih =>
    intro f
    unfold pickupLoop
    simp only []
    split
    · obtain ⟨ans, h1, h2⟩ := ih (makeFetchResponse ctx f m m.uid
        (Session.msn ctx.session m.uid))
      refine ⟨m :: ans, by simp [h1], ?_⟩
      rw [h2, (makeFetchResponse_frame ctx f m m.uid _).2.2.2.2.2.2.2.2]
      simp only [List.length_cons]; omega
    · exact ⟨[], by simp⟩

theorem pickup_frame (ctx : Context) (f : Fetch) :
    (pickup ctx f).seenFlagSetters = f.seenFlagSetters ∧
    (pickup ctx f).responses = f.responses ∧
    (pickup ctx f).error = f.error ∧
    (pickup ctx f).state = f.state ∧
    (pickup ctx f).group = f.group ∧
    (pickup ctx f).expungedFetches = f.expungedFetches ∧
    (pickup ctx f).d.expunged = f.d.expunged ∧
    (pickup ctx f).d.responseRate = f.d.responseRate :=
  pickupLoop_frame ctx f.d.requested f

theorem pickup_requested (ctx : Context) (f : Fetch) :
    ∃ answered : List Message,
      answered ++ (pickup ctx f).d.requested = f.d.requested ∧
      (pickup ctx f).d.available.length = f.d.available.length + answered.length :=
  pickupLoop_requested ctx f.d.requested f

theorem sendFetchQueries_frame (ctx : Context) (f : Fetch) :
    (sendFetchQueries ctx f).seenFlagSetters = f.seenFlagSetters ∧
    (sendFetchQueries ctx f).responses = f.responses ∧
    (sendFetchQueries ctx f).error = f.error ∧
    (sendFetchQueries ctx f).state = f.state ∧
    (sendFetchQueries ctx f).group = f.group ∧
    (sendFetchQueries ctx f).expungedFetches = f.expungedFetches ∧
    (sendFetchQueries ctx f).d.expunged = f.d.expunged ∧
    (sendFetchQueries ctx f).d.state = f.d.state ∧
    (sendFetchQueries ctx f).d.available = f.d.available ∧
    (sendFetchQueries ctx f).d.requested =
      f.d.requested ++ f.d.set.members.map (requestedMessage ctx) := by
  unfold sendFetchQueries
  simp

theorem setError_seenFlagSetters (f : Fetch) (e : Error) (t : String) :
    (setError f e t).seenFlagSetters = f.seenFlagSetters := by
  unfold setError; split <;> rfl

theorem executeFinish_seenFlagSetters (ctx : Context) (f : Fetch) :
    (executeFinish ctx f).seenFlagSetters = f.seenFlagSetters := by
  unfold executeFinish finish
  simp only []
  split
  · exact (pickup_frame ctx f).1
  · split
    · simp only [setError_seenFlagSetters]; exact (pickup_frame ctx f).1
    · exact (pickup_frame ctx f).1

theorem executeChangedSince_seenFlagSetters (ctx : Context) (f : Fetch) :
    (executeChangedSince ctx f).1.seenFlagSetters = f.seenFlagSetters := by
  unfold executeChangedSince
  simp only []
  split
  · split <;> split <;> rfl
  · rfl

theorem executeChangedSince_peek (ctx : Context) (f : Fetch) :
    (executeChangedSince ctx f).1.d.peek = f.d.peek := by
  unfold executeChangedSince
  simp only []
  split
  · split <;> split <;> rfl
  · rfl

end Fetch
end Aox
namespace Aox
namespace Fetch

theorem parseKeeps_refl (f : Fetch) : parseKeeps f f := ⟨rfl, rfl, rfl, rfl⟩

theorem parseKeeps_trans {f f1 f2 : Fetch} (h1 : parseKeeps f f1) (h2 : parseKeeps f1 f2) :
    parseKeeps f f2 :=
  ⟨h2.1.trans h1.1, h2.2.1.trans h1.2.1, h2.2.2.1.trans h1.2.2.1, h2.2.2.2.trans h1.2.2.2⟩

theorem parseKeeps_ite {f x y : Fetch} (c : Prop) [Decidable c] (hx : parseKeeps f x)
    (hy : parseKeeps f y) : parseKeeps f (if c then x else y) := by
  split
  · exact hx
  · exact hy

theorem parseKeeps_setError (f : Fetch) (e : Error) (t : String) :
    parseKeeps f (setError f e t) := by
  unfold setError; split <;> exact ⟨rfl, rfl, rfl, rfl⟩

theorem parseKeeps_parseBody (g : String → Bool) (f : Fetch) (a : AttributeText) (b : Bool) :
    parseKeeps f (parseBody g f a b) := by
  unfold parseBody
  simp only []
  split
  · exact parseKeeps_setError f _ _
  · unfold parseKeeps
    cases a.closing <;> simp only [Bool.false_eq_true, if_false, if_true] <;>
      refine ⟨?_, ?_, ?_, ?_⟩ <;> (try split) <;> (try split) <;> (try split) <;>
      simp [setError_d, setError_seenFlagSetters]

theorem parseKeeps_parseAnnotationAttribs (l : List String) :
    ∀ (f : Fetch) (dict : List String), parseKeeps f (parseAnnotationAttribs l f dict) := by
  induction l with
  | nil => intro f dict; exact parseKeeps_refl f
  | cons a rest ih =>
    intro f dict
    unfold parseAnnotationAttribs
    simp only []
    have h0 : parseKeeps f (if legalAnnotationAttributes.contains a then f
        else setError f Error.Bad ("Unknown annotation attribute: " ++ a)) :=
      parseKeeps_ite _ (parseKeeps_refl f) (parseKeeps_setError f _ _)
    split
    · exact parseKeeps_trans (parseKeeps_trans h0 ⟨rfl, rfl, rfl, rfl⟩) (ih _ _)
    · exact parseKeeps_trans (parseKeeps_trans h0 ⟨rfl, rfl, rfl, rfl⟩) (ih _ _)

theorem parseKeeps_parseAnnotation (f : Fetch) (a : AttributeText) :
    parseKeeps f ( parseAnnotation f a) :=
  @parseKeeps_trans f { f with d := { f.d with entries := f.d.entries ++ a.entries } } _
    ⟨rfl, rfl, rfl, rfl⟩ (parseKeeps_parseAnnotationAttribs _ _ _)

theorem parseKeeps_parseBinarySize (g : String → Bool) (f : Fetch) (a : AttributeText) :
    parseKeeps f (parseBinarySize g f a) := by
  unfold parseBinarySize
  simp only []
  split
  · exact parseKeeps_parseBody g f a true
  · refine parseKeeps_trans (parseKeeps_parseBody g f a true) ?_
    refine parseKeeps_ite _ ?_ ?_
    · refine parseKeeps_trans (parseKeeps_ite _ ?_ ?_) ⟨rfl, rfl, rfl, rfl⟩
      · exact parseKeeps_trans ⟨rfl, rfl, rfl, rfl⟩ (parseKeeps_setError _ _ _)
      · exact ⟨rfl, rfl, rfl, rfl⟩
    · refine parseKeeps_ite _ ?_ ?_
      · exact parseKeeps_trans ⟨rfl, rfl, rfl, rfl⟩ (parseKeeps_setError _ _ _)
      · exact ⟨rfl, rfl, rfl, rfl⟩

theorem parseKeeps_d (f : Fetch) (d : FetchData) (h1 : d.state = f.d.state)
    (h2 : d.set = f.d.set) (h3 : d.changedSince = f.d.changedSince) :
    parseKeeps f { f with d := d } := ⟨h1, h2, h3, rfl⟩

theorem parseKeeps_parseAttribute (g : String → Bool) (f : Fetch) (a : AttributeText)
    (b : Bool) : parseKeeps f (parseAttribute g f a b) := by
  unfold parseAttribute
  simp only []
  generalize EString.lower a.keyword = k
  repeat' first
    | with_reducible refine parseKeeps_ite _ ?_ ?_
    | with_reducible exact parseKeeps_parseBinarySize g f a
    | with_reducible exact parseKeeps_setError _ _ _
    | with_reducible exact parseKeeps_parseBody g f a _
    | exact parseKeeps_trans (parseKeeps_d f _ rfl rfl rfl) (parseKeeps_parseBody g _ a _)
    | exact parseKeeps_trans (parseKeeps_d f _ rfl rfl rfl) ( parseKeeps_parseAnnotation _ a)
    | exact parseKeeps_d f _ rfl rfl rfl

theorem parseKeeps_foldl (g : String → Bool) (b : Bool) (l : List AttributeText) :
    ∀ f : Fetch, parseKeeps f (l.foldl (fun acc a => parseAttribute g acc a b) f) := by
  induction l with
  | nil => intro f; exact parseKeeps_refl f
  | cons a rest ih =>
    intro f
    exact parseKeeps_trans (parseKeeps_parseAttribute g f a b) (ih _)

theorem parseKeeps_parseAttributes (g : String → Bool) (f : Fetch) (t : FetchText) :
    parseKeeps f (parseAttributes g f t) := by
  unfold parseAttributes
  split
  · exact parseKeeps_foldl g false _ f
  · split
    · exact parseKeeps_setError f _ _
    · exact parseKeeps_ite _ (parseKeeps_parseAttribute g f _ true)
        (parseKeeps_trans (parseKeeps_parseAttribute g f _ true) (parseKeeps_setError _ _ _))

theorem parseNeeds_parseKeeps (f : Fetch) : parseKeeps f (parseNeeds f) := by
  unfold parseNeeds
  simp only []
  split <;> split <;> exact ⟨rfl, rfl, rfl, rfl⟩

/-- Without a fetch modifier Fetch::parse leaves the state of the execution,
CHANGEDSINCE and the SeenFlagSetters as they were and the set is the target. -/
theorem parse_keeps (g : String → Bool) (f : Fetch) (t : FetchText) (h : t.modifiers = []) :
    (parse g f t).d.state = f.d.state ∧ (parse g f t).d.set = t.target ∧
    (parse g f t).d.changedSince = f.d.changedSince ∧
    (parse g f t).seenFlagSetters = f.seenFlagSetters := by
  unfold parse
  simp only [h, List.foldl_nil]
  exact parseKeeps_trans (parseKeeps_parseAttributes g _ t) (parseNeeds_parseKeeps _)

/-- The parse part of the rule for `peek`. -/
theorem parseAttributes_peek (g : String → Bool) (f : Fetch) (t : FetchText) :
    ((parseAttributes g f t).d.peek = false → f.d.peek = true →
      t.attributes.any clearsPeek = true) ∧
    ((parseAttributes g f t).error = none → t.attributes.any clearsPeek = true →
      (parseAttributes g f t).d.peek = false) := by
  unfold parseAttributes
  split
  · rw [peek_foldl]
    constructor
    · intro h hp; rw [hp] at h; simpa using h
    · intro _ h; rw [h]; simp
  · split
    · rename_i h0
      rw [h0]
      constructor
      · intro h hp; rw [setError_d, hp] at h; cases h
      · intro _ h; simp at h
    · rename_i a rest h0
      rw [h0]
      simp only []
      constructor
      · intro h hp
        have h1 : (parseAttribute g f a true).d.peek = false := by
          split at h
          · exact h
          · rw [setError_d] at h; exact h
        rw [parseAttribute_peek, hp] at h1
        simp only [List.any_cons]
        simp only [Bool.true_and, Bool.not_eq_false'] at h1
        rw [h1]; rfl
      · intro he h
        split at he
        · rename_i hr
          have : rest = [] := by simpa using hr
          subst this
          simp only [List.any_cons, List.any_nil, Bool.or_false] at h
          simp only [List.isEmpty_nil, if_true]
          rw [parseAttribute_peek, h]; simp
        · exfalso
          unfold setError at he
          split at he
          · rename_i x hx; rw [hx] at he; cases he
          · cases he

end Fetch
end Aox
namespace Aox
namespace Fetch

theorem executeShrink_seenFlagSetters (ctx : Context) (f : Fetch) :
    (executeShrink ctx f).seenFlagSetters = f.seenFlagSetters := by
  unfold executeShrink
  simp only []
  split
  · split <;> split <;> rfl
  · rfl

theorem executeFetch_seenFlagSetters (ctx : Context) (f : Fetch) :
    (executeFetch ctx f).seenFlagSetters = f.seenFlagSetters := by
  unfold executeFetch
  simp only []
  split
  · split
    · exact (sendFetchQueries_frame ctx _).1
    · rw [executeFinish_seenFlagSetters]; exact (sendFetchQueries_frame ctx _).1
  · split
    · rfl
    · rw [executeFinish_seenFlagSetters]

theorem executeChangedSince_state (ctx : Context) (f : Fetch)
    (h : (executeChangedSince ctx f).2 = false) : (executeChangedSince ctx f).1.d.state = 1 := by
  revert h
  unfold executeChangedSince
  simp only []
  split
  · split <;> simp
  · simp

theorem executeStates_seenFlagSetters (ctx : Context) (f : Fetch) :
    (executeStates ctx f).seenFlagSetters =
      if f.d.peek = false ∧
          ((f.d.state = 0 ∧ (executeChangedSince ctx f).2 = false) ∨ f.d.state = 1) then
        f.seenFlagSetters ++
          [if f.d.state = 0 then (executeChangedSince ctx f).1.d.set else f.d.set]
      else f.seenFlagSetters := by
  unfold executeStates
  by_cases h0 : f.d.state = 0
  · have h1 : ¬ f.d.state = 1 := by omega
    cases h2 : (executeChangedSince ctx f).2
    · cases hp : f.d.peek <;>
        simp [h0, h2, hp, executeChangedSince_state ctx f h2, executeChangedSince_peek,
          executeChangedSince_seenFlagSetters, executeFetch_seenFlagSetters,
          executeShrink_seenFlagSetters]
    · simp [h0, h2, executeChangedSince_seenFlagSetters]
  · by_cases h1 : f.d.state = 1
    · cases hp : f.d.peek <;>
        simp [h1, hp, executeFetch_seenFlagSetters, executeShrink_seenFlagSetters]
    · simp [h0, h1, executeFetch_seenFlagSetters, executeShrink_seenFlagSetters]

end Fetch
end Aox
namespace Aox
namespace Fetch

theorem setError_frame (f : Fetch) (e : Error) (t : String) :
    (setError f e t).responses = f.responses ∧ (setError f e t).group = f.group ∧
    (setError f e t).expungedFetches = f.expungedFetches := by
  unfold setError; split <;> exact ⟨rfl, rfl, rfl⟩

theorem requestedMessage_uid (ctx : Context) (uid : Nat) :
    (requestedMessage ctx uid).uid = uid := by
  unfold requestedMessage; rfl

theorem map_requestedMessage_uid (ctx : Context) (l : List Nat) :
    (l.map (requestedMessage ctx)).map (fun m => m.uid) = l := by
  induction l with
  | nil => rfl
  | cons a rest ih =>
    rw [List.map_cons, List.map_cons, ih, requestedMessage_uid]

theorem executeFinish_expunged (ctx : Context) (f : Fetch) :
    (executeFinish ctx f).d.expunged = f.d.expunged := by
  unfold executeFinish finish
  simp only []
  split
  · exact (pickup_frame ctx f).2.2.2.2.2.2.1
  · split
    · simp only [setError_d]; exact (pickup_frame ctx f).2.2.2.2.2.2.1
    · exact (pickup_frame ctx f).2.2.2.2.2.2.1

theorem executeFinish_requested (ctx : Context) (f : Fetch) :
    ∃ answered : List Message,
      answered ++ (executeFinish ctx f).d.requested = f.d.requested ∧
      (executeFinish ctx f).responses.length + (executeFinish ctx f).d.available.length =
        f.responses.length + f.d.available.length + answered.length := by
  obtain ⟨ans, h1, h2⟩ := pickup_requested ctx f
  have hr := (pickup_frame ctx f).2.1
  refine ⟨ans, ?_, ?_⟩
  · unfold executeFinish finish
    simp only []
    split
    · exact h1
    · split <;> simp only [setError_d] <;> exact h1
  · unfold executeFinish finish
    simp only []
    split
    · rw [hr, h2]; omega
    · split
      · simp only [setError_d, (setError_frame _ _ _).1, List.length_append, hr, h2,
          List.length_nil]
        omega
      · simp only [List.length_append, hr, h2, List.length_nil]
        omega

theorem executeFinish_end (ctx : Context) (f : Fetch)
    (h : (executeFinish ctx f).d.requested = []) (he : f.error = none) :
    (executeFinish ctx f).state = CommandState.Finished ∧
    (executeFinish ctx f).error =
      if f.d.expunged.isEmpty then none
      else some (Error.No, "UID(s) " ++ f.d.expunged.set ++ " has/have been expunged") := by
  have hx := (pickup_frame ctx f).2.2.2.2.2.2.1
  have hpe := (pickup_frame ctx f).2.2.1
  revert h
  unfold executeFinish finish
  simp only []
  split
  · rename_i hne
    intro h
    rw [h] at hne
    simp at hne
  · intro _
    rw [hx]
    cases hempty : f.d.expunged.isEmpty
    · simp [setError, hpe, he]
    · simp [hpe, he]

theorem members_of_isEmpty {s : IntegerSet} (h : s.isEmpty = true) : s.members = [] := by
  unfold IntegerSet.isEmpty at h
  unfold IntegerSet.members
  cases hr : s.ranges with
  | nil => rfl
  | cons a l => rw [hr] at h; cases h

/-- What the part of Fetch::execute from `d->state == 2` on does with the
expunged UIDs, with the requests and with the end of the command. -/
theorem executeShrink_spec (ctx : Context) (f : Fetch) (h2 : f.d.state = 2) :
    (executeFetch ctx (executeShrink ctx f)).d.expunged =
      (if f.group = 2 then (Session.expunged ctx.session).intersection f.d.set
        else f.d.expunged) ∧
    (∃ answered : List Message,
      answered ++ (executeFetch ctx (executeShrink ctx f)).d.requested =
        f.d.requested ++ (shrink ctx f.d.set).members.map (requestedMessage ctx) ∧
      (executeFetch ctx (executeShrink ctx f)).responses.length +
          (executeFetch ctx (executeShrink ctx f)).d.available.length =
        f.responses.length + f.d.available.length + answered.length) ∧
    ((executeFetch ctx (executeShrink ctx f)).d.requested = [] → f.error = none →
      (executeFetch ctx (executeShrink ctx f)).state = CommandState.Finished ∧
      (executeFetch ctx (executeShrink ctx f)).error =
        if (if f.group = 2 then (Session.expunged ctx.session).intersection f.d.set
            else f.d.expunged).isEmpty then none
        else some (Error.No, "UID(s) " ++
          (if f.group = 2 then (Session.expunged ctx.session).intersection f.d.set
            else f.d.expunged).set ++ " has/have been expunged")) := by
  -- the Fetch after the step for state 2
  have hy : ∃ y : Fetch, executeShrink ctx f = y ∧
      y.d.expunged = (if f.group = 2 then (Session.expunged ctx.session).intersection f.d.set
        else f.d.expunged) ∧
      y.d.set = shrink ctx f.d.set ∧ y.d.requested = f.d.requested ∧
      y.d.available = f.d.available ∧ y.responses = f.responses ∧ y.error = f.error ∧
      ((y.d.state = 3 ∧ y.d.set.isEmpty = false) ∨ (y.d.state = 5 ∧ y.d.set.isEmpty = true)) := by
    refine ⟨_, rfl, ?_⟩
    unfold executeShrink
    simp only [h2, if_true]
    by_cases hg : f.group = 2 <;> cases hs : (shrink ctx f.d.set).isEmpty <;> simp [hg, hs]
  obtain ⟨y, hy0, hexp, hset, hreq, hav, hresp, herr, hstate⟩ := hy
  rw [hy0, ← hexp, ← hset, ← hreq, ← hav, ← hresp, ← herr]
  clear hy0 hexp hset hreq hav hresp herr h2
  rcases hstate with ⟨h3, _⟩ | ⟨h5, hempty⟩
  · -- the queries are sent
    have hs := sendFetchQueries_frame ctx { y with d := { y.d with state := 4 } }
    obtain ⟨_, s2, s3, _, _, _, s7, s8, s9, s10⟩ := hs
    have hf : executeFetch ctx y =
        executeFinish ctx (sendFetchQueries ctx { y with d := { y.d with state := 4 } }) := by
      unfold executeFetch
      simp only [h3, if_true]
      rw [if_neg (by rw [s8]; exact (by decide : ¬ (4 : Int) < 4))]
    rw [hf]
    refine ⟨?_, ?_, ?_⟩
    · rw [executeFinish_expunged, s7]
    · obtain ⟨ans, a1, a2⟩ := executeFinish_requested ctx
        (sendFetchQueries ctx { y with d := { y.d with state := 4 } })
      exact ⟨ans, by rw [a1, s10], by rw [a2, s2, s9]⟩
    · intro hr he
      have := executeFinish_end ctx _ hr (by rw [s3]; exact he)
      rw [s7] at this
      exact this
  · have hf : executeFetch ctx y = executeFinish ctx y := by
      unfold executeFetch
      simp [h5]
    rw [hf, members_of_isEmpty hempty]
    refine ⟨executeFinish_expunged ctx y, ?_, fun hr he => executeFinish_end ctx y hr he⟩
    obtain ⟨ans, a1, a2⟩ := executeFinish_requested ctx y
    exact ⟨ans, by simpa using a1, a2⟩

end Fetch
end Aox
namespace Aox
namespace Fetch

theorem eq_with_state_peek (f : Fetch) (p : Bool) (h2 : f.d.state = 2) (hp : f.d.peek = p) :
    { f with d := { f.d with state := 2, peek := p } } = f := by
  obtain ⟨d, _, _, _, _, _, _, _, _⟩ := f
  cases d
  simp only at h2 hp
  subst h2 hp
  rfl

/-- A call of Fetch::execute that gets to the step for `d->state == 2`: the
command is in that state, or no SeenFlagSetter is needed and nothing has to be
asked about CHANGEDSINCE. -/
theorem execute_eq_shrink (ctx : Context) (f : Fetch) (hs : f.state = CommandState.Executing)
    (h : f.d.state = 2 ∨ ((f.d.peek = true ∨ Session.readOnly ctx.session = true) ∧
      (f.d.state = 1 ∨ (f.d.state = 0 ∧ f.d.changedSince = 0)))) :
    execute ctx f = executeFetch ctx (executeShrink ctx
      { f with d := { f.d with state := 2,
                               peek := f.d.peek || Session.readOnly ctx.session } }) := by
  unfold execute executeStates
  rw [if_neg (by simp [hs])]
  rcases h with h2 | ⟨hp, h1 | ⟨h0, hc⟩⟩
  · cases hp : f.d.peek <;> cases hr : Session.readOnly ctx.session
    · rw [eq_with_state_peek f _ h2 (by simp [hp])]; simp [h2, hp, hr]
    · simp [h2, hp, hr]
    · rw [eq_with_state_peek f _ h2 (by simp [hp])]; simp [h2, hp, hr]
    · rw [eq_with_state_peek f _ h2 (by simp [hp])]; simp [h2, hp, hr]
  · rcases hp with hp | hr
    · simp [h1, hp]
    · cases hp : f.d.peek <;> simp [h1, hp, hr]
  · rcases hp with hp | hr
    · simp [h0, hc, hp, executeChangedSince]
    · cases hp : f.d.peek <;> simp [h0, hc, hp, hr, executeChangedSince]

theorem contains_of_isEmpty {s : IntegerSet} (h : s.isEmpty = true) (x : Nat) :
    s.contains x = false := by
  unfold IntegerSet.isEmpty at h
  unfold IntegerSet.contains
  cases hr : s.ranges with
  | nil => rfl
  | cons a l => rw [hr] at h; cases h

end Fetch
end Aox
namespace Aox
namespace Store

theorem checkFlagNames_spec (l : List String) :
    ∀ (d : StoreData) (o : Bool),
      checkFlagNames l (d, o) =
        ({ d with
            seen := d.seen || l.any (fun n => EString.lower n ≠ "\\deleted" ∧
              EString.lower n = "\\seen")
            deleted := d.deleted || l.any (fun n => EString.lower n = "\\deleted") },
          o || l.any (fun n => EString.lower n ≠ "\\deleted" ∧ EString.lower n ≠ "\\seen")) := by
  induction l with
  | nil => intro d o; simp [checkFlagNames]
  | cons n rest ih =>
    intro d o
    unfold checkFlagNames
    by_cases h1 : EString.lower n = "\\deleted"
    · simp only [h1, if_true, ih]
      simp [h1]
    · by_cases h2 : EString.lower n = "\\seen"
      · simp only [h1, h2, if_true, if_false, ih]
        simp [h1, h2]
      · simp only [h1, h2, if_false, ih]
        simp [h1, h2]

theorem storeError_frame (c : Store) (e : Error) (t : String) :
    (setError c e t).rights = c.rights ∧ (setError c e t).d = c.d ∧
    (setError c e t).statements = c.statements ∧ (setError c e t).commits = c.commits ∧
    (setError c e t).responses = c.responses ∧
    (setError c e t).respTextCode = c.respTextCode := by
  unfold setError; split <;> exact ⟨rfl, rfl, rfl, rfl, rfl, rfl⟩

theorem setError_rights (c : Store) (e : Error) (t : String) :
    (setError c e t).rights = c.rights := (storeError_frame c e t).1

theorem storeError_d (c : Store) (e : Error) (t : String) :
    (setError c e t).d = c.d := (storeError_frame c e t).2.1

theorem sendQueries_rights (ctx : Context) (c : Store) :
    (sendQueries ctx c).rights = c.rights := by
  unfold sendQueries enqueue
  simp only []
  split_ifs <;> rfl

theorem removeFlags_rights (ctx : Context) (c : Store) (o : Bool) :
    (removeFlags ctx c o).1.rights = c.rights := by
  unfold removeFlags enqueue
  simp only []
  split_ifs <;> rfl

theorem addFlags_rights (ctx : Context) (c : Store) :
    (addFlags ctx c).1.rights = c.rights := by
  unfold addFlags enqueue
  simp only []
  split_ifs <;> rfl

theorem replaceFlags_rights (ctx : Context) (c : Store) :
    (replaceFlags ctx c).1.rights = c.rights := by
  unfold replaceFlags
  simp only [addFlags_rights, removeFlags_rights]

theorem executeEnd_rights (ctx : Context) (c : Store) :
    (executeEnd ctx c).rights = c.rights := by
  unfold executeEnd finish
  simp only []
  split_ifs <;> simp [setError_rights, storeError_d]

theorem executeModSeq_rights (ctx : Context) (c : Store) :
    (executeModSeq ctx c).rights = c.rights := by
  unfold executeModSeq finish commit enqueue
  cases hn : ctx.nextmodseq <;> by_cases hm : c.d.modseq = 0 <;>
    simp only [hm, if_true, if_false, Bool.false_eq_true] <;>
    (try split_ifs) <;> simp [setError_rights, executeEnd_rights]

theorem workStart_rights (c : Store) : (workStart c).rights = c.rights := by
  unfold workStart
  simp only []
  split_ifs <;> rfl

theorem workOp_rights (ctx : Context) (c : Store) : (workOp ctx c).1.rights = c.rights := by
  unfold workOp
  split <;> simp [replaceFlags_rights, addFlags_rights, removeFlags_rights, replaceAnnotations]

theorem executeWork_rights (ctx : Context) (c : Store) :
    (executeWork ctx c).1.rights = c.rights := by
  unfold executeWork finish commit
  simp only []
  split_ifs <;> simp [setError_rights, storeError_d, workOp_rights, workStart_rights]

theorem execute_rights (ctx : Context) (c : Store) (h : c.state = CommandState.Executing) :
    (execute ctx c).rights = (checkPermission c).rights := by
  unfold execute
  rw [if_neg (by simp [h])]
  simp only []
  split_ifs <;>
    simp [executeModSeq_rights, executeWork_rights, sendQueries_rights]

end Store
end Aox
namespace Aox
namespace Store

theorem checkPermission_flags (c : Store) (hp : c.d.checkedPermission = false)
    (hop : c.d.op ≠ Op.ReplaceAnnotations) :
    checkPermission c =
      { c with
        d := { c.d with
          checkedPermission := true
          seen := c.d.seen || c.d.flagNames.any (fun n => EString.lower n ≠ "\\deleted" ∧
            EString.lower n = "\\seen")
          deleted := c.d.deleted || c.d.flagNames.any (fun n => EString.lower n = "\\deleted") }
        rights := c.rights ++
          (if c.d.seen || c.d.flagNames.any (fun n => EString.lower n ≠ "\\deleted" ∧
              EString.lower n = "\\seen") then [Right.KeepSeen] else []) ++
          (if c.d.deleted || c.d.flagNames.any (fun n => EString.lower n = "\\deleted") then
            [Right.DeleteMessages] else []) ++
          (if c.d.flagNames.any (fun n => EString.lower n ≠ "\\deleted" ∧
              EString.lower n ≠ "\\seen") || c.d.flagNames.isEmpty then [Right.Write]
            else []) } := by
  unfold checkPermission flagRights
  simp only [hp, hop, checkFlagNames_spec, Bool.false_or, Bool.not_false, ↓reduceIte,
    List.append_assoc]

end Store
end Aox
namespace Aox
namespace Store

/-- The StoreData after the loop of addFlags: only the four booleans for
\Seen and \Deleted change. -/
theorem addFlagsLoop_d (ctx : Context) (l : List String) :
    ∀ (d : StoreData) (lines : List (Nat × Nat × Nat)) (work : Bool),
      (addFlagsLoop ctx l (d, lines, work)).1 =
        { d with
          changeSeen := d.changeSeen || l.any (fun n => isSeen ctx (flagIdOf ctx n))
          newSeen := d.newSeen || l.any (fun n => isSeen ctx (flagIdOf ctx n))
          changeDeleted := d.changeDeleted ||
            l.any (fun n => !isSeen ctx (flagIdOf ctx n) && isDeleted ctx (flagIdOf ctx n))
          newDeleted := d.newDeleted ||
            l.any (fun n => !isSeen ctx (flagIdOf ctx n) && isDeleted ctx (flagIdOf ctx n)) } := by
  induction l with
  | nil => intro d lines work; simp [addFlagsLoop]
  | cons n rest ih =>
    intro d lines work
    unfold addFlagsLoop
    simp only []
    cases h1 : isSeen ctx (flagIdOf ctx n)
    · cases h2 : isDeleted ctx (flagIdOf ctx n)
      · simp only [Bool.false_eq_true, if_false]
        split
        · split
          · rw [ih]; simp [h1, h2]
          · rw [ih]; simp [h1, h2]
        · rw [ih]; simp [h1, h2]
      · simp only [Bool.false_eq_true, if_false, if_true, ih]
        simp [h1, h2]
    · simp only [if_true, ih]
      simp [h1]

theorem addFlags_d (ctx : Context) (c : Store) :
    (addFlags ctx c).1.d = (addFlagsLoop ctx c.d.flagNames (c.d, [], false)).1 := by
  unfold addFlags enqueue
  simp only []
  split <;> rfl

theorem removeFlags_d (ctx : Context) (c : Store) (o : Bool) :
    (removeFlags ctx c o).1.d =
      { c.d with
        changedUids := c.d.changedUids.addSet (c.d.specified.removeSet
          (removeFlagsLoop ctx c.d c.d.flagNames (IntegerSet.empty, c.d.specified)).2)
        changeSeen := (c.d.seen && !o || o && !c.d.seen) || c.d.changeSeen
        newSeen := !(c.d.seen && !o || o && !c.d.seen) && c.d.newSeen
        changeDeleted := (c.d.deleted && !o || o && !c.d.deleted) || c.d.changeDeleted
        newDeleted := !(c.d.deleted && !o || o && !c.d.deleted) && c.d.newDeleted } := by
  unfold removeFlags enqueue
  simp only []
  cases c.d.seen <;> cases c.d.deleted <;> cases o <;>
    simp only [Bool.false_and, Bool.true_and, Bool.and_false, Bool.and_true, Bool.not_true,
      Bool.not_false, Bool.or_false, Bool.or_true, Bool.false_or, Bool.true_or,
      Bool.false_eq_true, if_false, if_true] <;>
    split <;> rfl

end Store

theorem Example.storeContext_isSeen (n : String) :
    Store.isSeen Example.storeContext (Store.flagIdOf Example.storeContext n) =
      decide (EString.lower n = "\\seen") := by
  unfold Store.isSeen Store.flagIdOf
  show (decide (_ ≠ 0) && decide (_ = 1)) = _
  unfold Example.storeContext Example.flagIds
  simp only []
  by_cases h1 : EString.lower n = "\\seen"
  · simp [h1]
  · by_cases h2 : EString.lower n = "\\deleted"
    · simp [h1, h2]
    · by_cases h3 : EString.lower n = "\\flagged" <;> simp [h1, h2, h3]

theorem Example.storeContext_isDeleted (n : String) :
    Store.isDeleted Example.storeContext (Store.flagIdOf Example.storeContext n) =
      decide (EString.lower n = "\\deleted") := by
  unfold Store.isDeleted Store.flagIdOf
  show (decide (_ ≠ 0) && decide (_ = 2)) = _
  unfold Example.storeContext Example.flagIds
  simp only []
  by_cases h1 : EString.lower n = "\\seen"
  · have : ¬ EString.lower n = "\\deleted" := by rw [h1]; decide
    simp [h1, this]
  · by_cases h2 : EString.lower n = "\\deleted"
    · simp [h1, h2]
    · by_cases h3 : EString.lower n = "\\flagged" <;> simp [h1, h2, h3]

end Aox
namespace Aox
namespace Store

theorem workFrame_refl (c : Store) : workFrame c c :=
  ⟨rfl, rfl, rfl, rfl, rfl, rfl, rfl, rfl, rfl, rfl, rfl, rfl, rfl, rfl, rfl⟩

theorem workFrame_trans {c c1 c2 : Store} (h1 : workFrame c c1) (h2 : workFrame c1 c2) :
    workFrame c c2 := by
  obtain ⟨a1, a2, a3, a4, a5, a6, a7, a8, a9, a10, a11, a12, a13, a14, a15⟩ := h1
  obtain ⟨b1, b2, b3, b4, b5, b6, b7, b8, b9, b10, b11, b12, b13, b14, b15⟩ := h2
  exact ⟨b1.trans a1, b2.trans a2, b3.trans a3, b4.trans a4, b5.trans a5, b6.trans a6,
    b7.trans a7, b8.trans a8, b9.trans a9, b10.trans a10, b11.trans a11, b12.trans a12,
    b13.trans a13, b14.trans a14, b15.trans a15⟩

theorem removeFlags_statements (ctx : Context) (c : Store) (o : Bool) :
    (removeFlags ctx c o).1.statements = c.statements ∨
    ∃ text flags, (removeFlags ctx c o).1.statements =
      c.statements ++ [Statement.deleteFlags text ctx.mailbox c.d.s flags] := by
  unfold removeFlags enqueue
  simp only []
  split
  · exact Or.inl rfl
  · refine Or.inr ⟨"delete from flags where mailbox=$1 and uid=any($2) and " ++
      (if o then "not " else "") ++ "flag=any($3)",
      (removeFlagsLoop ctx c.d c.d.flagNames (IntegerSet.empty, c.d.specified)).1, ?_⟩
    cases c.d.seen <;> cases c.d.deleted <;> cases o <;> rfl

theorem removeFlags_workFrame (ctx : Context) (c : Store) (o : Bool) :
    workFrame c (removeFlags ctx c o).1 := by
  have hd := removeFlags_d ctx c o
  refine ⟨?_, ?_, ?_, ?_, ?_, ?_, ?_, ?_, ?_, ?_, ?_, ?_, ?_, ?_, ?_⟩
  iterate 6 (unfold removeFlags enqueue; simp only []; split <;> rfl)
  all_goals rw [hd]

theorem addFlags_workFrame (ctx : Context) (c : Store) :
    workFrame c (addFlags ctx c).1 := by
  have hd : (addFlags ctx c).1.d = _ := (addFlags_d ctx c).trans (addFlagsLoop_d ctx _ _ _ _)
  refine ⟨?_, ?_, ?_, ?_, ?_, ?_, ?_, ?_, ?_, ?_, ?_, ?_, ?_, ?_, ?_⟩
  iterate 6 (unfold addFlags enqueue; simp only []; split <;> rfl)
  all_goals rw [hd]

theorem replaceFlags_workFrame (ctx : Context) (c : Store) :
    workFrame c (replaceFlags ctx c).1 :=
  workFrame_trans (removeFlags_workFrame ctx c true) (addFlags_workFrame ctx _)

theorem replaceAnnotations_workFrame (ctx : Context) (c : Store) :
    workFrame c (replaceAnnotations ctx c) :=
  ⟨rfl, rfl, rfl, rfl, rfl, rfl, rfl, rfl, rfl, rfl, rfl, rfl, rfl, rfl, rfl⟩

theorem findPresent_mem {d : StoreData} {id : Nat} {p : IntegerSet}
    (h : findPresent d id = some p) : ∃ e ∈ d.present, e.2 = p := by
  unfold findPresent at h
  split at h
  · rename_i e he
    exact ⟨e, List.mem_of_find?_eq_some he, by simpa using h⟩
  · cases h

theorem copyLines_within (mailbox flag : Nat) {s : IntegerSet} (h : s.wf) :
    ∀ l ∈ copyLines mailbox flag s, s.contains l.2.1 = true := by
  intro l hl
  unfold copyLines at hl
  simp only [List.mem_map, List.mem_reverse, List.mem_range] at hl
  obtain ⟨k, hk, rfl⟩ := hl
  exact IntegerSet.contains_valueR h (by omega) (by unfold IntegerSet.count at hk; omega)

/-- The lines addFlags submits are lines for messages of `d->s`. -/
theorem addFlagsLoop_lines (ctx : Context) (l : List String) :
    ∀ (d : StoreData) (lines : List (Nat × Nat × Nat)) (work : Bool),
      d.s.wf → (∀ e ∈ d.present, e.2.wf) →
      (∀ x ∈ lines, d.s.contains x.2.1 = true) →
      ∀ x ∈ (addFlagsLoop ctx l (d, lines, work)).2.1, d.s.contains x.2.1 = true := by
  induction l with
  | nil => intro d lines work _ _ h; exact h
  | cons n rest ih =>
    intro d lines work hs hp h
    unfold addFlagsLoop
    simp only []
    split
    · exact ih _ lines work hs hp h
    · split
      · exact ih _ lines work hs hp h
      · split
        · split
          · refine ih d _ true hs hp ?_
            intro x hx
            rcases List.mem_append.mp hx with hx | hx
            · exact h x hx
            · cases hf : findPresent d (flagIdOf ctx n) with
              | none =>
                rw [hf] at hx
                exact copyLines_within _ _ hs x hx
              | some p =>
                rw [hf] at hx
                obtain ⟨e, he, rfl⟩ := findPresent_mem hf
                have hw := IntegerSet.wf_removeSet hs e.2
                exact ((IntegerSet.contains_removeSet hs (hp e he) _).mp
                  (copyLines_within _ _ hw x hx)).1
          · exact ih d lines work hs hp h
        · exact ih d lines work hs hp h

theorem addFlags_statements (ctx : Context) (c : Store) (hs : c.d.s.wf)
    (hp : ∀ e ∈ c.d.present, e.2.wf) :
    ∃ new, (addFlags ctx c).1.statements = c.statements ++ new ∧ writesWithin c.d.s new := by
  unfold addFlags enqueue
  simp only []
  split
  · refine ⟨[Statement.copyFlags (addFlagsLoop ctx c.d.flagNames (c.d, [], false)).2.1], rfl, ?_⟩
    intro q hq uid hw
    rw [List.mem_singleton] at hq
    subst hq
    simp only [Statement.writes, List.any_eq_true, decide_eq_true_eq] at hw
    obtain ⟨x, hx, rfl⟩ := hw
    exact addFlagsLoop_lines ctx _ c.d [] false hs hp (fun x hx => by cases hx) x hx
  · exact ⟨[], by simp, fun q hq => by cases hq⟩

theorem writesWithin_append {s : IntegerSet} {l1 l2 : List Statement}
    (h1 : writesWithin s l1) (h2 : writesWithin s l2) : writesWithin s (l1 ++ l2) := by
  intro q hq
  rcases List.mem_append.mp hq with h | h
  · exact h1 q h
  · exact h2 q h

theorem removeFlags_writes (ctx : Context) (c : Store) (o : Bool) :
    ∃ new, (removeFlags ctx c o).1.statements = c.statements ++ new ∧
      writesWithin c.d.s new := by
  rcases removeFlags_statements ctx c o with h | ⟨text, flags, h⟩
  · exact ⟨[], by simpa using h, fun q hq => by cases hq⟩
  · refine ⟨_, h, ?_⟩
    intro q hq uid hw
    rw [List.mem_singleton] at hq
    subst hq
    exact hw

theorem replaceFlags_writes (ctx : Context) (c : Store) (hs : c.d.s.wf)
    (hp : ∀ e ∈ c.d.present, e.2.wf) :
    ∃ new, (replaceFlags ctx c).1.statements = c.statements ++ new ∧
      writesWithin c.d.s new := by
  obtain ⟨n1, e1, w1⟩ := removeFlags_writes ctx c true
  have hf := removeFlags_workFrame ctx c true
  obtain ⟨_, _, _, _, _, _, fs, _, _, _, _, _, _, fp, _⟩ := hf
  obtain ⟨n2, e2, w2⟩ := addFlags_statements ctx (removeFlags ctx c true).1
    (by rw [fs]; exact hs) (by rw [fp]; exact hp)
  rw [fs] at w2
  refine ⟨n1 ++ n2, ?_, writesWithin_append w1 w2⟩
  unfold replaceFlags
  simp only []
  rw [e2, e1, List.append_assoc]

theorem replaceAnnotations_writes (ctx : Context) (c : Store) :
    ∃ new, (replaceAnnotations ctx c).statements = c.statements ++ new ∧
      writesWithin c.d.s new := by
  refine ⟨_, rfl, ?_⟩
  intro q hq uid hw
  simp only [List.mem_flatten, List.mem_map] at hq
  obtain ⟨l, ⟨a, _, rfl⟩, hq⟩ := hq
  unfold annotationStatements at hq
  simp only [] at hq
  split at hq
  · rw [List.mem_singleton] at hq
    subst hq
    exact hw
  · simp only [List.mem_cons, List.mem_singleton, List.not_mem_nil, or_false] at hq
    rcases hq with rfl | rfl <;> exact hw

end Store
end Aox
namespace Aox
namespace Store

theorem workOp_workFrame (ctx : Context) (c : Store) : workFrame c (workOp ctx c).1 := by
  unfold workOp
  split
  · exact replaceFlags_workFrame ctx c
  · exact addFlags_workFrame ctx c
  · exact removeFlags_workFrame ctx c false
  · exact replaceAnnotations_workFrame ctx c

theorem workOp_writes (ctx : Context) (c : Store) (hs : c.d.s.wf)
    (hp : ∀ e ∈ c.d.present, e.2.wf) :
    ∃ new, (workOp ctx c).1.statements = c.statements ++ new ∧ writesWithin c.d.s new := by
  unfold workOp
  split
  · exact replaceFlags_writes ctx c hs hp
  · exact addFlags_statements ctx c hs hp
  · exact removeFlags_writes ctx c false
  · exact replaceAnnotations_writes ctx c

/-- What workStart changes: `sentWorkQueries` and the response code. -/
theorem workStart_spec (c : Store) :
    (workStart c).error = c.error ∧ (workStart c).state = c.state ∧
    (workStart c).responses = c.responses ∧ (workStart c).commits = c.commits ∧
    (workStart c).statements = c.statements ∧
    (workStart c).d = { c.d with sentWorkQueries := true } ∧
    (workStart c).respTextCode =
      if c.d.seenUnchangedSince = true ∧
          ((IntegerSet.empty.addSet c.d.specified).removeSet c.d.s).isEmpty = false then
        some ("MODIFIED " ++ ((IntegerSet.empty.addSet c.d.specified).removeSet c.d.s).set)
      else c.respTextCode := by
  unfold workStart
  simp only []
  cases c.d.seenUnchangedSince <;>
    cases ((IntegerSet.empty.addSet c.d.specified).removeSet c.d.s).isEmpty <;> simp

/-- The block for `sentWorkQueries` when no message is selected: the command
commits and is finished, with NO if it is not silent and there are expunged
UIDs. -/
theorem executeWork_empty (ctx : Context) (c : Store) (hs : c.d.s.isEmpty = true) :
    (executeWork ctx c).2 = true ∧
    (executeWork ctx c).1.commits = c.commits + 1 ∧
    (executeWork ctx c).1.state = CommandState.Finished ∧
    (executeWork ctx c).1.statements = c.statements ∧
    (executeWork ctx c).1.responses = c.responses ∧
    (executeWork ctx c).1.respTextCode = (workStart c).respTextCode ∧
    (executeWork ctx c).1.error =
      if c.d.silent = false ∧ c.d.expunged.isEmpty = false then
        (setError c Error.No "Cannot store on expunged messages").error
      else c.error := by
  obtain ⟨w1, w2, w3, w4, w5, w6, _⟩ := workStart_spec c
  have hs1 : (workStart c).d.s.isEmpty = true := by rw [w6]; exact hs
  unfold executeWork finish commit
  simp only [hs1, if_true]
  have hsil : (workStart c).d.silent = c.d.silent := by rw [w6]
  have hexp : (workStart c).d.expunged = c.d.expunged := by rw [w6]
  cases h1 : c.d.silent <;> cases h2 : c.d.expunged.isEmpty <;> cases hce : c.error <;>
    simp [hsil, hexp, h1, h2, w1, w3, w4, w5, setError, hce]

/-- The block for `sentWorkQueries` when messages are selected: the flag
operation or the annotations, and then either the command is finished
because there is nothing to do, or execute goes on. -/
theorem executeWork_nonempty (ctx : Context) (c : Store) (hs : c.d.s.isEmpty = false) :
    workFrame (workStart c) (workOp ctx (workStart c)).1 ∧
    (executeWork ctx c = (finish (commit (workOp ctx (workStart c)).1), true) ∨
     executeWork ctx c = ((workOp ctx (workStart c)).1, false)) := by
  refine ⟨workOp_workFrame ctx _, ?_⟩
  obtain ⟨_, _, _, _, _, w6, _⟩ := workStart_spec c
  have hs1 : (workStart c).d.s.isEmpty = false := by rw [w6]; exact hs
  unfold executeWork
  simp only [hs1, Bool.false_eq_true, if_false]
  split
  · exact Or.inl rfl
  · exact Or.inr rfl

/-- The end of Store::execute when the transaction has not failed. -/
theorem executeEnd_spec (ctx : Context) (c : Store) (hf : ctx.failed = false)
    (he : c.error = none) :
    (executeEnd ctx c).state = CommandState.Finished ∧
    (executeEnd ctx c).statements = c.statements ∧
    (executeEnd ctx c).commits = c.commits ∧
    (executeEnd ctx c).respTextCode = c.respTextCode ∧
    (executeEnd ctx c).d = c.d ∧
    (executeEnd ctx c).responses =
      c.responses ++
        (if c.d.silent = true ∧ c.d.seenUnchangedSince = true then silentResponses ctx c.d
          else []) ∧
    (executeEnd ctx c).error =
      if c.d.silent = false ∧ c.d.expunged.isEmpty = false then
        some (Error.No, "Cannot store on expunged messages")
      else none := by
  unfold executeEnd finish setError
  cases h1 : c.d.silent <;> cases h2 : c.d.expunged.isEmpty <;>
    cases h3 : c.d.seenUnchangedSince <;> simp [hf, he, h1, h2, h3]

/-- The end of Store::execute when the transaction has failed. -/
theorem executeEnd_failed (ctx : Context) (c : Store) (hf : ctx.failed = true)
    (he : c.error = none) :
    (executeEnd ctx c).state = CommandState.Finished ∧
    (executeEnd ctx c).statements = c.statements ∧
    (executeEnd ctx c).commits = c.commits ∧
    (executeEnd ctx c).respTextCode = c.respTextCode ∧
    (executeEnd ctx c).d = c.d ∧
    (executeEnd ctx c).responses = c.responses ∧
    (executeEnd ctx c).error = some (Error.No, "Database error. Rolling transaction back") := by
  unfold executeEnd finish setError
  simp [hf, he]

/-- The part of Store::execute from `if ( !d->modseq )` on, for a command that
has not obtained its modseq yet: without a row the command fails; when the
update of mailbox_messages matches no row the command commits and is finished;
else the statement for `nextmodseq` is added, the command commits and the end
of execute follows. -/
theorem executeModSeq_spec (ctx : Context) (c : Store) (hm : c.d.modseq = 0)
    (hn : c.d.sentNextModSeq = false) :
    (ctx.nextmodseq = none →
      executeModSeq ctx c = setError c Error.No "Could not obtain modseq") ∧
    (∀ m, ctx.nextmodseq = some m → updatedRows ctx { c.d with modseq := m } = 0 →
      executeModSeq ctx c =
        { c with
          d := { c.d with modseq := m }
          statements := c.statements ++ [modseqUpdate ctx { c.d with modseq := m }]
          commits := c.commits + 1
          state := CommandState.Finished }) ∧
    (∀ m, ctx.nextmodseq = some m → updatedRows ctx { c.d with modseq := m } ≠ 0 →
      executeModSeq ctx c =
        executeEnd ctx
          { c with
            d := { c.d with modseq := m, sentNextModSeq := true }
            statements := c.statements ++ [modseqUpdate ctx { c.d with modseq := m },
              Statement.nextModSeq (m + 1) ctx.mailbox]
            commits := c.commits + 1 }) := by
  refine ⟨?_, ?_, ?_⟩
  · intro h
    unfold executeModSeq
    simp [hm, h]
  · intro m h hr
    unfold executeModSeq finish commit enqueue
    simp only [hn] at hr
    simp [hm, h, hn, hr]
  · intro m h hr
    unfold executeModSeq finish commit enqueue
    simp only [hn] at hr
    simp [hm, h, hn, hr]

/-- What the block for the rights leaves alone. -/
theorem checkPermission_frame (c : Store) :
    (checkPermission c).error = c.error ∧ (checkPermission c).state = c.state ∧
    (checkPermission c).responses = c.responses ∧ (checkPermission c).commits = c.commits ∧
    (checkPermission c).statements = c.statements ∧
    (checkPermission c).respTextCode = c.respTextCode ∧
    (checkPermission c).d.specified = c.d.specified ∧ (checkPermission c).d.s = c.d.s ∧
    (checkPermission c).d.expunged = c.d.expunged ∧
    (checkPermission c).d.silent = c.d.silent ∧
    (checkPermission c).d.seenUnchangedSince = c.d.seenUnchangedSince ∧
    (checkPermission c).d.unchangedSince = c.d.unchangedSince ∧
    (checkPermission c).d.modseq = c.d.modseq ∧
    (checkPermission c).d.sentNextModSeq = c.d.sentNextModSeq ∧
    (checkPermission c).d.sentWorkQueries = c.d.sentWorkQueries ∧
    (checkPermission c).d.obtainModSeq = c.d.obtainModSeq ∧
    (checkPermission c).d.present = c.d.present := by
  unfold checkPermission
  cases c.d.checkedPermission
  · by_cases hop : c.d.op = Op.ReplaceAnnotations
    · simp [hop]
    · simp [hop, checkFlagNames_spec]
  · simp

theorem presentMap_wf (ctx : Context) (d : StoreData) : ∀ e ∈ presentMap ctx d, e.2.wf := by
  have hfold : ∀ (l : List (Nat × Nat)) (acc : IntegerSet), acc.wf →
      (l.foldl (fun (acc : IntegerSet) r => acc.add r.1) acc).wf := by
    intro l
    induction l with
    | nil => intro acc h; exact h
    | cons a rest ih => intro acc h; exact ih _ (IntegerSet.wf_add h _)
  intro e he
  unfold presentMap at he
  simp only [List.mem_map] at he
  obtain ⟨id, _, rfl⟩ := he
  exact hfold _ _ IntegerSet.wf_empty

/-- What the queries of Store::execute do to the command: statements that
write nothing, the selected messages in `d->s` and the Map `d->present`. -/
theorem sendQueries_spec (ctx : Context) (c : Store) :
    (sendQueries ctx c).error = c.error ∧ (sendQueries ctx c).state = c.state ∧
    (sendQueries ctx c).responses = c.responses ∧ (sendQueries ctx c).commits = c.commits ∧
    (sendQueries ctx c).respTextCode = c.respTextCode ∧
    (sendQueries ctx c).d.specified = c.d.specified ∧
    (sendQueries ctx c).d.expunged = c.d.expunged ∧
    (sendQueries ctx c).d.silent = c.d.silent ∧
    (sendQueries ctx c).d.seenUnchangedSince = c.d.seenUnchangedSince ∧
    (sendQueries ctx c).d.unchangedSince = c.d.unchangedSince ∧
    (sendQueries ctx c).d.modseq = c.d.modseq ∧
    (sendQueries ctx c).d.sentNextModSeq = c.d.sentNextModSeq ∧
    (sendQueries ctx c).d.sentWorkQueries = c.d.sentWorkQueries ∧
    (sendQueries ctx c).d.s = (findSetRows ctx c.d).foldl IntegerSet.add c.d.s ∧
    ((∀ e ∈ c.d.present, e.2.wf) → ∀ e ∈ (sendQueries ctx c).d.present, e.2.wf) ∧
    (∃ new, (sendQueries ctx c).statements = c.statements ++ new ∧
      ∀ q ∈ new, ∀ uid, q.binds uid = false) := by
  refine ⟨?_, ?_, ?_, ?_, ?_, ?_, ?_, ?_, ?_, ?_, ?_, ?_, ?_, ?_, ?_, ?_⟩
  iterate 14 (unfold sendQueries enqueue; simp only []; split_ifs <;> rfl)
  · intro h
    unfold sendQueries enqueue
    simp only []
    split_ifs <;> first | exact presentMap_wf ctx _ | exact h
  · unfold sendQueries enqueue
    simp only []
    by_cases hop : c.d.op = Op.AddFlags ∨ c.d.op = Op.RemoveFlags ∨ c.d.op = Op.ReplaceFlags
    · cases hi : (presentIds ctx c.d).isEmpty
      · simp only [hop, hi, if_true, Bool.not_false, Bool.not_true, Bool.false_eq_true,
          if_false]
        refine ⟨_, by simp only [List.append_assoc]; rfl, ?_⟩
        intro q hq uid
        simp only [List.singleton_append, List.mem_cons, List.mem_singleton,
          List.not_mem_nil, or_false] at hq
        rcases hq with rfl | rfl | rfl <;> rfl
      · simp only [hop, hi, if_true, Bool.not_false, Bool.not_true, Bool.false_eq_true,
          if_false]
        refine ⟨_, by simp only [List.append_assoc]; rfl, ?_⟩
        intro q hq uid
        simp only [List.singleton_append, List.mem_cons, List.mem_singleton,
          List.not_mem_nil, or_false] at hq
        rcases hq with rfl | rfl <;> rfl
    · simp only [hop, if_false]
      refine ⟨_, by simp only [List.append_assoc]; rfl, ?_⟩
      intro q hq uid
      simp only [List.singleton_append, List.mem_cons, List.mem_singleton, List.not_mem_nil,
        or_false] at hq
      rcases hq with rfl | rfl <;> rfl

end Store
end Aox
namespace Aox
namespace Store

/-- Store::execute on a command that is being executed, has no error and has
not sent its queries: the rights, the queries, the block for
`sentWorkQueries`, and the part for the modseq unless execute returns in that
block. -/
theorem execute_eq (ctx : Context) (c : Store) (hs : c.state = CommandState.Executing)
    (he : c.error = none) (hp : ctx.permitted = true) (ho : c.d.obtainModSeq = false)
    (hw : c.d.sentWorkQueries = false) :
    execute ctx c =
      if (executeWork ctx (sendQueries ctx (checkPermission c))).2 = true then
        (executeWork ctx (sendQueries ctx (checkPermission c))).1
      else executeModSeq ctx (executeWork ctx (sendQueries ctx (checkPermission c))).1 := by
  obtain ⟨p1, _, _, _, _, _, _, _, _, _, _, _, _, _, p15, p16, _⟩ := checkPermission_frame c
  obtain ⟨_, _, _, _, _, _, _, _, _, _, _, _, q13, _⟩ := sendQueries_spec ctx (checkPermission c)
  have hq : (sendQueries ctx (checkPermission c)).d.sentWorkQueries = false := by
    rw [q13, p15, hw]
  unfold execute
  rw [if_neg (by simp [hs])]
  simp [ok, p1, he, hp, p16, ho, hq]

/-- The ways Store::execute ends on a new command, with `c2` the command
after the queries and `c3` the command after the flag operation or the
annotations: (1) no message is selected; (2) there is nothing to do; (3) the
modseq cannot be obtained; (4) the update of mailbox_messages matches no row;
(5) the end of execute is reached. -/
theorem execute_cases (ctx : Context) (c : Store) (hs : c.state = CommandState.Executing)
    (he : c.error = none) (hp : ctx.permitted = true) (ho : c.d.obtainModSeq = false)
    (hw : c.d.sentWorkQueries = false) (hm : c.d.modseq = 0)
    (hn : c.d.sentNextModSeq = false) :
    ((sendQueries ctx (checkPermission c)).d.s.isEmpty = true ∧
      execute ctx c = (executeWork ctx (sendQueries ctx (checkPermission c))).1) ∨
    ((sendQueries ctx (checkPermission c)).d.s.isEmpty = false ∧
      (execute ctx c =
          finish (commit (workOp ctx (workStart (sendQueries ctx (checkPermission c)))).1) ∨
       (ctx.nextmodseq = none ∧
        execute ctx c =
          setError (workOp ctx (workStart (sendQueries ctx (checkPermission c)))).1
            Error.No "Could not obtain modseq") ∨
       (∃ m, ctx.nextmodseq = some m ∧
          updatedRows ctx
            { (workOp ctx (workStart (sendQueries ctx (checkPermission c)))).1.d with
              modseq := m } = 0 ∧
          execute ctx c =
            { (workOp ctx (workStart (sendQueries ctx (checkPermission c)))).1 with
              d := { (workOp ctx (workStart (sendQueries ctx (checkPermission c)))).1.d with
                modseq := m }
              statements :=
                (workOp ctx (workStart (sendQueries ctx (checkPermission c)))).1.statements ++
                [modseqUpdate ctx
                  { (workOp ctx (workStart (sendQueries ctx (checkPermission c)))).1.d with
                    modseq := m }]
              commits :=
                (workOp ctx (workStart (sendQueries ctx (checkPermission c)))).1.commits + 1
              state := CommandState.Finished }) ∨
       (∃ m, ctx.nextmodseq = some m ∧
          updatedRows ctx
            { (workOp ctx (workStart (sendQueries ctx (checkPermission c)))).1.d with
              modseq := m } ≠ 0 ∧
          execute ctx c =
            executeEnd ctx
              { (workOp ctx (workStart (sendQueries ctx (checkPermission c)))).1 with
                d := { (workOp ctx (workStart (sendQueries ctx (checkPermission c)))).1.d with
                  modseq := m, sentNextModSeq := true }
                statements :=
                  (workOp ctx (workStart (sendQueries ctx (checkPermission c)))).1.statements ++
                  [modseqUpdate ctx
                    { (workOp ctx (workStart (sendQueries ctx (checkPermission c)))).1.d with
                      modseq := m },
                   Statement.nextModSeq (m + 1) ctx.mailbox]
                commits :=
                  (workOp ctx (workStart (sendQueries ctx (checkPermission c)))).1.commits +
                    1 }))) := by
  rw [execute_eq ctx c hs he hp ho hw]
  obtain ⟨_, _, _, _, _, _, _, _, _, _, _, _, p13, p14, _⟩ := checkPermission_frame c
  obtain ⟨_, _, _, _, _, _, _, _, _, _, q11, q12, _⟩ := sendQueries_spec ctx (checkPermission c)
  generalize sendQueries ctx (checkPermission c) = c2 at *
  have hm2 : c2.d.modseq = 0 := by rw [q11, p13, hm]
  have hn2 : c2.d.sentNextModSeq = false := by rw [q12, p14, hn]
  cases hS : c2.d.s.isEmpty
  · right
    refine ⟨rfl, ?_⟩
    obtain ⟨hf, hcase⟩ := executeWork_nonempty ctx c2 hS
    obtain ⟨_, _, _, _, _, w6, _⟩ := workStart_spec c2
    obtain ⟨_, _, _, _, _, _, _, _, _, _, _, f12, f13, _⟩ := hf
    generalize (workOp ctx (workStart c2)).1 = c3 at *
    have hm3 : c3.d.modseq = 0 := by rw [f12, w6]; exact hm2
    have hn3 : c3.d.sentNextModSeq = false := by rw [f13, w6]; exact hn2
    rcases hcase with h | h
    · left; rw [h]; rfl
    · right
      rw [h]
      simp only [Bool.false_eq_true, if_false]
      obtain ⟨s1, s2, s3⟩ := executeModSeq_spec ctx c3 hm3 hn3
      cases hx : ctx.nextmodseq with
      | none => exact Or.inl ⟨rfl, s1 hx⟩
      | some m =>
        by_cases hr : updatedRows ctx { c3.d with modseq := m } = 0
        · exact Or.inr (Or.inl ⟨m, rfl, hr, s2 m hx hr⟩)
        · exact Or.inr (Or.inr ⟨m, rfl, hr, s3 m hx hr⟩)
  · left
    refine ⟨rfl, ?_⟩
    rw [(executeWork_empty ctx c2 hS).1]
    rfl

/-- What stays of a command up to the flag operation or the annotations. -/
theorem workOp_chain (ctx : Context) (c : Store) :
    (sendQueries ctx (checkPermission c)).error = c.error ∧
    (sendQueries ctx (checkPermission c)).commits = c.commits ∧
    (sendQueries ctx (checkPermission c)).responses = c.responses ∧
    (sendQueries ctx (checkPermission c)).d.silent = c.d.silent ∧
    (sendQueries ctx (checkPermission c)).d.expunged = c.d.expunged ∧
    (sendQueries ctx (checkPermission c)).d.sentNextModSeq = c.d.sentNextModSeq ∧
    (sendQueries ctx (checkPermission c)).d.seenUnchangedSince = c.d.seenUnchangedSince ∧
    (sendQueries ctx (checkPermission c)).d.specified = c.d.specified ∧
    (sendQueries ctx (checkPermission c)).respTextCode = c.respTextCode ∧
    (workOp ctx (workStart (sendQueries ctx (checkPermission c)))).1.error = c.error ∧
    (workOp ctx (workStart (sendQueries ctx (checkPermission c)))).1.commits = c.commits ∧
    (workOp ctx (workStart (sendQueries ctx (checkPermission c)))).1.responses =
      c.responses ∧
    (workOp ctx (workStart (sendQueries ctx (checkPermission c)))).1.d.silent = c.d.silent ∧
    (workOp ctx (workStart (sendQueries ctx (checkPermission c)))).1.d.expunged =
      c.d.expunged ∧
    (workOp ctx (workStart (sendQueries ctx (checkPermission c)))).1.d.sentNextModSeq =
      c.d.sentNextModSeq ∧
    (workOp ctx (workStart (sendQueries ctx (checkPermission c)))).1.d.seenUnchangedSince =
      c.d.seenUnchangedSince ∧
    (workOp ctx (workStart (sendQueries ctx (checkPermission c)))).1.d.s =
      (sendQueries ctx (checkPermission c)).d.s ∧
    (workOp ctx (workStart (sendQueries ctx (checkPermission c)))).1.respTextCode =
      (workStart (sendQueries ctx (checkPermission c))).respTextCode := by
  obtain ⟨p1, _, p3, p4, _, p6, p7, _, p9, p10, p11, _, _, p14, _, _, _⟩ :=
    checkPermission_frame c
  obtain ⟨q1, _, q3, q4, q5, q6, q7, q8, q9, _, _, q12, _, _, _, _⟩ :=
    sendQueries_spec ctx (checkPermission c)
  generalize sendQueries ctx (checkPermission c) = c2 at *
  obtain ⟨w1, _, w3, w4, _, w6, _⟩ := workStart_spec c2
  obtain ⟨f1, _, f3, f4, _, f6, f7, _, f9, f10, f11, _, f13, _, _⟩ :=
    workOp_workFrame ctx (workStart c2)
  refine ⟨q1.trans p1, q4.trans p4, q3.trans p3, q8.trans p10, q7.trans p9, q12.trans p14,
    q9.trans p11, q6.trans p7, q5.trans p6, ?_, ?_, ?_, ?_, ?_, ?_, ?_, ?_, f6⟩
  · rw [f1, w1, q1, p1]
  · rw [f4, w4, q4, p4]
  · rw [f3, w3, q3, p3]
  · rw [f10, w6]; exact q8.trans p10
  · rw [f9, w6]; exact q7.trans p9
  · rw [f13, w6]; exact q12.trans p14
  · rw [f11, w6]; exact q9.trans p11
  · rw [f7, w6]

end Store
end Aox
namespace Aox
namespace IntegerSet

theorem indexR_le_countR (rs : List (Nat × Nat)) (u : Nat) (h : ∀ r ∈ rs, r.1 ≤ r.2) :
    indexR rs u ≤ countR rs := by
  induction rs with
  | nil => simp [indexR, countR]
  | cons r rs ih =>
    have hr := h r (List.mem_cons_self _ _)
    have ih' := ih (fun x hx => h x (List.mem_cons_of_mem _ hx))
    unfold indexR countR
    split_ifs
    · omega
    · omega
    · cases hk : indexR rs u with
      | zero => simp
      | succ k => rw [hk] at ih'; simp only []; omega

theorem okFrom_le {b : Nat} {rs : List (Nat × Nat)} (h : okFrom b rs = true) :
    ∀ r ∈ rs, r.1 ≤ r.2 := by
  induction rs generalizing b with
  | nil => intro r hr; cases hr
  | cons a rs ih =>
    rw [okFrom_cons] at h
    intro r hr
    rcases List.mem_cons.mp hr with rfl | hr
    · exact h.2.1
    · exact ih h.2.2 r hr

/-- Every member of a well-formed set is the value at a position of the
set. -/
theorem value_index {s : IntegerSet} (h : s.wf) {u : Nat} (hu : s.contains u = true) :
    1 ≤ s.index u ∧ s.index u ≤ s.count ∧ s.value (s.index u) = u :=
  ⟨indexR_pos_of_contains h hu, indexR_le_countR _ _ (okFrom_le h), valueR_indexR h hu⟩

end IntegerSet
end Aox
namespace Aox
namespace Store

/-- A new command that ends with `sentNextModSeq` set has obtained its modseq,
its update of mailbox_messages has matched a row, and it has got to the end of
Store::execute. -/
theorem execute_final (ctx : Context) (c : Store) (hs : c.state = CommandState.Executing)
    (he : c.error = none) (hp : ctx.permitted = true) (ho : c.d.obtainModSeq = false)
    (hw : c.d.sentWorkQueries = false) (hm : c.d.modseq = 0)
    (hn : c.d.sentNextModSeq = false) (hsent : (execute ctx c).d.sentNextModSeq = true) :
    (sendQueries ctx (checkPermission c)).d.s.isEmpty = false ∧
    ∃ m, ctx.nextmodseq = some m ∧
      updatedRows ctx
        { (workOp ctx (workStart (sendQueries ctx (checkPermission c)))).1.d with
          modseq := m } ≠ 0 ∧
      execute ctx c =
        executeEnd ctx
          { (workOp ctx (workStart (sendQueries ctx (checkPermission c)))).1 with
            d := { (workOp ctx (workStart (sendQueries ctx (checkPermission c)))).1.d with
              modseq := m, sentNextModSeq := true }
            statements :=
              (workOp ctx (workStart (sendQueries ctx (checkPermission c)))).1.statements ++
              [modseqUpdate ctx
                { (workOp ctx (workStart (sendQueries ctx (checkPermission c)))).1.d with
                  modseq := m },
               Statement.nextModSeq (m + 1) ctx.mailbox]
            commits :=
              (workOp ctx (workStart (sendQueries ctx (checkPermission c)))).1.commits +
                1 } := by
  obtain ⟨k1, k2, k3, k4, k5, k6, k7, k8, k9, l1, l2, l3, l4, l5, l6, l7, l8, l9⟩ :=
    workOp_chain ctx c
  rcases execute_cases ctx c hs he hp ho hw hm hn with
    ⟨hS, h⟩ | ⟨hS, h | ⟨hx1, h⟩ | ⟨m, hx1, hr, h⟩ | ⟨m, hx1, hr, h⟩⟩
  · exfalso
    rw [h] at hsent
    have : (executeWork ctx (sendQueries ctx (checkPermission c))).1.d.sentNextModSeq =
        false := by
      unfold executeWork finish commit
      simp only [(show (workStart (sendQueries ctx (checkPermission c))).d.s.isEmpty = true
        by rw [(workStart_spec _).2.2.2.2.2.1]; exact hS), if_true]
      split <;> simp [storeError_d, (workStart_spec _).2.2.2.2.2.1, k6, hn]
    rw [this] at hsent; cases hsent
  · exfalso
    rw [h] at hsent
    simp [finish, commit, l6, hn] at hsent
  · exfalso
    rw [h, storeError_d, l6, hn] at hsent
    cases hsent
  · exfalso
    rw [h] at hsent
    simp [l6, hn] at hsent
  · exact ⟨hS, m, hx1, hr, h⟩

end Store
end Aox
namespace Aox
namespace IntegerSet

theorem isEmpty_eq_false_iff {s : IntegerSet} (h : s.wf) :
    s.isEmpty = false ↔ ∃ u, s.contains u = true := by
  unfold wf at h
  unfold isEmpty contains
  cases hr : s.ranges with
  | nil => simp
  | cons r rs =>
    rw [hr, okFrom_cons] at h
    simp only [List.isEmpty_cons, true_iff]
    exact ⟨r.1, by simp [h.2.1]⟩

end IntegerSet

namespace Store

theorem writes_binds (q : Statement) (uid : Nat) (h : q.binds uid = false) :
    q.writes uid = false := by
  cases q
  case modseqUpdate text modseq mailbox uids changed =>
    simp only [Statement.binds, Bool.or_eq_false_iff] at h
    exact h.1
  all_goals exact h

theorem writesWithin_of_binds {s : IntegerSet} {l : List Statement}
    (h : ∀ q ∈ l, ∀ uid, q.binds uid = false) : writesWithin s l := by
  intro q hq uid hw
  rw [writes_binds q uid (h q hq uid)] at hw
  cases hw

/-- Every statement of a new command writes only to rows of the selected
messages `d->s`. -/
theorem execute_writes (ctx : Context) (c : Store) (hs : c.state = CommandState.Executing)
    (he : c.error = none) (hp : ctx.permitted = true) (ho : c.d.obtainModSeq = false)
    (hw : c.d.sentWorkQueries = false) (hm : c.d.modseq = 0)
    (hn : c.d.sentNextModSeq = false) (hst : c.statements = []) (hwf : c.d.s.wf)
    (hpr : ∀ e ∈ c.d.present, e.2.wf) :
    writesWithin (sendQueries ctx (checkPermission c)).d.s (execute ctx c).statements := by
  obtain ⟨_, _, _, _, p5, _, _, p8, _, _, _, _, _, _, _, _, p17⟩ := checkPermission_frame c
  obtain ⟨_, _, _, _, _, _, _, _, _, _, _, _, _, q14, q15, new2, q16, q17⟩ :=
    sendQueries_spec ctx (checkPermission c)
  have hS : (sendQueries ctx (checkPermission c)).d.s.wf := by
    rw [q14]; exact IntegerSet.wf_foldl_add _ (by rw [p8]; exact hwf)
  have hP : ∀ e ∈ (sendQueries ctx (checkPermission c)).d.present, e.2.wf :=
    q15 (by rw [p17]; exact hpr)
  have h2 : writesWithin (sendQueries ctx (checkPermission c)).d.s
      (sendQueries ctx (checkPermission c)).statements := by
    rw [q16, p5, hst, List.nil_append]
    exact writesWithin_of_binds q17
  have hcases := execute_cases ctx c hs he hp ho hw hm hn
  obtain ⟨_, _, _, _, w5, w6, _⟩ := workStart_spec (sendQueries ctx (checkPermission c))
  obtain ⟨new3, e3, w3⟩ := workOp_writes ctx (workStart (sendQueries ctx (checkPermission c)))
    (by rw [w6]; exact hS) (by rw [w6]; exact hP)
  have hf := workOp_workFrame ctx (workStart (sendQueries ctx (checkPermission c)))
  have hs3 : (workOp ctx (workStart (sendQueries ctx (checkPermission c)))).1.d.s =
      (sendQueries ctx (checkPermission c)).d.s := by
    rw [hf.2.2.2.2.2.2.1, w6]
  have h3 : writesWithin (sendQueries ctx (checkPermission c)).d.s
      (workOp ctx (workStart (sendQueries ctx (checkPermission c)))).1.statements := by
    rw [e3, w5]
    refine writesWithin_append h2 ?_
    rw [w6] at w3
    exact w3
  have hupd : ∀ m, writesWithin (sendQueries ctx (checkPermission c)).d.s
      [modseqUpdate ctx
        { (workOp ctx (workStart (sendQueries ctx (checkPermission c)))).1.d with
          modseq := m }] := by
    intro m q hq uid hwr
    rw [List.mem_singleton] at hq
    subst hq
    rw [← hs3]
    exact hwr
  have hnext : ∀ m, writesWithin (sendQueries ctx (checkPermission c)).d.s
      [Statement.nextModSeq m ctx.mailbox] := by
    intro m q hq uid hwr
    rw [List.mem_singleton] at hq
    subst hq
    cases hwr
  rcases hcases with ⟨hS0, h⟩ | ⟨hS0, h | ⟨hx1, h⟩ | ⟨m, hx1, hr, h⟩ | ⟨m, hx1, hr, h⟩⟩
  · rw [h, (executeWork_empty ctx _ hS0).2.2.2.1]
    exact h2
  · rw [h]; exact h3
  · rw [h, (storeError_frame _ _ _).2.2.1]; exact h3
  · rw [h]
    exact writesWithin_append h3 (hupd m)
  · rw [h]
    have hst5 : ∀ x : Store, (executeEnd ctx x).statements = x.statements := by
      intro x
      unfold executeEnd finish
      simp only []
      split_ifs <;> simp [(storeError_frame _ _ _).2.2.1]
    rw [hst5]
    exact writesWithin_append h3 (writesWithin_append (hupd m) (hnext (m + 1)))

/-- The response code of a new command is the one that the start of the
block for `sentWorkQueries` sets. -/
theorem execute_respTextCode (ctx : Context) (c : Store)
    (hs : c.state = CommandState.Executing)
    (he : c.error = none) (hp : ctx.permitted = true) (ho : c.d.obtainModSeq = false)
    (hw : c.d.sentWorkQueries = false) (hm : c.d.modseq = 0)
    (hn : c.d.sentNextModSeq = false) :
    (execute ctx c).respTextCode =
      (workStart (sendQueries ctx (checkPermission c))).respTextCode := by
  have hl9 := (workOp_chain ctx c).2.2.2.2.2.2.2.2.2.2.2.2.2.2.2.2.2
  have hcode5 : ∀ x : Store, (executeEnd ctx x).respTextCode = x.respTextCode := by
    intro x
    unfold executeEnd finish
    simp only []
    split_ifs <;> simp [(storeError_frame _ _ _).2.2.2.2.2]
  rcases execute_cases ctx c hs he hp ho hw hm hn with
    ⟨hS0, h⟩ | ⟨hS0, h | ⟨hx1, h⟩ | ⟨m, hx1, hr, h⟩ | ⟨m, hx1, hr, h⟩⟩
  · rw [h, (executeWork_empty ctx _ hS0).2.2.2.2.2.1]
  · rw [h]; exact hl9
  · rw [h, (storeError_frame _ _ _).2.2.2.2.2]; exact hl9
  · rw [h]; exact hl9
  · rw [h, hcode5]; exact hl9

end Store
end Aox

namespace Aox

/-! ## Properties of Session and SessionInitialiser -/

/-- C1: in a session whose message set is a well-formed IntegerSet holding `n`
UIDs, `msn( uid( i ) ) = i` for every `i` with `1 ≤ i ≤ n`, and
`uid( msn( u ) ) = u` for every UID `u` of the message set; `uid` lists the
message set in ascending order, so `msn` is the 1-based position in that
order. -/
theorem C1_msn_uid_inverse (d : SessionData) (h : d.msns.wf) :
    (∀ i, 1 ≤ i → i ≤ Session.count d → Session.msn d (Session.uid d i) = i) ∧
    (∀ u, (Session.messages d).contains u = true → Session.uid d (Session.msn d u) = u) ∧
    (∀ i j, 1 ≤ i → i < j → j ≤ Session.count d → Session.uid d i < Session.uid d j) :=
  ⟨fun _ h1 hn => IntegerSet.indexR_valueR h h1 hn,
   fun _ hu => IntegerSet.valueR_indexR h hu,
   fun _ _ h1 hij hj => IntegerSet.valueR_lt_valueR h h1 hij hj⟩

/-- C1 at the message set `2:3,7`: position 3 holds UID 7 and UID 3 is at
position 2. -/
theorem C1_msn_uid_inverse_witness :
    (⟨[(2, 3), (7, 7)]⟩ : IntegerSet).wf ∧
    Session.msn { msns := ⟨[(2, 3), (7, 7)]⟩ }
      (Session.uid { msns := ⟨[(2, 3), (7, 7)]⟩ } 3) = 3 ∧
    Session.uid { msns := ⟨[(2, 3), (7, 7)]⟩ }
      (Session.msn { msns := ⟨[(2, 3), (7, 7)]⟩ } 3) = 3 ∧
    Session.uid { msns := ⟨[(2, 3), (7, 7)]⟩ } 2 < Session.uid { msns := ⟨[(2, 3), (7, 7)]⟩ } 3 :=
  ⟨by decide,
   (C1_msn_uid_inverse { msns := ⟨[(2, 3), (7, 7)]⟩ } (by decide)).1 3 (by decide) (by decide),
   (C1_msn_uid_inverse { msns := ⟨[(2, 3), (7, 7)]⟩ } (by decide)).2.1 3 (by decide),
   (C1_msn_uid_inverse { msns := ⟨[(2, 3), (7, 7)]⟩ } (by decide)).2.2 2 3 (by decide)
     (by decide) (by decide)⟩

/-- C2: SessionInitialiser::emitUpdates leaves every session of the work list
with `uidnext = max( old uidnext, newUidnext )` and `nextModSeq = max( old
nextModSeq, newModSeq )` and every other session as it was, so no cursor is
lowered; and when before the call no session is ahead of the mailbox and the
new values are not ahead of it either, no session is ahead of the mailbox
afterwards. -/
theorem C2_emitUpdates_cursors (x : SessionInitialiser) :
    (∀ s ∈ x.d.sessions,
      ((SessionInitialiser.emitUpdates x).heap s).uidnext =
        max (x.heap s).uidnext x.d.newUidnext ∧
      ((SessionInitialiser.emitUpdates x).heap s).nextModSeq =
        max (x.heap s).nextModSeq x.d.newModSeq) ∧
    (∀ s, s ∉ x.d.sessions → (SessionInitialiser.emitUpdates x).heap s = x.heap s) ∧
    (∀ s, (x.heap s).uidnext ≤ ((SessionInitialiser.emitUpdates x).heap s).uidnext ∧
      (x.heap s).nextModSeq ≤ ((SessionInitialiser.emitUpdates x).heap s).nextModSeq) ∧
    ((SessionInitialiser.emitUpdates x).mailbox = x.mailbox) ∧
    (x.d.newUidnext ≤ x.mailbox.uidnext → x.d.newModSeq ≤ x.mailbox.nextModSeq →
      (∀ s, (x.heap s).uidnext ≤ x.mailbox.uidnext ∧
        (x.heap s).nextModSeq ≤ x.mailbox.nextModSeq) →
      ∀ s, ((SessionInitialiser.emitUpdates x).heap s).uidnext ≤
          (SessionInitialiser.emitUpdates x).mailbox.uidnext ∧
        ((SessionInitialiser.emitUpdates x).heap s).nextModSeq ≤
          (SessionInitialiser.emitUpdates x).mailbox.nextModSeq) := by
  have hmem : ∀ s ∈ x.d.sessions, (SessionInitialiser.emitUpdates x).heap s =
      { x.heap s with
        nextModSeq := max (x.heap s).nextModSeq x.d.newModSeq
        uidnext := max (x.heap s).uidnext x.d.newUidnext } :=
    fun s hs => SessionInitialiser.advanceCursors_mem _ _ _ _ _ s hs
  have hnot : ∀ s, s ∉ x.d.sessions → (SessionInitialiser.emitUpdates x).heap s = x.heap s :=
    fun s hs => SessionInitialiser.advanceCursors_not_mem _ _ _ _ _ s hs
  have hmono : ∀ s, (x.heap s).uidnext ≤ ((SessionInitialiser.emitUpdates x).heap s).uidnext ∧
      (x.heap s).nextModSeq ≤ ((SessionInitialiser.emitUpdates x).heap s).nextModSeq := by
    intro s
    by_cases hs : s ∈ x.d.sessions
    · rw [hmem s hs]
      exact ⟨le_max_left _ _, le_max_left _ _⟩
    · rw [hnot s hs]
      exact ⟨le_refl _, le_refl _⟩
  refine ⟨fun s hs => ?_, hnot, hmono, rfl, ?_⟩
  · rw [hmem s hs]
    exact ⟨rfl, rfl⟩
  · intro hu hm hall s
    have hmb : (SessionInitialiser.emitUpdates x).mailbox = x.mailbox := rfl
    rw [hmb]
    by_cases hs : s ∈ x.d.sessions
    · rw [hmem s hs]
      exact ⟨max_le (hall s).1 hu, max_le (hall s).2 hm⟩
    · rw [hnot s hs]
      exact hall s

end Aox

namespace Aox

/-- C5, as the code has it: SessionInitialiser::addToSessions( uid, ms ) adds
`uid` to the unannounced set of exactly those sessions of the work list with
`uidnext ≤ uid`, or `ms = 0`, or `nextModSeq ≤ ms`, and leaves every other
session as it was. -/
theorem C5_addToSessions (x : SessionInitialiser) (uid : Nat) (ms : Int)
    (hwf : ∀ s, (x.heap s).unannounced.wf) (s : Nat) :
    (s ∈ x.d.sessions ∧ ((x.heap s).uidnext ≤ uid ∨ ms = 0 ∨ (x.heap s).nextModSeq ≤ ms) →
      (SessionInitialiser.addToSessions x uid ms).heap s =
        { x.heap s with unannounced := ((SessionInitialiser.addToSessions x uid ms).heap s).unannounced } ∧
      ∀ v, ((SessionInitialiser.addToSessions x uid ms).heap s).unannounced.contains v = true ↔
        v = uid ∨ (x.heap s).unannounced.contains v = true) ∧
    (¬ (s ∈ x.d.sessions ∧
        ((x.heap s).uidnext ≤ uid ∨ ms = 0 ∨ (x.heap s).nextModSeq ≤ ms)) →
      (SessionInitialiser.addToSessions x uid ms).heap s = x.heap s) := by
  obtain ⟨h1, h2⟩ := SessionInitialiser.addToSessionsLoop_spec uid ms x.d.sessions x.heap hwf s
  constructor
  · intro hc
    have e : (SessionInitialiser.addToSessions x uid ms).heap s =
        Session.addUnannounced (x.heap s) uid := h1 hc
    rw [e]
    exact ⟨rfl, fun v => IntegerSet.contains_add (hwf s) uid v⟩
  · intro hc
    exact h2 hc

end Aox

namespace Aox

/-- C2 at the example: the session at 1 goes from `uidnext` 5 and `nextModSeq`
3 to 10 and 6, and stays within the mailbox's values. -/
theorem C2_emitUpdates_cursors_witness :
    1 ∈ Example.initialiser.d.sessions ∧
    Example.initialiser.d.newUidnext ≤ Example.initialiser.mailbox.uidnext ∧
    Example.initialiser.d.newModSeq ≤ Example.initialiser.mailbox.nextModSeq ∧
    ((SessionInitialiser.emitUpdates Example.initialiser).heap 1).uidnext =
      max (Example.initialiser.heap 1).uidnext Example.initialiser.d.newUidnext ∧
    ((SessionInitialiser.emitUpdates Example.initialiser).heap 1).uidnext ≤
      (SessionInitialiser.emitUpdates Example.initialiser).mailbox.uidnext :=
  ⟨by decide, by decide, by decide,
   ((C2_emitUpdates_cursors Example.initialiser).1 1 (by decide)).1,
   ((C2_emitUpdates_cursors Example.initialiser).2.2.2.2 (by decide) (by decide)
     Example.heap_le_mailbox 1).1⟩

/-- C5 fails as stated: for the row `(uid 2, modseq 0)` the session at 1 has
`uidnext = 5 > 2` and `nextModSeq = 3 > 0`, and SessionInitialiser::addToSessions
adds UID 2 to its unannounced set all the same, because of the test `!ms`. -/
theorem C5_counterexample :
    1 ∈ Example.initialiser.d.sessions ∧
    ¬ ((Example.initialiser.heap 1).uidnext ≤ 2 ∨ (Example.initialiser.heap 1).nextModSeq ≤ 0) ∧
    (Example.initialiser.heap 1).unannounced.contains 2 = false ∧
    ((SessionInitialiser.addToSessions Example.initialiser 2 0).heap 1).unannounced.contains 2 =
      true := by
  decide

/-- C5 at the example: the row `(uid 6, modseq 3)` is added to the session at
1, whose `nextModSeq` is 3, and not to the session at 2, whose `uidnext` is 7
and whose `nextModSeq` is 4. -/
theorem C5_addToSessions_witness :
    (1 ∈ Example.initialiser.d.sessions ∧
      ((Example.initialiser.heap 1).uidnext ≤ 6 ∨ (3 : Int) = 0 ∨
        (Example.initialiser.heap 1).nextModSeq ≤ 3)) ∧
    ((SessionInitialiser.addToSessions Example.initialiser 6 3).heap 1).unannounced.contains 6 =
      true ∧
    ¬ (2 ∈ Example.initialiser.d.sessions ∧
      ((Example.initialiser.heap 2).uidnext ≤ 6 ∨ (3 : Int) = 0 ∨
        (Example.initialiser.heap 2).nextModSeq ≤ 3)) ∧
    (SessionInitialiser.addToSessions Example.initialiser 6 3).heap 2 =
      Example.initialiser.heap 2 :=
  ⟨by decide,
   (((C5_addToSessions Example.initialiser 6 3 (fun s => (Example.heap_wf s).2.2.2) 1).1
     (by decide)).2 6).2 (Or.inl rfl),
   by decide,
   (C5_addToSessions Example.initialiser 6 3 (fun s => (Example.heap_wf s).2.2.2) 2).2
     (by decide)⟩

end Aox

namespace Aox

/-- C9: on a session with well-formed sets, clearUnannounced() makes
`messages()` the union of the old `messages()` and the old `unannounced()`,
empties `unannounced()`, and leaves `expunged()`, the set of recent marks,
`uidnext` and `nextModSeq` as they were; addUnannounced, in either form,
changes `unannounced()` only. -/
theorem C9_clearUnannounced_frame (d : SessionData) (h : d.wf) :
    (∀ u, (Session.messages (Session.clearUnannounced d)).contains u = true ↔
      (Session.messages d).contains u = true ∨ (Session.unannounced d).contains u = true) ∧
    Session.unannounced (Session.clearUnannounced d) = IntegerSet.empty ∧
    (∀ u, (Session.unannounced (Session.clearUnannounced d)).contains u = false) ∧
    Session.expunged (Session.clearUnannounced d) = Session.expunged d ∧
    (Session.clearUnannounced d).recent = d.recent ∧
    (∀ u, Session.isRecent (Session.clearUnannounced d) u = Session.isRecent d u) ∧
    Session.uidnext (Session.clearUnannounced d) = Session.uidnext d ∧
    Session.nextModSeq (Session.clearUnannounced d) = Session.nextModSeq d ∧
    (∀ uid, Session.addUnannounced d uid =
      { d with unannounced := Session.unannounced (Session.addUnannounced d uid) } ∧
      Session.messages (Session.addUnannounced d uid) = Session.messages d ∧
      ∀ u, (Session.unannounced (Session.addUnannounced d uid)).contains u = true ↔
        u = uid ∨ (Session.unannounced d).contains u = true) ∧
    (∀ s : IntegerSet, s.wf → (Session.addUnannouncedSet d s =
      { d with unannounced := Session.unannounced (Session.addUnannouncedSet d s) } ∧
      Session.messages (Session.addUnannouncedSet d s) = Session.messages d ∧
      ∀ u, (Session.unannounced (Session.addUnannouncedSet d s)).contains u = true ↔
        (Session.unannounced d).contains u = true ∨ s.contains u = true)) :=
  ⟨fun u => IntegerSet.contains_addSet h.1 h.2.2.2 u, rfl, fun _ => rfl, rfl, rfl,
   fun _ => rfl, rfl, rfl,
   fun uid => ⟨rfl, rfl, fun u => IntegerSet.contains_add h.2.2.2 uid u⟩,
   fun _ hs => ⟨rfl, rfl, fun u => IntegerSet.contains_addSet h.2.2.2 hs u⟩⟩

/-- C9 at the session with messages `1:4` and unannounced `6,9`: after
clearUnannounced() UID 9 is a message and nothing is unannounced. -/
theorem C9_clearUnannounced_frame_witness :
    SessionData.wf { msns := ⟨[(1, 4)]⟩, unannounced := ⟨[(6, 6), (9, 9)]⟩ } ∧
    (Session.messages (Session.clearUnannounced
      { msns := ⟨[(1, 4)]⟩, unannounced := ⟨[(6, 6), (9, 9)]⟩ })).contains 9 = true ∧
    Session.unannounced (Session.clearUnannounced
      { msns := ⟨[(1, 4)]⟩, unannounced := ⟨[(6, 6), (9, 9)]⟩ }) = IntegerSet.empty :=
  ⟨by decide,
   ((C9_clearUnannounced_frame { msns := ⟨[(1, 4)]⟩, unannounced := ⟨[(6, 6), (9, 9)]⟩ }
     (by decide)).1 9).2 (Or.inr (by decide)),
   (C9_clearUnannounced_frame { msns := ⟨[(1, 4)]⟩, unannounced := ⟨[(6, 6), (9, 9)]⟩ }
     (by decide)).2.1⟩

end Aox

namespace Aox

/-- C7 fails as stated: on a freshly constructed session with no messages,
`expunge( 5 )` puts UID 5 into `expunged()` although it is not in
`messages()`; and after UID 5 has become a message and been expunged,
`earlydeletems( 5 )` takes it out of `messages()` and leaves it in
`expunged()`. -/
theorem C7_counterexample :
    ((Session.expunged (Session.run [Session.Call.expunge ⟨[(5, 5)]⟩]
      (Session.construct { Example.mailbox with sessions := none } Example.heap false))).contains 5
        = true ∧
     (Session.messages (Session.run [Session.Call.expunge ⟨[(5, 5)]⟩]
      (Session.construct { Example.mailbox with sessions := none } Example.heap false))).contains 5
        = false) ∧
    ((Session.expunged (Session.run
      [Session.Call.addUnannounced 5, Session.Call.clearUnannounced,
        Session.Call.expunge ⟨[(5, 5)]⟩, Session.Call.earlydeletems ⟨[(5, 5)]⟩]
      (Session.construct { Example.mailbox with sessions := none } Example.heap false))).contains 5
        = true ∧
     (Session.messages (Session.run
      [Session.Call.addUnannounced 5, Session.Call.clearUnannounced,
        Session.Call.expunge ⟨[(5, 5)]⟩, Session.Call.earlydeletems ⟨[(5, 5)]⟩]
      (Session.construct { Example.mailbox with sessions := none } Example.heap false))).contains 5
        = false) := by
  decide

/-- C7, as the code has it: starting from a freshly constructed session, after
every sequence of public calls in which each `expunge( uids )` is given UIDs
that are in `messages()` at the time and each `earlydeletems( uids )` is given
UIDs that are not in `expunged()` at the time, `expunged()` is a subset of
`messages()`. -/
theorem C7_expunged_subset_messages (m : Mailbox) (heap : Nat → SessionData)
    (readOnly : Bool) (cs : List Session.Call)
    (hk : Session.keepsExpunges cs (Session.construct m heap readOnly)) (u : Nat)
    (hu : (Session.expunged
      (Session.run cs (Session.construct m heap readOnly))).contains u = true) :
    (Session.messages (Session.run cs (Session.construct m heap readOnly))).contains u = true :=
  Session.expunges_subset_run cs (Session.wf_construct m heap readOnly)
    (fun v hv => by
      rw [Session.construct_expunges] at hv
      exact absurd hv (by simp [IntegerSet.contains_empty]))
    hk u hu

/-- C7 at a session that learns of UID 5, announces it and has it expunged:
UID 5 is pending and still a message. -/
theorem C7_expunged_subset_messages_witness :
    (Session.expunged (Session.run
      [Session.Call.addUnannounced 5, Session.Call.clearUnannounced,
        Session.Call.expunge ⟨[(5, 5)]⟩]
      (Session.construct { Example.mailbox with sessions := none } Example.heap false))).contains 5
        = true ∧
    (Session.messages (Session.run
      [Session.Call.addUnannounced 5, Session.Call.clearUnannounced,
        Session.Call.expunge ⟨[(5, 5)]⟩]
      (Session.construct { Example.mailbox with sessions := none } Example.heap false))).contains 5
        = true :=
  ⟨by decide,
   C7_expunged_subset_messages { Example.mailbox with sessions := none } Example.heap false
     [Session.Call.addUnannounced 5, Session.Call.clearUnannounced,
       Session.Call.expunge ⟨[(5, 5)]⟩]
     ⟨trivial, trivial, ⟨by decide, fun _ hu => hu⟩, trivial⟩ 5 (by decide)⟩

/-- C8 fails as stated: on a freshly constructed session with no messages,
`addRecent( 5 )` marks UID 5 as recent although it is neither in `messages()`
nor in `unannounced()`. -/
theorem C8_counterexample :
    Session.isRecent (Session.run [Session.Call.addRecent 5]
      (Session.construct { Example.mailbox with sessions := none } Example.heap false)) 5
        = true ∧
    (Session.messages (Session.run [Session.Call.addRecent 5]
      (Session.construct { Example.mailbox with sessions := none } Example.heap false))).contains 5
        = false ∧
    (Session.unannounced (Session.run [Session.Call.addRecent 5]
      (Session.construct { Example.mailbox with sessions := none } Example.heap false))).contains 5
        = false := by
  decide

/-- C8, as the code has it: starting from a freshly constructed session, after
every sequence of public calls the set that `recent()` returns holds exactly
the UIDs that are marked recent and are in `messages()`, so it is a subset of
`messages()` and of `messages() ∪ unannounced()`. -/
theorem C8_recent_subset_messages (m : Mailbox) (heap : Nat → SessionData)
    (readOnly : Bool) (cs : List Session.Call) (u : Nat) :
    ((Session.recent (Session.run cs (Session.construct m heap readOnly))).contains u = true ↔
      Session.isRecent (Session.run cs (Session.construct m heap readOnly)) u = true ∧
      (Session.messages (Session.run cs (Session.construct m heap readOnly))).contains u = true) ∧
    ((Session.recent (Session.run cs (Session.construct m heap readOnly))).contains u = true →
      (Session.messages (Session.run cs (Session.construct m heap readOnly))).contains u = true ∨
      (Session.unannounced
        (Session.run cs (Session.construct m heap readOnly))).contains u = true) := by
  have hwf := Session.wf_run cs (Session.wf_construct m heap readOnly)
  have key := IntegerSet.contains_intersection hwf.2.1
    (Session.run cs (Session.construct m heap readOnly)).msns u
  exact ⟨key, fun h => Or.inl (key.1 h).2⟩

/-- C8 at a session that learns of UID 5, announces it and marks it recent:
`recent()` holds UID 5, which is a message. -/
theorem C8_recent_subset_messages_witness :
    (Session.recent (Session.run
      [Session.Call.addUnannounced 5, Session.Call.clearUnannounced, Session.Call.addRecent 5]
      (Session.construct { Example.mailbox with sessions := none } Example.heap false))).contains 5
        = true ∧
    ((Session.messages (Session.run
      [Session.Call.addUnannounced 5, Session.Call.clearUnannounced, Session.Call.addRecent 5]
      (Session.construct { Example.mailbox with sessions := none } Example.heap false))).contains 5
        = true ∨
     (Session.unannounced (Session.run
      [Session.Call.addUnannounced 5, Session.Call.clearUnannounced, Session.Call.addRecent 5]
      (Session.construct { Example.mailbox with sessions := none } Example.heap false))).contains 5
        = true) :=
  ⟨by decide,
   (C8_recent_subset_messages { Example.mailbox with sessions := none } Example.heap false
     [Session.Call.addUnannounced 5, Session.Call.clearUnannounced, Session.Call.addRecent 5]
     5).2 (by decide)⟩

end Aox

namespace Aox

/-- C6: when SessionInitialiser::findRecent reads a row whose `first_recent`
is `r`, and `p` is the first session of the work list that is not read-only,
or the first session when all are read-only, then for `r < newUidnext` the
UIDs `r, ..., newUidnext - 1` and no others are added to the recent set of `p`,
nothing else of `p` and no other session changes, and the update of
`mailboxes.first_recent` to `newUidnext` is submitted if and only if
`changeRecent` is set; for `r ≥ newUidnext` no session changes and nothing is
submitted. -/
theorem C6_findRecent (x : SessionInitialiser) (q : Query) (row : Row) (rest : List Row)
    (p : Nat) (hq : x.d.recent = some q) (hrow : q.rows = row :: rest)
    (hp : (∃ pre post, x.d.sessions = pre ++ p :: post ∧
        (∀ s ∈ pre, (x.heap s).readOnly = true) ∧ (x.heap p).readOnly = false) ∨
      ((∀ s ∈ x.d.sessions, (x.heap s).readOnly = true) ∧ x.d.sessions.head? = some p))
    (hwf : (x.heap p).recent.wf) :
    (toUint row.first_recent < x.d.newUidnext →
      (∀ v, ((SessionInitialiser.findRecent x).heap p).recent.contains v = true ↔
        (toUint row.first_recent ≤ v ∧ v < x.d.newUidnext) ∨
          (x.heap p).recent.contains v = true) ∧
      (SessionInitialiser.findRecent x).heap p =
        { x.heap p with recent := ((SessionInitialiser.findRecent x).heap p).recent } ∧
      (∀ s, s ≠ p → (SessionInitialiser.findRecent x).heap s = x.heap s) ∧
      (SessionInitialiser.findRecent x).trace = x.trace ++
        (if x.d.changeRecent = true then
          [Event.submit
            { text := "update mailboxes set first_recent=$2 where id=$1 and first_recent<$2"
              owner := false
              binds := [(1, (x.mailbox.id : Int)), (2, (x.d.newUidnext : Int))]
              rows := []
              done := false } x.d.t.isSome]
        else [])) ∧
    (x.d.newUidnext ≤ toUint row.first_recent →
      (SessionInitialiser.findRecent x).heap = x.heap ∧
      (SessionInitialiser.findRecent x).trace = x.trace) := by
  have htarget : (match SessionInitialiser.firstWritable x.heap x.d.sessions with
      | some i => some i
      | none => x.d.sessions.head?) = some p := by
    rcases hp with ⟨pre, post, e, hpre, hpw⟩ | ⟨hall, hhead⟩
    · rw [e, SessionInitialiser.firstWritable_append x.heap pre p post hpre hpw]
    · rw [SessionInitialiser.firstWritable_none x.heap x.d.sessions hall]
      exact hhead
  have key := SessionInitialiser.findRecent_row x q row rest p hq hrow htarget
  obtain ⟨l1, l2, _, l4⟩ := SessionInitialiser.addRecentLoop_spec (x.heap p) hwf
    (toUint row.first_recent) (x.d.newUidnext - toUint row.first_recent)
  constructor
  · intro hlt
    have hge : ¬ toUint row.first_recent ≥ x.d.newUidnext := by omega
    have hsum : toUint row.first_recent + (x.d.newUidnext - toUint row.first_recent) =
        x.d.newUidnext := by omega
    rw [if_neg hge] at key
    have hheap : (SessionInitialiser.findRecent x).heap = Function.update x.heap p
        (SessionInitialiser.addRecentLoop (x.heap p) (toUint row.first_recent)
          (x.d.newUidnext - toUint row.first_recent)).1 := by
      rw [key]
      split_ifs <;> rfl
    refine ⟨fun v => ?_, ?_, fun s hs => ?_, ?_⟩
    · rw [hheap, Function.update_same, l4 v, hsum]
    · rw [hheap, Function.update_same]
      exact l2
    · rw [hheap, Function.update_noteq hs]
    · rw [key]
      cases hc : x.d.changeRecent
      · simp
      · simp only [if_true]
        rw [l1, hsum]
  · intro hle
    have hge : toUint row.first_recent ≥ x.d.newUidnext := hle
    rw [if_pos hge] at key
    rw [key]
    exact ⟨rfl, rfl⟩

/-- C6 at the example: the row 7 arrives while `newUidnext` is 10; the session
at 2 is the first that is not read-only, UID 9 becomes recent there, and the
update of `first_recent` is submitted. -/
theorem C6_findRecent_witness :
    toUint (7 : Int) < Example.waiting.d.newUidnext ∧
    ((SessionInitialiser.findRecent Example.waiting).heap 2).recent.contains 9 = true ∧
    (SessionInitialiser.findRecent Example.waiting).heap 1 = Example.waiting.heap 1 ∧
    (SessionInitialiser.findRecent Example.waiting).trace =
      [Event.submit
        { text := "update mailboxes set first_recent=$2 where id=$1 and first_recent<$2"
          owner := false
          binds := [(1, 9), (2, 10)]
          rows := []
          done := false } false] :=
  ⟨by decide,
   (((C6_findRecent Example.waiting _ { first_recent := 7, uid := 0, modseq := 0 } [] 2 rfl rfl
      (Or.inl ⟨[1], [], rfl, by decide, by decide⟩) (by decide)).1 (by decide)).1 9).2
        (Or.inl (by decide)),
   ((C6_findRecent Example.waiting _ { first_recent := 7, uid := 0, modseq := 0 } [] 2 rfl rfl
      (Or.inl ⟨[1], [], rfl, by decide, by decide⟩) (by decide)).1 (by decide)).2.2.1 1
        (by decide),
   ((C6_findRecent Example.waiting _ { first_recent := 7, uid := 0, modseq := 0 } [] 2 rfl rfl
      (Or.inl ⟨[1], [], rfl, by decide, by decide⟩) (by decide)).1 (by decide)).2.2.2⟩

end Aox

namespace Aox

/-- C3: when the mailbox is ordinary and neither a session on the mailbox nor
the extra session `also` is behind the mailbox's `uidnext` and `nextModSeq`, a
new SessionInitialiser runs to the state QueriesDone at once, leaves every
session as it is, submits no query and calls Session::emitUpdates on no
session; the only call it can make is the `commit()` of a transaction that has
already failed. -/
theorem C3_idempotent (mailbox : Mailbox) (heap : Nat → SessionData) (trace : List Event)
    (t : Option Transaction) (also : Option Nat)
    (hord : mailbox.ordinary = true)
    (hs : ∀ s ∈ mailbox.sessions.getD [], mailbox.uidnext ≤ (heap s).uidnext ∧
      mailbox.nextModSeq ≤ (heap s).nextModSeq)
    (ha : ∀ a, also = some a → mailbox.uidnext ≤ (heap a).uidnext ∧
      mailbox.nextModSeq ≤ (heap a).nextModSeq) :
    ∃ y, SessionInitialiser.new mailbox heap trace t also = Except.ok y ∧
      y.heap = heap ∧
      y.d.state = State.QueriesDone ∧
      y.d.sessions = [] ∧
      y.trace = trace ++
        (match t with
          | some tr => if tr.failed = true then [Event.commit] else []
          | none => []) := by
  obtain ⟨ss, ou, om, mb, e, hss⟩ := SessionInitialiser.findSessions_spec
    { d := { also := also, t := t }, mailbox := mailbox, heap := heap, trace := trace }
  have hnil : ss = [] := hss hs ha hord
  subst hnil
  unfold SessionInitialiser.new SessionInitialiser.execute
  have hloop : SessionInitialiser.executeLoop 6
      { d := { also := also, t := t }, mailbox := mailbox, heap := heap, trace := trace } =
      Except.ok
        { d := { also := also, t := t, oldUidnext := ou, oldModSeq := om,
                 newUidnext := mailbox.uidnext, newModSeq := mailbox.nextModSeq,
                 state := State.QueriesDone }
          mailbox := mb, heap := heap, trace := trace } := by
    simp [SessionInitialiser.executeLoop, SessionInitialiser.executeStep, e,
      SessionInitialiser.emitUpdates, SessionInitialiser.advanceCursors,
      SessionInitialiser.setState]
  rw [hloop]
  cases t with
  | none => exact ⟨_, rfl, rfl, rfl, rfl, by simp⟩
  | some tr =>
    cases hf : tr.failed with
    | false =>
      simp only [hf]
      exact ⟨_, rfl, rfl, rfl, rfl, by simp⟩
    | true =>
      simp only [hf, if_true]
      exact ⟨_, rfl, by simp [SessionInitialiser.releaseLock, SessionInitialiser.emitUpdates,
          SessionInitialiser.advanceCursors, hf],
        by simp [SessionInitialiser.releaseLock, SessionInitialiser.emitUpdates,
          SessionInitialiser.advanceCursors, hf],
        by simp [SessionInitialiser.releaseLock, SessionInitialiser.emitUpdates,
          SessionInitialiser.advanceCursors, hf],
        by simp [SessionInitialiser.releaseLock, SessionInitialiser.emitUpdates,
          SessionInitialiser.advanceCursors, hf]⟩

/-- C3 at the example sessions on a mailbox whose `uidnext` is 5 and whose
`nextModSeq` is 3, which neither session is behind. -/
theorem C3_idempotent_witness :
    ({ Example.mailbox with uidnext := 5, nextModSeq := 3 } : Mailbox).ordinary = true ∧
    (∀ s ∈ [1, 2], 5 ≤ (Example.heap s).uidnext ∧ 3 ≤ (Example.heap s).nextModSeq) ∧
    ∃ y, SessionInitialiser.new { Example.mailbox with uidnext := 5, nextModSeq := 3 }
        Example.heap [] none none = Except.ok y ∧
      y.heap = Example.heap ∧ y.d.state = State.QueriesDone ∧ y.d.sessions = [] ∧ y.trace = [] :=
  ⟨rfl, by decide,
   C3_idempotent { Example.mailbox with uidnext := 5, nextModSeq := 3 } Example.heap [] none none
     rfl (by decide) (fun _ h => nomatch h)⟩

end Aox

namespace Aox

/-- C4 fails as stated: in the example run the transaction fails while the
changes are being received, and at the end of that call of `execute()` the
session at 1 has gone from `uidnext` 5 and `nextModSeq` 3 to 10 and 6, keeps
UID 7 in its unannounced set and UID 3 in its expunges, the session at 2 keeps
the UIDs 8 and 9 in its recent set, and Session::emitUpdates has been called on
the session at 1. -/
theorem C4_counterexample :
    (Example.heap 1).uidnext = 5 ∧ (Example.heap 1).nextModSeq = 3 ∧
    (Example.heap 1).unannounced = IntegerSet.empty ∧
    (Example.heap 1).expunges = IntegerSet.empty ∧
    (Example.heap 2).recent = ⟨[(5, 6)]⟩ ∧
    Example.failedRun.toOption.map (fun z =>
      ((z.heap 1).uidnext, (z.heap 1).nextModSeq, (z.heap 1).unannounced, (z.heap 1).expunges,
        (z.heap 2).recent, decide (Event.emitUpdates 1 ∈ z.trace))) =
      some (10, 6, ⟨[(7, 7)]⟩, ⟨[(3, 3)]⟩, ⟨[(5, 6), (8, 9)]⟩, true) := by
  decide

/-- C4, as the code has it: when the transaction has failed at the end of the
loop of SessionInitialiser::execute, `execute()` calls releaseLock and drops
the transaction: every session of the work list has `uidnext` and `nextModSeq`
raised to the maximum of its old value and the new one and has
Session::emitUpdates called on it, `commit()` is called, the work list is
cleared and the state stays as it is; the message, unannounced, expunges and
recent sets of every session stay as the loop left them, and a session that is
not on the work list is not changed at all. -/
theorem C4_failure_releases (x y : SessionInitialiser) (t : Transaction)
    (hloop : SessionInitialiser.executeLoop 6 x = Except.ok y)
    (ht : y.d.t = some t) (hf : t.failed = true) :
    ∃ z, SessionInitialiser.execute x = Except.ok z ∧
      z.d.t = none ∧ z.d.sessions = [] ∧ z.d.state = y.d.state ∧
      (∀ s ∈ y.d.sessions,
        (z.heap s).uidnext = max (y.heap s).uidnext y.d.newUidnext ∧
        (z.heap s).nextModSeq = max (y.heap s).nextModSeq y.d.newModSeq) ∧
      (∀ s, (z.heap s).msns = (y.heap s).msns ∧
        (z.heap s).unannounced = (y.heap s).unannounced ∧
        (z.heap s).expunges = (y.heap s).expunges ∧
        (z.heap s).recent = (y.heap s).recent) ∧
      (∀ s, s ∉ y.d.sessions → z.heap s = y.heap s) ∧
      ∃ evs, z.trace = y.trace ++ evs ++ y.d.sessions.map Event.emitUpdates ++ [Event.commit] ∧
        ∀ e ∈ evs, (∃ s, s ∈ y.d.sessions ∧ e = Event.setNextModSeq s y.d.newModSeq) ∨
          (∃ s, s ∈ y.d.sessions ∧ e = Event.setUidnext s y.d.newUidnext) := by
  obtain ⟨evs, he, hevs⟩ := SessionInitialiser.advanceCursors_trace y.d.newUidnext y.d.newModSeq
    y.d.sessions y.heap y.trace
  have hz : SessionInitialiser.execute x = Except.ok
      { SessionInitialiser.emitUpdates y with
        trace := (SessionInitialiser.emitUpdates y).trace ++ [Event.commit]
        d := { (SessionInitialiser.emitUpdates y).d with t := none } } := by
    unfold SessionInitialiser.execute
    rw [hloop]
    simp only [ht, hf, if_true]
    have ht' : (SessionInitialiser.emitUpdates y).d.t = some t := ht
    simp [SessionInitialiser.releaseLock, ht', hf]
  refine ⟨_, hz, rfl, rfl, rfl, fun s hs => ?_, fun s => ?_, fun s hs => ?_, evs, ?_, hevs⟩
  · have := (SessionInitialiser.emitUpdates_heap y s).1 hs
    simp only
    rw [this]
    exact ⟨rfl, rfl⟩
  · exact (SessionInitialiser.emitUpdates_heap y s).2.2
  · exact (SessionInitialiser.emitUpdates_heap y s).2.1 hs
  · simp only [SessionInitialiser.emitUpdates]
    rw [he]

/-- C4 at the example: the transaction has failed while the initialiser waits
for the messages; `execute()` drops the transaction, clears the work list and
raises `uidnext` of the session at 1 from 5 to 10. -/
theorem C4_failure_releases_witness :
    SessionInitialiser.executeLoop 6 Example.failing = Except.ok Example.failing ∧
    Example.failing.d.t = some { failed := true, done := false } ∧
    ∃ z, SessionInitialiser.execute Example.failing = Except.ok z ∧
      z.d.t = none ∧ z.d.sessions = [] ∧ (z.heap 1).uidnext = 10 :=
  ⟨rfl, rfl,
   match C4_failure_releases Example.failing Example.failing { failed := true, done := false }
     rfl rfl rfl with
   | ⟨z, h1, h2, h3, _, h5, _⟩ => ⟨z, h1, h2, h3, (h5 1 (by decide)).1⟩⟩

end Aox

namespace Aox

/-- C10 fails as stated: the first session on the example mailbox has the
messages `1:4`, no pending expunge and UID 7 unannounced; a session constructed
next to it starts with the messages `1:4,7`, not with `1:4`. -/
theorem C10_counterexample :
    ((Function.update Example.heap 1
      { Example.heap 1 with unannounced := ⟨[(7, 7)]⟩ } 1).msns.removeSet
      (Function.update Example.heap 1
        { Example.heap 1 with unannounced := ⟨[(7, 7)]⟩ } 1).expunges) = ⟨[(1, 4)]⟩ ∧
    (Session.new Example.mailbox
      (Function.update Example.heap 1 { Example.heap 1 with unannounced := ⟨[(7, 7)]⟩ })
      [] 3 false).toOption.map (fun y => Session.messages (y.heap 3)) =
      some ⟨[(1, 4), (7, 7)]⟩ := by
  decide

/-- C10, as the code has it: the constructor Session::Session has a result;
when the mailbox has a first session `p`, the new session has `p`'s `uidnext`
and `nextModSeq` and its messages are those of `p` together with the
unannounced UIDs of `p`, minus the pending expunges of `p`; when the mailbox
has no session, the new session has no messages, `uidnext` 1 and `nextModSeq`
1. -/
theorem C10_constructor (mailbox : Mailbox) (heap : Nat → SessionData) (trace : List Event)
    (self : Nat) (readOnly : Bool) :
    ∃ y, Session.new mailbox heap trace self readOnly = Except.ok y ∧
      (∀ p rest, mailbox.sessions = some (p :: rest) → (heap p).wf →
        Session.uidnext (y.heap self) = Session.uidnext (heap p) ∧
        Session.nextModSeq (y.heap self) = Session.nextModSeq (heap p) ∧
        ∀ u, (Session.messages (y.heap self)).contains u = true ↔
          ((Session.messages (heap p)).contains u = true ∨
            (Session.unannounced (heap p)).contains u = true) ∧
          (Session.expunged (heap p)).contains u = false) ∧
      (mailbox.sessions = none ∨ mailbox.sessions = some [] →
        Session.messages (y.heap self) = IntegerSet.empty ∧
        Session.uidnext (y.heap self) = 1 ∧ Session.nextModSeq (y.heap self) = 1) := by
  obtain ⟨y, hy, hheap⟩ := SessionInitialiser.execute_idle
    { d := { also := some self, t := none }, mailbox := mailbox,
      heap := Function.update heap self (Session.construct mailbox heap readOnly),
      trace := trace }
    (by simp [SessionInitialiser.awaitsDatabase]) rfl
  refine ⟨y, hy, ?_, ?_⟩
  · intro p rest hp hwf
    have e : y.heap self = Session.construct mailbox heap readOnly := by
      rw [hheap]
      exact Function.update_same _ _ _
    rw [e, Session.construct_peer mailbox heap readOnly p rest hp]
    refine ⟨rfl, rfl, fun u => ?_⟩
    simp only [Session.messages, Session.unannounced, Session.expunged]
    have w1 : (IntegerSet.empty.addSet (heap p).msns).wf :=
      IntegerSet.wf_addSet IntegerSet.wf_empty _
    have w2 : ((IntegerSet.empty.addSet (heap p).msns).addSet (heap p).unannounced).wf :=
      IntegerSet.wf_addSet w1 _
    rw [IntegerSet.contains_removeSet w2 hwf.2.2.1, IntegerSet.contains_addSet w1 hwf.2.2.2,
      IntegerSet.contains_addSet IntegerSet.wf_empty hwf.1, IntegerSet.contains_empty]
    simp
  · intro hnone
    have e : y.heap self = Session.construct mailbox heap readOnly := by
      rw [hheap]
      exact Function.update_same _ _ _
    rw [e, Session.construct_alone mailbox heap readOnly hnone]
    exact ⟨rfl, rfl, rfl⟩

/-- C10 at the example: a session constructed on the example mailbox takes
`uidnext` 5 from the first session there and has UID 4 among its messages. -/
theorem C10_constructor_witness :
    Example.mailbox.sessions = some (1 :: [2]) ∧ (Example.heap 1).wf ∧
    ∃ y, Session.new Example.mailbox Example.heap [] 3 false = Except.ok y ∧
      Session.uidnext (y.heap 3) = 5 ∧ (Session.messages (y.heap 3)).contains 4 = true :=
  ⟨rfl, by decide,
   match C10_constructor Example.mailbox Example.heap [] 3 false with
   | ⟨y, h1, h2, _⟩ =>
     ⟨y, h1, (h2 1 [2] rfl (by decide)).1,
       ((h2 1 [2] rfl (by decide)).2.2 4).2 ⟨Or.inl (by decide), by decide⟩⟩⟩

end Aox

namespace Aox

/-- C22 fails as stated: in the example SessionInitialiser::emitUpdates calls
setNextModSeq and setUidnext on the sessions at 1 and 2 first and
Session::emitUpdates on them afterwards. -/
theorem C22_counterexample :
    (SessionInitialiser.emitUpdates Example.initialiser).trace =
      [Event.setNextModSeq 1 6, Event.setUidnext 1 10, Event.setNextModSeq 2 6,
        Event.setUidnext 2 10, Event.emitUpdates 1, Event.emitUpdates 2] := by
  decide

/-- C22, as the code has it: SessionInitialiser::emitUpdates first raises the
cursors of the sessions of the work list and then calls Session::emitUpdates
on each session of the work list, in the order of the list: every call of
setNextModSeq and setUidnext comes before every call of
Session::emitUpdates. -/
theorem C22_cursors_before_emitUpdates (x : SessionInitialiser) :
    ∃ evs, (SessionInitialiser.emitUpdates x).trace =
        x.trace ++ evs ++ x.d.sessions.map Event.emitUpdates ∧
      ∀ e ∈ evs, (∃ s, s ∈ x.d.sessions ∧ e = Event.setNextModSeq s x.d.newModSeq) ∨
        (∃ s, s ∈ x.d.sessions ∧ e = Event.setUidnext s x.d.newUidnext) := by
  obtain ⟨evs, he, hevs⟩ := SessionInitialiser.advanceCursors_trace x.d.newUidnext
    x.d.newModSeq x.d.sessions x.heap x.trace
  refine ⟨evs, ?_, hevs⟩
  simp only [SessionInitialiser.emitUpdates]
  rw [he]

/-- C22 at the example: the calls of emitUpdates are the last two of the
trace. -/
theorem C22_cursors_before_emitUpdates_witness :
    ∃ evs, (SessionInitialiser.emitUpdates Example.initialiser).trace =
        [] ++ evs ++ [Event.emitUpdates 1, Event.emitUpdates 2] ∧
      ∀ e ∈ evs, (∃ s, s ∈ [1, 2] ∧ e = Event.setNextModSeq s 6) ∨
        (∃ s, s ∈ [1, 2] ∧ e = Event.setUidnext s 10) :=
  C22_cursors_before_emitUpdates Example.initialiser

/-- C30: a turn of the loop of SessionInitialiser::execute leaves the state as
it is or moves it to a later one in the order NoTransaction, WaitingForLock,
HaveUidnext, ReceivingChanges, Updated, QueriesDone; in QueriesDone a turn
changes nothing; the loop ends within six turns; and `execute()` has a result,
in a state that is not an earlier one, whatever the queries and the
transaction hold, provided the query for the messages exists when the state is
ReceivingChanges, which `execute()` keeps true. -/
theorem C30_state_moves_forward (x : SessionInitialiser) :
    (∀ y, SessionInitialiser.executeStep x = Except.ok y →
      y.d.state = x.d.state ∨ x.d.state.rank < y.d.state.rank) ∧
    (x.d.state = State.QueriesDone → SessionInitialiser.executeStep x = Except.ok x) ∧
    SessionInitialiser.executeLoop 6 x ≠ Except.error Fault.outOfFuel ∧
    ((x.d.state = State.ReceivingChanges → x.d.messages ≠ none) →
      ∃ y, SessionInitialiser.execute x = Except.ok y ∧
        x.d.state.rank ≤ y.d.state.rank ∧
        (y.d.state = State.ReceivingChanges → y.d.messages ≠ none)) :=
  ⟨fun y h => SessionInitialiser.executeStep_rank x y h,
   fun h => SessionInitialiser.executeStep_queriesDone x h,
   SessionInitialiser.executeLoop_six x,
   fun h => SessionInitialiser.execute_total x h⟩

/-- C30 at the example: the initialiser that waits in WaitingForLock with the
row for `first_recent` at hand gets a result from `execute()`, in a state that
is not earlier than WaitingForLock. -/
theorem C30_state_moves_forward_witness :
    (Example.waiting.d.state = State.ReceivingChanges → Example.waiting.d.messages ≠ none) ∧
    ∃ y, SessionInitialiser.execute Example.waiting = Except.ok y ∧
      State.WaitingForLock.rank ≤ y.d.state.rank :=
  ⟨fun h => absurd h (by decide),
   match (C30_state_moves_forward Example.waiting).2.2.2 (fun h => absurd h (by decide)) with
   | ⟨y, h1, h2, _⟩ => ⟨y, h1, h2⟩⟩

end Aox
namespace Aox
open Fetch

/-- C17: macro expansion is an equivalence of parses. For every Fetch `f` the
parse starts from, every target set and every list of modifiers, Fetch::parse
of the single attribute ALL gives the same Fetch (so the same request fields
flags, envelope, internaldate, rfc822size, body, bodystructure, annotation,
modseq, uid, peek and sections) as the parse of
`(FLAGS INTERNALDATE RFC822.SIZE ENVELOPE)`, FAST the same as
`(FLAGS INTERNALDATE RFC822.SIZE)` and FULL the same as
`(FLAGS INTERNALDATE RFC822.SIZE ENVELOPE BODY)`; and when a parenthesised
list holds ALL, FAST or FULL (in any letter case) the command is rejected
with BAD. -/
theorem C17_macro_expansion (g : String → Bool) (f : Fetch) (t : IntegerSet)
    (m : List (String × Nat)) :
    parse g f { target := t, parenthesised := false,
                attributes := [{ keyword := "ALL" }], modifiers := m } =
      parse g f { target := t, parenthesised := true,
                  attributes := [{ keyword := "FLAGS" }, { keyword := "INTERNALDATE" },
                                 { keyword := "RFC822.SIZE" }, { keyword := "ENVELOPE" }],
                  modifiers := m } ∧
    parse g f { target := t, parenthesised := false,
                attributes := [{ keyword := "FAST" }], modifiers := m } =
      parse g f { target := t, parenthesised := true,
                  attributes := [{ keyword := "FLAGS" }, { keyword := "INTERNALDATE" },
                                 { keyword := "RFC822.SIZE" }],
                  modifiers := m } ∧
    parse g f { target := t, parenthesised := false,
                attributes := [{ keyword := "FULL" }], modifiers := m } =
      parse g f { target := t, parenthesised := true,
                  attributes := [{ keyword := "FLAGS" }, { keyword := "INTERNALDATE" },
                                 { keyword := "RFC822.SIZE" }, { keyword := "ENVELOPE" },
                                 { keyword := "BODY" }],
                  modifiers := m } ∧
    ∀ l : List AttributeText, f.error = none → (∃ a ∈ l, isMacro a = true) →
      ∃ msg, (parse g f { target := t, parenthesised := true, attributes := l,
                          modifiers := m }).error = some (Error.Bad, msg) := by
  refine ⟨rfl, rfl, rfl, ?_⟩
  intro l hf hl
  obtain ⟨msg, h⟩ := rejected_foldl g l { f with d := { f.d with set := t } } hf hl
  exact ⟨msg, parse_error_of_attributes g f _ (by simpa [parseAttributes] using h)⟩

/-- C17 at `UID FETCH 1:9 (UID fast)`: the parse starts without an error and
ends with a BAD. -/
theorem C17_macro_expansion_witness :
    (Fetch.new true).error = none ∧
    (∃ a ∈ [({ keyword := "UID" } : AttributeText), { keyword := "fast" }], isMacro a = true) ∧
    ∃ msg, (parse (fun _ => false) (Fetch.new true)
      { target := ⟨[(1, 9)]⟩, parenthesised := true,
        attributes := [{ keyword := "UID" }, { keyword := "fast" }],
        modifiers := [] }).error = some (Error.Bad, msg) :=
  ⟨rfl, ⟨{ keyword := "fast" }, by decide, by decide⟩,
    (C17_macro_expansion (fun _ => false) (Fetch.new true) ⟨[(1, 9)]⟩ []).2.2.2 _ rfl
      ⟨{ keyword := "fast" }, by decide, by decide⟩⟩

end Aox
namespace Aox
open Fetch

/-- C19: Fetch::execute creates a SeenFlagSetter exactly when the session is
not read-only and `peek` has been cleared, which parsing does for RFC822,
RFC822.TEXT, BODY[ and BINARY[ and for nothing else. Parse: if `peek` is
false after Fetch::parse, one of the attributes is one of those four, and in a
command that is accepted each of them clears `peek`. Execute: a call of
execute on a command being executed adds one SeenFlagSetter, with the set
`d->set`, when the session is read-write, `peek` is false and `d->state` is 1
or becomes 1 in this call, and none otherwise. End to end: for an accepted
command without fetch modifier the first call of execute creates one
SeenFlagSetter for the whole target set if the session is read-write and one
of the four attributes is there, and none otherwise. -/
theorem C19_seenFlagSetter (g : String → Bool) (u : Bool) (t : FetchText) (ctx : Context) :
    (((parse g (Fetch.new u) t).d.peek = false → t.attributes.any clearsPeek = true) ∧
     ((parse g (Fetch.new u) t).error = none → t.attributes.any clearsPeek = true →
        (parse g (Fetch.new u) t).d.peek = false)) ∧
    (∀ f : Fetch, f.state = CommandState.Executing →
      (execute ctx f).seenFlagSetters =
        if Session.readOnly ctx.session = false ∧ f.d.peek = false ∧
            ((f.d.state = 0 ∧ (executeChangedSince ctx f).2 = false) ∨ f.d.state = 1) then
          f.seenFlagSetters ++
            [if f.d.state = 0 then (executeChangedSince ctx f).1.d.set else f.d.set]
        else f.seenFlagSetters) ∧
    (t.modifiers = [] → (parse g (Fetch.new u) t).error = none →
      (execute ctx { parse g (Fetch.new u) t with
          state := CommandState.Executing }).seenFlagSetters =
        if Session.readOnly ctx.session = false ∧ t.attributes.any clearsPeek = true then
          [t.target]
        else []) := by
  have hparse : ((parse g (Fetch.new u) t).d.peek = false →
        t.attributes.any clearsPeek = true) ∧
      ((parse g (Fetch.new u) t).error = none → t.attributes.any clearsPeek = true →
        (parse g (Fetch.new u) t).d.peek = false) := by
    have h := parseAttributes_peek g
      { Fetch.new u with d := { (Fetch.new u).d with set := t.target } } t
    rw [parse_peek]
    refine ⟨fun hp => h.1 hp rfl, fun he => h.2 ?_⟩
    cases hx : (parseAttributes g
      { Fetch.new u with d := { (Fetch.new u).d with set := t.target } } t).error with
    | none => rfl
    | some x => rw [parse_error_of_attributes g (Fetch.new u) t hx] at he; cases he
  have hexec : ∀ f : Fetch, f.state = CommandState.Executing →
      (execute ctx f).seenFlagSetters =
        if Session.readOnly ctx.session = false ∧ f.d.peek = false ∧
            ((f.d.state = 0 ∧ (executeChangedSince ctx f).2 = false) ∨ f.d.state = 1) then
          f.seenFlagSetters ++
            [if f.d.state = 0 then (executeChangedSince ctx f).1.d.set else f.d.set]
        else f.seenFlagSetters := by
    intro f hs
    unfold execute
    rw [if_neg (by simp [hs])]
    rw [executeStates_seenFlagSetters]
    cases hr : Session.readOnly ctx.session <;> cases hp : f.d.peek <;> simp [hp]
  refine ⟨hparse, hexec, ?_⟩
  intro hm he
  obtain ⟨k1, k2, k3, k4⟩ := parse_keeps g (Fetch.new u) t hm
  rw [hexec _ rfl]
  have h0 : (parse g (Fetch.new u) t).d.state = 0 := k1
  have hc : (parse g (Fetch.new u) t).d.changedSince = 0 := k3
  have hs : (parse g (Fetch.new u) t).seenFlagSetters = [] := k4
  have hecs : executeChangedSince ctx
      { parse g (Fetch.new u) t with state := CommandState.Executing } =
      ({ parse g (Fetch.new u) t with
          state := CommandState.Executing
          d := { (parse g (Fetch.new u) t).d with state := 1 } }, false) := by
    unfold executeChangedSince
    simp [hc]
  simp only [hecs]
  by_cases hany : t.attributes.any clearsPeek = true
  · simp [h0, hs, k2, hparse.2 he hany, hany]
  · have hp : (parse g (Fetch.new u) t).d.peek = true := by
      cases hq : (parse g (Fetch.new u) t).d.peek
      · exact absurd (hparse.1 hq) hany
      · rfl
    simp [h0, hs, k2, hp, hany]

/-- C19 at `FETCH 1:3 (FLAGS BODY[])` in a read-write session: one
SeenFlagSetter for 1:3. -/
theorem C19_seenFlagSetter_witness :
    (execute Example.fetchContext
      { parse (fun _ => false) (Fetch.new false)
          { target := ⟨[(1, 3)]⟩, parenthesised := true,
            attributes := [{ keyword := "FLAGS" }, { keyword := "BODY", bracket := true }] } with
        state := CommandState.Executing }).seenFlagSetters =
      if Session.readOnly Example.fetchContext.session = false ∧
          List.any [({ keyword := "FLAGS" } : AttributeText),
            { keyword := "BODY", bracket := true }] clearsPeek = true then
        [⟨[(1, 3)]⟩]
      else [] :=
  (C19_seenFlagSetter (fun _ => false) false
    { target := ⟨[(1, 3)]⟩, parenthesised := true,
      attributes := [{ keyword := "FLAGS" }, { keyword := "BODY", bracket := true }] }
    Example.fetchContext).2.2 rfl (by decide)

end Aox
namespace Aox
open Fetch

/-- C18 fails as stated: for `UID FETCH 7 ALL` the response has RFC822.SIZE
before FLAGS and INTERNALDATE, not after them as in the parsed request (and in
the claim). -/
theorem C18_counterexample :
    (execute Example.fetchContext (Example.fetch true Example.fetchAll)).responses =
      ["7 FETCH (UID 7 RFC822.SIZE 42 FLAGS (\\Seen) " ++
        "INTERNALDATE \"01-Jan-2020 00:00:00 +0000\" ENVELOPE (...))"] ∧
    (execute Example.fetchContext (Example.fetch true Example.fetchAll)).responses ≠
      ["7 FETCH (UID 7 FLAGS (\\Seen) " ++
        "INTERNALDATE \"01-Jan-2020 00:00:00 +0000\" RFC822.SIZE 42 ENVELOPE (...))"] := by
  decide

/-- C18 as amended: the items of the response built by
Fetch::makeFetchResponse stand in one fixed order, whatever the order of the
attributes in the request: UID, RFC822.SIZE, FLAGS, INTERNALDATE, ENVELOPE,
BODY, BODYSTRUCTURE, ANNOTATION, MODSEQ, each if it was asked for, and then the
sections in the order of the request; so the attributes of ALL in another
order give the same response. -/
theorem C18_fixed_order (ctx : Context) (f : Fetch) (m : Message) (uid msn : Nat) :
    (makeFetchResponse ctx f m uid msn).d.available =
      f.d.available ++
        [EString.fn msn ++ " FETCH (" ++
          EString.join " "
            ((([(f.d.uid, "UID " ++ EString.fn uid),
                (f.d.rfc822size, "RFC822.SIZE " ++ EString.fn m.rfc822Size),
                (f.d.flags, "FLAGS (" ++ flagList m uid (some ctx.session) ++ ")"),
                (f.d.internaldate, "INTERNALDATE " ++ m.internalDate),
                (f.d.envelope, "ENVELOPE " ++ m.envelope),
                (f.d.body, "BODY " ++ m.body),
                (f.d.bodystructure, "BODYSTRUCTURE " ++ m.bodystructure),
                (f.d.annotation, "ANNOTATION " ++ annotation ctx.matchesEntry ctx.imapQuoted
                  true m.annotations ctx.user f.d.entries f.d.attribs),
                (f.d.modseq, "MODSEQ (" ++ toString m.modSeq ++ ")")].filter
                  (fun p => p.1)).map (fun p => p.2)) ++
              f.d.sections.map (fun s => sectionResponse s m)) ++ ")"] ∧
    makeFetchResponse ctx
        (parse ctx.isAddressField f
          { target := f.d.set, parenthesised := true,
            attributes := [{ keyword := "ENVELOPE" }, { keyword := "RFC822.SIZE" },
                           { keyword := "INTERNALDATE" }, { keyword := "FLAGS" }] })
        m uid msn =
      makeFetchResponse ctx
        (parse ctx.isAddressField f
          { target := f.d.set, parenthesised := false,
            attributes := [{ keyword := "ALL" }] })
        m uid msn := by
  refine ⟨?_, rfl⟩
  unfold makeFetchResponse
  simp only []
  generalize f.d.uid = b1
  generalize f.d.rfc822size = b2
  generalize f.d.flags = b3
  generalize f.d.internaldate = b4
  generalize f.d.envelope = b5
  generalize f.d.body = b6
  generalize f.d.bodystructure = b7
  generalize f.d.annotation = b8
  generalize f.d.modseq = b9
  cases b1 <;> cases b2 <;> cases b3 <;> cases b4 <;> cases b5 <;> cases b6 <;> cases b7 <;>
    cases b8 <;> cases b9 <;> rfl

end Aox
namespace Aox
open Fetch

/-- C20 fails as stated: `UID FETCH 5 FLAGS` with UID 5 among the pending
expunges of the session ends without an error, so with a tagged OK and not
with NO; there is no response for UID 5. -/
theorem C20_counterexample :
    Session.expunged Example.fetchContext.session = ⟨[(5, 5)]⟩ ∧
    (execute Example.fetchContext (Example.fetch true Example.fetchFlags)).state =
      CommandState.Finished ∧
    (execute Example.fetchContext (Example.fetch true Example.fetchFlags)).error = none ∧
    (execute Example.fetchContext (Example.fetch true Example.fetchFlags)).responses = [] := by
  decide

/-- C20 as amended. A call of Fetch::execute that gets to the step for
`d->state == 2`, on a command without error, pending request or remembered
UID: (1) the UIDs it remembers in `d->expunged` are, for a FETCH that is not a
UID FETCH (group 2), exactly the UIDs of the target set that are pending
expunges of the session, and none for a UID FETCH; (2) messages are requested
for exactly the UIDs of the target that are not pending expunges, and every
response made stands for one of these messages; (3) when no request is left
the command is finished, with `NO UID(s) <set> has/have been expunged` for the
set of (1) if this is not a UID FETCH and the set is not empty, and without
error otherwise. -/
theorem C20_expunged_fetch (ctx : Context) (f : Fetch)
    (hs : f.state = CommandState.Executing)
    (h : f.d.state = 2 ∨ ((f.d.peek = true ∨ Session.readOnly ctx.session = true) ∧
      (f.d.state = 1 ∨ (f.d.state = 0 ∧ f.d.changedSince = 0))))
    (he : f.error = none) (hx : f.d.expunged.isEmpty = true) (hq : f.d.requested = [])
    (hw : f.d.set.wf) (hws : (Session.expunged ctx.session).wf) :
    (∀ uid, (execute ctx f).d.expunged.contains uid = true ↔
      (f.group = 2 ∧ (Session.expunged ctx.session).contains uid = true ∧
        f.d.set.contains uid = true)) ∧
    (∃ answered : List Message,
      (answered ++ (execute ctx f).d.requested).map (fun m => m.uid) =
        (f.d.set.removeSet (Session.expunged ctx.session)).members ∧
      (∀ m ∈ answered ++ (execute ctx f).d.requested,
        f.d.set.contains m.uid = true ∧ (Session.expunged ctx.session).contains m.uid = false) ∧
      (execute ctx f).responses.length + (execute ctx f).d.available.length =
        f.responses.length + f.d.available.length + answered.length) ∧
    ((execute ctx f).d.requested = [] →
      (execute ctx f).state = CommandState.Finished ∧
      (execute ctx f).error =
        if f.group = 2 ∧
            ((Session.expunged ctx.session).intersection f.d.set).isEmpty = false then
          some (Error.No, "UID(s) " ++
            ((Session.expunged ctx.session).intersection f.d.set).set ++
            " has/have been expunged")
        else none) := by
  rw [execute_eq_shrink ctx f hs h]
  have k := executeShrink_spec ctx
    { f with d := { f.d with
        state := 2
        peek := f.d.peek || Session.readOnly ctx.session } } rfl
  generalize executeFetch ctx (executeShrink ctx
    { f with d := { f.d with
        state := 2
        peek := f.d.peek || Session.readOnly ctx.session } }) = r at k ⊢
  obtain ⟨k1, ⟨ans, k2, k3⟩, k4⟩ := k
  simp only [hq, List.nil_append] at k2
  have hmap : (ans ++ r.d.requested).map (fun m => m.uid) =
      (f.d.set.removeSet (Session.expunged ctx.session)).members := by
    rw [k2, map_requestedMessage_uid]; rfl
  refine ⟨?_, ⟨ans, hmap, ?_, k3⟩, ?_⟩
  · intro uid
    rw [k1]
    by_cases hg : f.group = 2
    · simp only [hg, if_true, true_and]
      exact IntegerSet.contains_intersection hws _ uid
    · simp only [hg, if_false, false_and, iff_false]
      rw [contains_of_isEmpty hx]; simp
  · intro m hm
    have h1 : m.uid ∈ (ans ++ r.d.requested).map (fun m => m.uid) :=
      List.mem_map_of_mem _ hm
    rw [hmap, IntegerSet.mem_members (IntegerSet.wf_removeSet hw _)] at h1
    exact (IntegerSet.contains_removeSet hw hws _).mp h1
  · intro hr
    obtain ⟨e1, e2⟩ := k4 hr he
    refine ⟨e1, ?_⟩
    rw [e2]
    by_cases hg : f.group = 2
    · simp only [hg, if_true, true_and]
      cases ((Session.expunged ctx.session).intersection f.d.set).isEmpty <;> simp
    · simp only [hg, if_false, false_and, hx, if_true]

/-- C20 at `FETCH 4:6 FLAGS` with UID 5 among the pending expunges: the
command ends with `NO UID(s) 5 has/have been expunged`. -/
theorem C20_expunged_fetch_witness :
    (execute Example.fetchContext (Example.fetch false Example.fetchRange)).state =
      CommandState.Finished ∧
    (execute Example.fetchContext (Example.fetch false Example.fetchRange)).error =
      some (Error.No, "UID(s) 5 has/have been expunged") :=
  (C20_expunged_fetch Example.fetchContext (Example.fetch false Example.fetchRange) rfl
    (Or.inr ⟨Or.inl rfl, Or.inr ⟨rfl, rfl⟩⟩) rfl rfl rfl (by decide) (by decide)).2.2
    (by decide)

end Aox
namespace Aox
open Fetch

/-- C21: the label Fetch::sectionData gives to a section. For the Section
parsed from `BINARY[]` or `BINARY.PEEK[]` (binary, the part and the
section-text empty) the label is `BODY[]` and not `BINARY[]`, whatever the
message; with the part 1.2 the labels are `BINARY[1.2]`, `BODY[1.2]` and
`BINARY.SIZE[1.2]`, as the claim says. -/
theorem C21_binary_label (g : String → Bool) (u bodypart : Bool) :
    (parseAttribute g (Fetch.new u) { keyword := "BINARY", bracket := true } false).d.sections.map
        (fun s => (s.binary, sectionDataItem s bodypart)) = [(true, "BODY[]")] ∧
    (parseAttribute g (Fetch.new u) { keyword := "BINARY.PEEK", bracket := true }
        false).d.sections.map
        (fun s => (s.binary, sectionDataItem s bodypart)) = [(true, "BODY[]")] ∧
    (parseAttribute g (Fetch.new u)
        { keyword := "BINARY", bracket := true, sectionText := { numbers := [1, 2] } }
        false).d.sections.map
        (fun s => sectionDataItem s bodypart) = ["BINARY[1.2]"] ∧
    (parseAttribute g (Fetch.new u)
        { keyword := "BODY", bracket := true, sectionText := { numbers := [1, 2] } }
        false).d.sections.map
        (fun s => sectionDataItem s bodypart) = ["BODY[1.2]"] ∧
    (parseAttribute g (Fetch.new u)
        { keyword := "BINARY.SIZE", bracket := true, sectionText := { numbers := [1, 2] } }
        false).d.sections.map
        (fun s => sectionDataItem s bodypart) = ["BINARY.SIZE[1.2]"] := by
  cases bodypart <;> exact ⟨rfl, rfl, rfl, rfl, rfl⟩

/-- C23 fails as stated: a Fetch that has trickled at a rate of 10 and has 90
responses queued emits 10 of them, not min(90, max(1, 90/30)) = 3. -/
theorem C23_counterexample :
    (pickup Example.fetchContext Example.trickling).d.available.length = 90 ∧
    (trickle Example.fetchContext Example.trickling).responses.length = 10 ∧
    (trickle Example.fetchContext Example.trickling).responses.length ≠
      min 90 (max 1 (90 / 30)) := by
  decide

/-- C23 as amended. A call of Fetch::trickle on a command that is neither
Finished nor Retired and whose response rate N is at least 1, with q the
number of queued responses after pickup: the rate becomes q/30 if that is more
than N, 1 if q/30 < 2 and N > 1, and stays N otherwise; the call emits the
first min(q, rate) queued responses and keeps the others; the rate is at least
max(1, q/30), so at least min(q, max(1, q/30)) responses are emitted. -/
theorem C23_trickle (ctx : Context) (f : Fetch)
    (hs : f.state ≠ CommandState.Finished ∧ f.state ≠ CommandState.Retired)
    (hn : 1 ≤ f.d.responseRate) :
    (trickle ctx f).d.responseRate =
      (if (pickup ctx f).d.available.length / 30 > f.d.responseRate then
        (pickup ctx f).d.available.length / 30
      else if (pickup ctx f).d.available.length / 30 < 2 ∧ f.d.responseRate > 1 then 1
      else f.d.responseRate) ∧
    (trickle ctx f).responses =
      f.responses ++ (pickup ctx f).d.available.take (trickle ctx f).d.responseRate ∧
    (trickle ctx f).d.available =
      (pickup ctx f).d.available.drop (trickle ctx f).d.responseRate ∧
    (trickle ctx f).responses.length =
      f.responses.length +
        min (pickup ctx f).d.available.length (trickle ctx f).d.responseRate ∧
    max 1 ((pickup ctx f).d.available.length / 30) ≤ (trickle ctx f).d.responseRate := by
  obtain ⟨_, p2, _, p4, _, _, _, p8⟩ := pickup_frame ctx f
  have h1 : (trickle ctx f).d.responseRate =
      (if (pickup ctx f).d.available.length / 30 > f.d.responseRate then
        (pickup ctx f).d.available.length / 30
      else if (pickup ctx f).d.available.length / 30 < 2 ∧ f.d.responseRate > 1 then 1
      else f.d.responseRate) := by
    unfold trickle
    rw [if_neg (by simp [hs.1, hs.2])]
    simp only [p8]
  have h2 : (trickle ctx f).responses =
      f.responses ++ (pickup ctx f).d.available.take (trickle ctx f).d.responseRate := by
    rw [h1]
    unfold trickle
    rw [if_neg (by simp [hs.1, hs.2])]
    simp only [p8, p2]
  have h3 : (trickle ctx f).d.available =
      (pickup ctx f).d.available.drop (trickle ctx f).d.responseRate := by
    rw [h1]
    unfold trickle
    rw [if_neg (by simp [hs.1, hs.2])]
    simp only [p8]
  refine ⟨h1, h2, h3, ?_, ?_⟩
  · rw [h2, List.length_append, List.length_take, Nat.min_comm]
  · rw [h1]
    split
    · omega
    · split <;> omega

/-- C23 at a Fetch that has trickled at a rate of 10 and has 90 responses
queued: the rate stays 10 and 10 responses are emitted. -/
theorem C23_trickle_witness :
    (trickle Example.fetchContext Example.trickling).d.responseRate = 10 ∧
    (trickle Example.fetchContext Example.trickling).responses.length = 0 + min 90 10 :=
  have h := C23_trickle Example.fetchContext Example.trickling (by decide) (by decide)
  ⟨h.1, h.2.2.2.1⟩

/-- C27: the ANNOTATION item for user 42, who asks for the attribute
value.priv of the entry /comment. Without any annotation Fetch::annotation
returns `()`; with one private annotation /comment of user 7 it returns
`(/comment (value.priv NIL))`, and with two of other users the entry comes
twice: the two lists differ only in annotations of other users and the
results differ. -/
theorem C27_annotation_of_other_user :
    annotation Example.fetchContext.matchesEntry Example.fetchContext.imapQuoted true
      [] (some 42) ["/comment"] ["value.priv"] = "()" ∧
    annotation Example.fetchContext.matchesEntry Example.fetchContext.imapQuoted true
      [⟨"/comment", 7, "secret"⟩] (some 42) ["/comment"] ["value.priv"] =
      "(/comment (value.priv NIL))" ∧
    annotation Example.fetchContext.matchesEntry Example.fetchContext.imapQuoted true
      [⟨"/comment", 7, "secret"⟩, ⟨"/comment", 8, "other"⟩] (some 42) ["/comment"]
      ["value.priv"] = "(/comment (value.priv NIL) /comment (value.priv NIL))" := by
  decide

end Aox
namespace Aox
open Store

/-- C12: `STORE 3 +FLAGS (\Seen \Flagged)` on a message that is seen and has
not the flag \Flagged, the next modseq being 5. Store::execute inserts the row
of flags for UID 3, the update of mailbox_messages gets the condition
`not seen` and matches no row, and the command commits without the statement
that sets `mailboxes.nextmodseq`: a row of flags is inserted and nextmodseq
is not increased. -/
theorem C12_flag_row_without_nextmodseq :
    Statement.copyFlags [(7, 3, 3)] ∈
      (execute Example.storeContext
        (Example.store ⟨[(3, 3)]⟩ Op.AddFlags ["\\Seen", "\\Flagged"] false none)).statements ∧
    extraConditions
      (execute Example.storeContext
        (Example.store ⟨[(3, 3)]⟩ Op.AddFlags ["\\Seen", "\\Flagged"] false none)).d =
      ["not seen"] ∧
    updatedRows Example.storeContext
      (execute Example.storeContext
        (Example.store ⟨[(3, 3)]⟩ Op.AddFlags ["\\Seen", "\\Flagged"] false none)).d = 0 ∧
    (execute Example.storeContext
      (Example.store ⟨[(3, 3)]⟩ Op.AddFlags ["\\Seen", "\\Flagged"] false none)).commits = 1 ∧
    (execute Example.storeContext
      (Example.store ⟨[(3, 3)]⟩ Op.AddFlags ["\\Seen", "\\Flagged"] false none)).error = none ∧
    (execute Example.storeContext
      (Example.store ⟨[(3, 3)]⟩ Op.AddFlags ["\\Seen", "\\Flagged"] false none)).statements.any
        Statement.isNextModSeq = false := by
  decide

/-- C14: the rights Store::execute asks for in a STORE ANNOTATION by the user
42. For the private annotation `/comment (value.priv "hello")`, owner 42, it
asks for WriteSharedAnnotation and not for Read; for the shared annotation
`/comment (value.shared "hello")`, owner 0, it asks for Read and not for
WriteSharedAnnotation. -/
theorem C14_annotation_rights :
    (parseAnnotationEntry 42 (Store.new true) "/comment" [("value.priv", "hello")]).d.annotations =
      [⟨"/comment", 42, "hello"⟩] ∧
    (checkPermission { d := { op := Op.ReplaceAnnotations,
                              annotations := [⟨"/comment", 42, "hello"⟩] } }).rights =
      [Right.WriteSharedAnnotation] ∧
    (parseAnnotationEntry 42 (Store.new true) "/comment"
        [("value.shared", "hello")]).d.annotations =
      [⟨"/comment", 0, "hello"⟩] ∧
    (checkPermission { d := { op := Op.ReplaceAnnotations,
                              annotations := [⟨"/comment", 0, "hello"⟩] } }).rights =
      [Right.Read] := by
  decide

/-- C15: Store::parseAnnotationEntry for the user 42 on
`/comment (value.shared "a" value.priv "b")`: the private value "b" ends in
the Annotation with owner 0, the shared value "a" is lost and there is no
Annotation with owner 42; on `/comment (value.priv "hello")` alone the
Annotation has the owner 42. -/
theorem C15_private_value_in_shared_annotation :
    (parseAnnotationEntry 42 (Store.new true) "/comment"
        [("value.shared", "a"), ("value.priv", "b")]).d.annotations =
      [⟨"/comment", 0, "b"⟩] ∧
    (parseAnnotationEntry 42 (Store.new true) "/comment"
        [("value.shared", "a"), ("value.priv", "b")]).error = none ∧
    (parseAnnotationEntry 42 (Store.new true) "/comment"
        [("value.priv", "hello")]).d.annotations =
      [⟨"/comment", 42, "hello"⟩] := by
  decide

/-- C24: `STORE 1:2 +FLAGS (\Flagged)` where UID 1 has the flag already.
Store::execute inserts a row of flags for UID 2 only, `d->changedUids` stays
empty and the update of mailbox_messages has no extra condition, so it
matches the row of UID 1 too, whose flags, seen and deleted values do not
change. -/
theorem C24_spurious_modseq :
    Statement.copyFlags [(7, 2, 3)] ∈
      (execute Example.storeContext
        (Example.store ⟨[(1, 2)]⟩ Op.AddFlags ["\\Flagged"] false none)).statements ∧
    (execute Example.storeContext
      (Example.store ⟨[(1, 2)]⟩ Op.AddFlags ["\\Flagged"] false none)).d.changedUids =
      IntegerSet.empty ∧
    extraConditions
      (execute Example.storeContext
        (Example.store ⟨[(1, 2)]⟩ Op.AddFlags ["\\Flagged"] false none)).d = [] ∧
    updateMatches
      (execute Example.storeContext
        (Example.store ⟨[(1, 2)]⟩ Op.AddFlags ["\\Flagged"] false none)).d
      { uid := 1, modseq := 3, seen := true } = true := by
  decide

/-- C28: two flag STOREs that change a message without giving it the new
modseq. `STORE 3 +FLAGS (\Seen \Flagged)` on a message that is seen and not
flagged inserts the row of flags for UID 3, and the update of
mailbox_messages, with the condition `not seen`, does not match its row.
`STORE 1:2 -FLAGS (\Flagged)` where only UID 1 has the flag deletes from flags
for the UIDs 1:2, and the update, restricted by `uid=any($4)` with $4 = 2,
matches the row of UID 2 and not that of UID 1. -/
theorem C28_changed_without_modseq :
    Statement.copyFlags [(7, 3, 3)] ∈
      (execute Example.storeContext
        (Example.store ⟨[(3, 3)]⟩ Op.AddFlags ["\\Seen", "\\Flagged"] false none)).statements ∧
    updateMatches
      (execute Example.storeContext
        (Example.store ⟨[(3, 3)]⟩ Op.AddFlags ["\\Seen", "\\Flagged"] false none)).d
      { uid := 3, modseq := 2, seen := true } = false ∧
    Statement.deleteFlags "delete from flags where mailbox=$1 and uid=any($2) and flag=any($3)"
        7 ⟨[(1, 2)]⟩ ⟨[(3, 3)]⟩ ∈
      (execute Example.storeContext
        (Example.store ⟨[(1, 2)]⟩ Op.RemoveFlags ["\\Flagged"] false none)).statements ∧
    (execute Example.storeContext
      (Example.store ⟨[(1, 2)]⟩ Op.RemoveFlags ["\\Flagged"] false none)).d.changedUids =
      ⟨[(2, 2)]⟩ ∧
    updateMatches
      (execute Example.storeContext
        (Example.store ⟨[(1, 2)]⟩ Op.RemoveFlags ["\\Flagged"] false none)).d
      { uid := 1, modseq := 3, seen := true } = false ∧
    updateMatches
      (execute Example.storeContext
        (Example.store ⟨[(1, 2)]⟩ Op.RemoveFlags ["\\Flagged"] false none)).d
      { uid := 2, modseq := 4 } = true := by
  decide

/-- C29: `STORE 1:2 (UNCHANGEDSINCE 4294967295) +FLAGS (\Seen)`. The bound
`d->unchangedSince+1` handed to the Selector is 0, not 4294967296, so no
message is selected, although the modseq of every message is smaller than the
value given: the command stores nothing and reports both messages as
MODIFIED. For the value 5 the bound is 6. -/
theorem C29_unchangedsince_wraps :
    modseqBound (Example.store ⟨[(1, 2)]⟩ Op.AddFlags ["\\Seen"] false (some 4294967295)).d = 0 ∧
    (execute Example.storeContext
      (Example.store ⟨[(1, 2)]⟩ Op.AddFlags ["\\Seen"] false (some 4294967295))).d.s =
      IntegerSet.empty ∧
    (execute Example.storeContext
      (Example.store ⟨[(1, 2)]⟩ Op.AddFlags ["\\Seen"] false
        (some 4294967295))).respTextCode = some "MODIFIED 1:2" ∧
    modseqBound (Example.store ⟨[(1, 2)]⟩ Op.AddFlags ["\\Seen"] false (some 5)).d = 6 := by
  decide

end Aox
namespace Aox
open Store
/-- C13: the rights Store::execute asks for in a flag STORE with the flag
names L, on a new command: KeepSeen if and only if some name of L is \Seen in
any letter case, DeleteMessages if and only if some name is \Deleted, Write if
and only if L is empty or has a name that is neither; no right twice and no
other right. The block that asks is passed once: a second pass changes
nothing, and what execute does afterwards asks for no further right. -/
theorem C13_required_rights (c : Store) (hp : c.d.checkedPermission = false)
    (hop : c.d.op ≠ Op.ReplaceAnnotations) (hs : c.d.seen = false) (hd : c.d.deleted = false)
    (hr : c.rights = []) :
    (∀ r : Right, r ∈ (checkPermission c).rights ↔
      ((r = Right.KeepSeen ∧ ∃ n ∈ c.d.flagNames, EString.lower n = "\\seen") ∨
       (r = Right.DeleteMessages ∧ ∃ n ∈ c.d.flagNames, EString.lower n = "\\deleted") ∨
       (r = Right.Write ∧ (c.d.flagNames = [] ∨
          ∃ n ∈ c.d.flagNames, EString.lower n ≠ "\\seen" ∧ EString.lower n ≠ "\\deleted")))) ∧
    (checkPermission c).rights.Nodup ∧
    checkPermission (checkPermission c) = checkPermission c ∧
    (∀ ctx : Context, c.state = CommandState.Executing →
      (execute ctx c).rights = (checkPermission c).rights) := by
  have hne : ("\\seen" : String) ≠ "\\deleted" := by decide
  have hany : c.d.flagNames.any (fun n => EString.lower n ≠ "\\deleted" ∧
      EString.lower n = "\\seen") =
      c.d.flagNames.any (fun n => EString.lower n = "\\seen") := by
    congr 1
    funext n
    by_cases h : EString.lower n = "\\seen"
    · simp [h, hne]
    · simp [h]
  have hrights : (checkPermission c).rights =
      (if c.d.flagNames.any (fun n => EString.lower n = "\\seen") then [Right.KeepSeen]
        else []) ++
      (if c.d.flagNames.any (fun n => EString.lower n = "\\deleted") then
        [Right.DeleteMessages] else []) ++
      (if c.d.flagNames.any (fun n => EString.lower n ≠ "\\deleted" ∧
          EString.lower n ≠ "\\seen") || c.d.flagNames.isEmpty then [Right.Write] else []) := by
    rw [checkPermission_flags c hp hop]
    simp only [hs, hd, hr, hany, Bool.false_or, List.nil_append]
  refine ⟨?_, ?_, ?_, fun ctx h => execute_rights ctx c h⟩
  · intro r
    rw [hrights]
    have h1 : c.d.flagNames.any (fun n => EString.lower n = "\\seen") = true ↔
        ∃ n ∈ c.d.flagNames, EString.lower n = "\\seen" := by simp
    have h2 : c.d.flagNames.any (fun n => EString.lower n = "\\deleted") = true ↔
        ∃ n ∈ c.d.flagNames, EString.lower n = "\\deleted" := by simp
    have h3 : (c.d.flagNames.any (fun n => EString.lower n ≠ "\\deleted" ∧
          EString.lower n ≠ "\\seen") || c.d.flagNames.isEmpty) = true ↔
        (c.d.flagNames = [] ∨
          ∃ n ∈ c.d.flagNames, EString.lower n ≠ "\\seen" ∧ EString.lower n ≠ "\\deleted") := by
      simp only [Bool.or_eq_true, List.any_eq_true, decide_eq_true_eq, List.isEmpty_iff]
      constructor
      · rintro (⟨n, hn, h⟩ | h)
        · exact Or.inr ⟨n, hn, h.2, h.1⟩
        · exact Or.inl h
      · rintro (h | ⟨n, hn, h⟩)
        · exact Or.inr h
        · exact Or.inl ⟨n, hn, h.2, h.1⟩
    simp only [List.mem_append, ← h1, ← h2, ← h3]
    cases c.d.flagNames.any (fun n => EString.lower n = "\\seen") <;>
      cases c.d.flagNames.any (fun n => EString.lower n = "\\deleted") <;>
      cases (c.d.flagNames.any (fun n => EString.lower n ≠ "\\deleted" ∧
          EString.lower n ≠ "\\seen") || c.d.flagNames.isEmpty) <;>
      cases r <;> simp
  · rw [hrights]
    cases c.d.flagNames.any (fun n => EString.lower n = "\\seen") <;>
      cases c.d.flagNames.any (fun n => EString.lower n = "\\deleted") <;>
      cases (c.d.flagNames.any (fun n => EString.lower n ≠ "\\deleted" ∧
          EString.lower n ≠ "\\seen") || c.d.flagNames.isEmpty) <;> decide
  · have hc : (checkPermission c).d.checkedPermission = true := by
      rw [checkPermission_flags c hp hop]
    generalize checkPermission c = c1 at hc
    unfold checkPermission
    simp [hc]

/-- C13 at `STORE 1:2 +FLAGS (\SEEN \Flagged)`: KeepSeen and Write, in this
order, and nothing else. -/
theorem C13_required_rights_witness :
    (checkPermission (Example.store ⟨[(1, 2)]⟩ Op.AddFlags ["\\SEEN", "\\Flagged"] false
      none)).rights.Nodup ∧
    (execute Example.storeContext
      (Example.store ⟨[(1, 2)]⟩ Op.AddFlags ["\\SEEN", "\\Flagged"] false none)).rights =
    (checkPermission
      (Example.store ⟨[(1, 2)]⟩ Op.AddFlags ["\\SEEN", "\\Flagged"] false none)).rights ∧
    (checkPermission (Example.store ⟨[(1, 2)]⟩ Op.AddFlags ["\\SEEN", "\\Flagged"] false
      none)).rights = [Right.KeepSeen, Right.Write] :=
  have h := C13_required_rights
    (Example.store ⟨[(1, 2)]⟩ Op.AddFlags ["\\SEEN", "\\Flagged"] false none)
    rfl (by decide) rfl rfl rfl
  ⟨h.2.1, h.2.2.2 Example.storeContext rfl, by decide⟩

end Aox
namespace Aox
open Store
/-- C26: the four booleans after the flag operations, on a new command whose
rights have been looked at, for a table of flags in which the names \Seen and
\Deleted, in any letter case, are the flags for which `Flag::isSeen` and
`Flag::isDeleted` hold. After replaceFlags changeSeen and changeDeleted are
true, newSeen says whether L has \Seen and newDeleted whether L has \Deleted;
after addFlags changeSeen = newSeen = (L has \Seen) and changeDeleted =
newDeleted = (L has \Deleted); after removeFlags changeSeen = (L has \Seen),
changeDeleted = (L has \Deleted) and newSeen = newDeleted = false. -/
theorem C26_flag_booleans (ctx : Context) (c : Store)
    (hp : c.d.checkedPermission = false) (hop : c.d.op ≠ Op.ReplaceAnnotations)
    (hs : c.d.seen = false) (hd : c.d.deleted = false)
    (hcs : c.d.changeSeen = false) (hcd : c.d.changeDeleted = false)
    (hns : c.d.newSeen = false) (hnd : c.d.newDeleted = false)
    (hS : ∀ n, isSeen ctx (flagIdOf ctx n) = decide (EString.lower n = "\\seen"))
    (hD : ∀ n, isDeleted ctx (flagIdOf ctx n) = decide (EString.lower n = "\\deleted")) :
    ((replaceFlags ctx (checkPermission c)).1.d.changeSeen = true ∧
     (replaceFlags ctx (checkPermission c)).1.d.changeDeleted = true ∧
     (replaceFlags ctx (checkPermission c)).1.d.newSeen =
       c.d.flagNames.any (fun n => EString.lower n = "\\seen") ∧
     (replaceFlags ctx (checkPermission c)).1.d.newDeleted =
       c.d.flagNames.any (fun n => EString.lower n = "\\deleted")) ∧
    ((addFlags ctx (checkPermission c)).1.d.changeSeen =
       c.d.flagNames.any (fun n => EString.lower n = "\\seen") ∧
     (addFlags ctx (checkPermission c)).1.d.newSeen =
       c.d.flagNames.any (fun n => EString.lower n = "\\seen") ∧
     (addFlags ctx (checkPermission c)).1.d.changeDeleted =
       c.d.flagNames.any (fun n => EString.lower n = "\\deleted") ∧
     (addFlags ctx (checkPermission c)).1.d.newDeleted =
       c.d.flagNames.any (fun n => EString.lower n = "\\deleted")) ∧
    ((removeFlags ctx (checkPermission c) false).1.d.changeSeen =
       c.d.flagNames.any (fun n => EString.lower n = "\\seen") ∧
     (removeFlags ctx (checkPermission c) false).1.d.changeDeleted =
       c.d.flagNames.any (fun n => EString.lower n = "\\deleted") ∧
     (removeFlags ctx (checkPermission c) false).1.d.newSeen = false ∧
     (removeFlags ctx (checkPermission c) false).1.d.newDeleted = false) := by
  have hne : ("\\seen" : String) ≠ "\\deleted" := by decide
  have hany : c.d.flagNames.any (fun n => EString.lower n ≠ "\\deleted" ∧
      EString.lower n = "\\seen") =
      c.d.flagNames.any (fun n => EString.lower n = "\\seen") := by
    congr 1
    funext n
    by_cases h : EString.lower n = "\\seen"
    · simp [h, hne]
    · simp [h]
  have hanyS : (c.d.flagNames.any fun n => isSeen ctx (flagIdOf ctx n)) =
      c.d.flagNames.any (fun n => EString.lower n = "\\seen") := by
    congr 1; funext n; exact hS n
  have hanyD : (c.d.flagNames.any fun n =>
      !isSeen ctx (flagIdOf ctx n) && isDeleted ctx (flagIdOf ctx n)) =
      c.d.flagNames.any (fun n => EString.lower n = "\\deleted") := by
    congr 1
    funext n
    rw [hS n, hD n]
    by_cases h : EString.lower n = "\\deleted"
    · simp [h, hne.symm]
    · simp [h]
  rw [checkPermission_flags c hp hop]
  unfold replaceFlags
  simp only [addFlags_d, removeFlags_d, addFlagsLoop_d, hs, hd, hcs, hcd, hns, hnd, hany,
    hanyS, hanyD]
  cases c.d.flagNames.any (fun n => EString.lower n = "\\seen") <;>
    cases c.d.flagNames.any (fun n => EString.lower n = "\\deleted") <;> simp

/-- C26 at `STORE 1:2 FLAGS (\Seen \Flagged)` with the flags \Seen = 1,
\Deleted = 2, \Flagged = 3. -/
theorem C26_flag_booleans_witness :
    (replaceFlags Example.storeContext (checkPermission
      (Example.store ⟨[(1, 2)]⟩ Op.ReplaceFlags ["\\Seen", "\\Flagged"] false none))).1.d.changeSeen =
      true ∧
    (replaceFlags Example.storeContext (checkPermission
      (Example.store ⟨[(1, 2)]⟩ Op.ReplaceFlags ["\\Seen", "\\Flagged"] false
        none))).1.d.changeDeleted = true ∧
    (replaceFlags Example.storeContext (checkPermission
      (Example.store ⟨[(1, 2)]⟩ Op.ReplaceFlags ["\\Seen", "\\Flagged"] false none))).1.d.newSeen =
      List.any ["\\Seen", "\\Flagged"] (fun n => EString.lower n = "\\seen") ∧
    (replaceFlags Example.storeContext (checkPermission
      (Example.store ⟨[(1, 2)]⟩ Op.ReplaceFlags ["\\Seen", "\\Flagged"] false
        none))).1.d.newDeleted =
      List.any ["\\Seen", "\\Flagged"] (fun n => EString.lower n = "\\deleted") :=
  (C26_flag_booleans Example.storeContext
    (Example.store ⟨[(1, 2)]⟩ Op.ReplaceFlags ["\\Seen", "\\Flagged"] false none)
    rfl (by decide) rfl rfl rfl rfl rfl rfl
    Example.storeContext_isSeen Example.storeContext_isDeleted).1

end Aox
namespace Aox
open Store
/-- C16 fails as stated: `STORE 1:3 +FLAGS.SILENT (\Flagged)` in a session in
which UID 3 is a pending expunge. The parsed set meets the pending expunges,
the flag is stored for UID 2 and the command ends without an error, so with a
tagged OK. -/
theorem C16_counterexample :
    (Example.storeExpunged Op.AddFlags ["\\Flagged"] true).d.expunged = ⟨[(3, 3)]⟩ ∧
    (Example.storeExpunged Op.AddFlags ["\\Flagged"] true).d.specified = ⟨[(1, 2)]⟩ ∧
    Statement.copyFlags [(7, 2, 3)] ∈
      (execute Example.storeContext
        (Example.storeExpunged Op.AddFlags ["\\Flagged"] true)).statements ∧
    (execute Example.storeContext
      (Example.storeExpunged Op.AddFlags ["\\Flagged"] true)).state = CommandState.Finished ∧
    (execute Example.storeContext
      (Example.storeExpunged Op.AddFlags ["\\Flagged"] true)).error = none := by
  decide

/-- C16 as amended. Store::parse remembers in `d->expunged` the UIDs of the
set that are pending expunges of the session and keeps the others in
`d->specified`. For a new command with such UIDs, when the transaction does
not fail: a silent STORE never ends with `NO Cannot store on expunged
messages`; a STORE that is not silent ends with that NO, after commit(), when
no message is selected, and when it gets to the statement for `nextmodseq`,
the statements for the other UIDs being part of the transaction. -/
theorem C16_store_expunged (ctx : Context) (c : Store)
    (hs : c.state = CommandState.Executing) (he : c.error = none)
    (hp : ctx.permitted = true) (ho : c.d.obtainModSeq = false)
    (hw : c.d.sentWorkQueries = false) (hm : c.d.modseq = 0)
    (hn : c.d.sentNextModSeq = false) (hx : c.d.expunged.isEmpty = false) :
    (∀ (session : SessionData) (c0 : Store) (set : IntegerSet) (uid : Nat),
      set.wf → (Session.expunged session).wf →
      (((parseSet session c0 set).d.expunged.contains uid = true ↔
          (Session.expunged session).contains uid = true ∧ set.contains uid = true) ∧
       ((parseSet session c0 set).d.specified.contains uid = true ↔
          set.contains uid = true ∧ (Session.expunged session).contains uid = false))) ∧
    (c.d.silent = true →
      (execute ctx c).error ≠ some (Error.No, "Cannot store on expunged messages")) ∧
    (c.d.silent = false → (sendQueries ctx (checkPermission c)).d.s.isEmpty = true →
      (execute ctx c).error = some (Error.No, "Cannot store on expunged messages") ∧
      (execute ctx c).state = CommandState.Finished ∧
      (execute ctx c).commits = c.commits + 1) ∧
    (c.d.silent = false → ctx.failed = false → (execute ctx c).d.sentNextModSeq = true →
      (execute ctx c).error = some (Error.No, "Cannot store on expunged messages") ∧
      (execute ctx c).state = CommandState.Finished ∧
      (execute ctx c).commits = c.commits + 1 ∧
      ∃ m, Statement.nextModSeq m ctx.mailbox ∈ (execute ctx c).statements) := by
  obtain ⟨k1, k2, k3, k4, k5, k6, k7, k8, k9, l1, l2, l3, l4, l5, l6, l7, l8, l9⟩ :=
    workOp_chain ctx c
  have hcases := execute_cases ctx c hs he hp ho hw hm hn
  refine ⟨?_, ?_, ?_, ?_⟩
  · intro session c0 set uid hset hexp
    exact ⟨IntegerSet.contains_intersection hexp set uid,
      IntegerSet.contains_removeSet hset hexp uid⟩
  · intro hsil
    rcases hcases with ⟨hS, h⟩ | ⟨hS, h | ⟨hx1, h⟩ | ⟨m, hx1, hr, h⟩ | ⟨m, hx1, hr, h⟩⟩
    · rw [h, (executeWork_empty ctx _ hS).2.2.2.2.2.2, k4, hsil]
      simp [k1, he]
    · rw [h]; simp [finish, commit, l1, he]
    · rw [h]; simp [setError, l1, he]
    · rw [h]; simp [l1, he]
    · rw [h]
      cases hf : ctx.failed
      · rw [(executeEnd_spec ctx _ hf (by simpa using l1.trans he)).2.2.2.2.2.2]
        simp [l4, hsil]
      · rw [(executeEnd_failed ctx _ hf (by simpa using l1.trans he)).2.2.2.2.2.2]
        simp
  · intro hsil hS
    rcases hcases with ⟨_, h⟩ | ⟨hS2, _⟩
    · obtain ⟨_, e2, e3, _, _, _, e7⟩ := executeWork_empty ctx _ hS
      rw [h, e7, e2, e3, k4, k5, k2, hsil, hx]
      simp [setError, k1, he]
    · rw [hS] at hS2; cases hS2
  · intro hsil hf hsent
    rcases hcases with ⟨hS, h⟩ | ⟨hS, h | ⟨hx1, h⟩ | ⟨m, hx1, hr, h⟩ | ⟨m, hx1, hr, h⟩⟩
    · exfalso
      rw [h] at hsent
      have : (executeWork ctx (sendQueries ctx (checkPermission c))).1.d.sentNextModSeq =
          false := by
        unfold executeWork finish commit
        simp only [(show (workStart (sendQueries ctx (checkPermission c))).d.s.isEmpty = true
          by rw [(workStart_spec _).2.2.2.2.2.1]; exact hS), if_true]
        split <;> simp [storeError_d, (workStart_spec _).2.2.2.2.2.1, k6, hn]
      rw [this] at hsent; cases hsent
    · exfalso
      rw [h] at hsent
      simp [finish, commit, l6, hn] at hsent
    · exfalso
      rw [h, storeError_d, l6, hn] at hsent
      cases hsent
    · exfalso
      rw [h] at hsent
      simp [l6, hn] at hsent
    · rw [h]
      obtain ⟨e1, e2, e3, _, _, _, e7⟩ := executeEnd_spec ctx _ hf
        (by simpa using l1.trans he :
          ({ (workOp ctx (workStart (sendQueries ctx (checkPermission c)))).1 with
            d := { (workOp ctx (workStart (sendQueries ctx (checkPermission c)))).1.d with
              modseq := m, sentNextModSeq := true }
            statements :=
              (workOp ctx (workStart (sendQueries ctx (checkPermission c)))).1.statements ++
              [modseqUpdate ctx
                { (workOp ctx (workStart (sendQueries ctx (checkPermission c)))).1.d with
                  modseq := m },
               Statement.nextModSeq (m + 1) ctx.mailbox]
            commits :=
              (workOp ctx (workStart (sendQueries ctx (checkPermission c)))).1.commits +
                1 } : Store).error = none)
      rw [e7, e1, e3, e2]
      refine ⟨by simp [l4, l5, hsil, hx], rfl, by simp [l2], m + 1, by simp⟩

/-- C16 at `STORE 1:3 +FLAGS (\Flagged)`, not silent, in a session in which
UID 3 is a pending expunge: the statement for `nextmodseq` is in the
transaction, the command commits and ends with NO. -/
theorem C16_store_expunged_witness :
    (execute Example.storeContext
      (Example.storeExpunged Op.AddFlags ["\\Flagged"] false)).error =
      some (Error.No, "Cannot store on expunged messages") ∧
    (execute Example.storeContext
      (Example.storeExpunged Op.AddFlags ["\\Flagged"] false)).state =
      CommandState.Finished ∧
    (execute Example.storeContext
      (Example.storeExpunged Op.AddFlags ["\\Flagged"] false)).commits =
      (Example.storeExpunged Op.AddFlags ["\\Flagged"] false).commits + 1 ∧
    ∃ m, Statement.nextModSeq m Example.storeContext.mailbox ∈
      (execute Example.storeContext
        (Example.storeExpunged Op.AddFlags ["\\Flagged"] false)).statements :=
  (C16_store_expunged Example.storeContext
    (Example.storeExpunged Op.AddFlags ["\\Flagged"] false) rfl rfl rfl rfl rfl rfl rfl
    (by decide)).2.2.2 rfl rfl (by decide)

end Aox
namespace Aox
open Store
/-- C25 fails as stated: `STORE 1:2 (UNCHANGEDSINCE 9) +FLAGS.SILENT (\Seen)`
where UID 1 is seen already. The update of mailbox_messages has the condition
`not seen` and matches the row of UID 2 only, and Store::execute sends a FETCH
response with the new modseq for UID 1 too. -/
theorem C25_counterexample :
    updateMatches
      (execute Example.storeContext
        (Example.store ⟨[(1, 2)]⟩ Op.AddFlags ["\\Seen"] true (some 9))).d
      { uid := 1, modseq := 3, seen := true } = false ∧
    updateMatches
      (execute Example.storeContext
        (Example.store ⟨[(1, 2)]⟩ Op.AddFlags ["\\Seen"] true (some 9))).d
      { uid := 2, modseq := 4 } = true ∧
    (execute Example.storeContext
      (Example.store ⟨[(1, 2)]⟩ Op.AddFlags ["\\Seen"] true (some 9))).responses =
      ["1 FETCH (UID 1 MODSEQ (5))", "2 FETCH (UID 2 MODSEQ (5))"] := by
  decide

/-- C25 as amended. A new STORE with both .silent and UNCHANGEDSINCE that gets
to the statement for `nextmodseq`, the transaction not failing, with S the
selected set `d->s` and m the modseq obtained: Store::execute sends one
response `MSN FETCH (UID u MODSEQ (m))` for each position of S, from the first
to the last; the UIDs at the positions ascend and are exactly the UIDs of S,
whether the update has matched their rows or not; MSN is Session::msn(u),
which is not 0 when the session has the message. -/
theorem C25_silent_responses (ctx : Context) (c : Store) (m : Int)
    (hs : c.state = CommandState.Executing) (he : c.error = none)
    (hp : ctx.permitted = true) (ho : c.d.obtainModSeq = false)
    (hw : c.d.sentWorkQueries = false) (hm : c.d.modseq = 0)
    (hn : c.d.sentNextModSeq = false) (hsil : c.d.silent = true)
    (hus : c.d.seenUnchangedSince = true) (hf : ctx.failed = false)
    (hmod : ctx.nextmodseq = some m) (hsent : (execute ctx c).d.sentNextModSeq = true)
    (hwf : c.d.s.wf) (hmsn : ctx.session.msns.wf) :
    (execute ctx c).d.s = (sendQueries ctx (checkPermission c)).d.s ∧
    (execute ctx c).responses =
      c.responses ++
        (List.range (sendQueries ctx (checkPermission c)).d.s.count).map (fun n =>
          EString.fn (Session.msn ctx.session
            ((sendQueries ctx (checkPermission c)).d.s.value (n + 1))) ++
          " FETCH (UID " ++
          EString.fn ((sendQueries ctx (checkPermission c)).d.s.value (n + 1)) ++
          " MODSEQ (" ++ toString m ++ "))") ∧
    (∀ i j, 1 ≤ i → i < j → j ≤ (sendQueries ctx (checkPermission c)).d.s.count →
      (sendQueries ctx (checkPermission c)).d.s.value i <
        (sendQueries ctx (checkPermission c)).d.s.value j) ∧
    (∀ n, 1 ≤ n → n ≤ (sendQueries ctx (checkPermission c)).d.s.count →
      (sendQueries ctx (checkPermission c)).d.s.contains
        ((sendQueries ctx (checkPermission c)).d.s.value n) = true) ∧
    (∀ u, (sendQueries ctx (checkPermission c)).d.s.contains u = true →
      ∃ n, 1 ≤ n ∧ n ≤ (sendQueries ctx (checkPermission c)).d.s.count ∧
        (sendQueries ctx (checkPermission c)).d.s.value n = u) ∧
    (∀ u, ctx.session.msns.contains u = true → Session.msn ctx.session u ≠ 0) := by
  obtain ⟨k1, k2, k3, k4, k5, k6, k7, k8, k9, l1, l2, l3, l4, l5, l6, l7, l8, l9⟩ :=
    workOp_chain ctx c
  obtain ⟨_, m1, hx1, _, h⟩ := execute_final ctx c hs he hp ho hw hm hn hsent
  have hmm : m1 = m := by rw [hmod] at hx1; exact (Option.some.inj hx1).symm
  subst hmm
  have hS : (sendQueries ctx (checkPermission c)).d.s.wf := by
    rw [(sendQueries_spec ctx (checkPermission c)).2.2.2.2.2.2.2.2.2.2.2.2.2.1]
    exact IntegerSet.wf_foldl_add _ (by rw [(checkPermission_frame c).2.2.2.2.2.2.2.1]; exact hwf)
  obtain ⟨_, _, _, _, e5, e6, _⟩ := executeEnd_spec ctx
    { (workOp ctx (workStart (sendQueries ctx (checkPermission c)))).1 with
      d := { (workOp ctx (workStart (sendQueries ctx (checkPermission c)))).1.d with
        modseq := m1, sentNextModSeq := true }
      statements :=
        (workOp ctx (workStart (sendQueries ctx (checkPermission c)))).1.statements ++
        [modseqUpdate ctx
          { (workOp ctx (workStart (sendQueries ctx (checkPermission c)))).1.d with
            modseq := m1 },
         Statement.nextModSeq (m1 + 1) ctx.mailbox]
      commits :=
        (workOp ctx (workStart (sendQueries ctx (checkPermission c)))).1.commits + 1 }
    hf (by simpa using l1.trans he)
  refine ⟨?_, ?_, ?_, ?_, ?_, ?_⟩
  · rw [h, e5]; exact l8
  · rw [h, e6]
    simp only [l3, l4, l7, hsil, hus, and_self, if_true, silentResponses, l8]
  · intro i j h1 hij hj
    exact IntegerSet.valueR_lt_valueR hS h1 hij hj
  · intro n h1 hn
    exact IntegerSet.contains_valueR hS h1 hn
  · intro u hu
    exact ⟨_, IntegerSet.value_index hS hu⟩
  · intro u hu
    exact Nat.pos_iff_ne_zero.mp (IntegerSet.indexR_pos_of_contains hmsn hu)

/-- C25 at `STORE 1:2 (UNCHANGEDSINCE 9) +FLAGS.SILENT (\Seen)`, the modseq
obtained being 5: a response for UID 1 and one for UID 2. -/
theorem C25_silent_responses_witness :
    (execute Example.storeContext
      (Example.store ⟨[(1, 2)]⟩ Op.AddFlags ["\\Seen"] true (some 9))).responses =
      ["1 FETCH (UID 1 MODSEQ (5))", "2 FETCH (UID 2 MODSEQ (5))"] :=
  (C25_silent_responses Example.storeContext
    (Example.store ⟨[(1, 2)]⟩ Op.AddFlags ["\\Seen"] true (some 9)) 5
    rfl rfl rfl rfl rfl rfl rfl rfl rfl rfl rfl (by decide) (by decide) (by decide)).2.1

end Aox
namespace Aox
open Store
/-- C11 fails as stated: `STORE 1:3 (UNCHANGEDSINCE 3) -FLAGS (\Flagged)`
where UID 2 has the modseq 4. The selected set is 1,3, and the update of
mailbox_messages has the set 2:3 bound to `$4`: UID 2, which is not selected,
is bound to the modseq update. -/
theorem C11_counterexample :
    (execute Example.storeContext
      (Example.store ⟨[(1, 3)]⟩ Op.RemoveFlags ["\\Flagged"] false (some 3))).d.s =
      ⟨[(1, 1), (3, 3)]⟩ ∧
    (execute Example.storeContext
      (Example.store ⟨[(1, 3)]⟩ Op.RemoveFlags ["\\Flagged"] false (some 3))).d.changedUids =
      ⟨[(2, 3)]⟩ ∧
    (execute Example.storeContext
      (Example.store ⟨[(1, 3)]⟩ Op.RemoveFlags ["\\Flagged"] false (some 3))).statements.any
      (fun q => q.binds 2) = true := by
  decide

/-- C11 as amended. A new STORE with UNCHANGEDSINCE n over the specified set,
with s the set the selector returns: (1) s holds the UIDs of the specified set
that have a row whose modseq is smaller than the bound given to the selector,
which is n + 1 for n < 4294967295; (2) every statement of the command (flag
delete, flag insert, annotation write, modseq update) writes only to rows of
UIDs of s, the modseq update by its condition `uid=any($3)`, so no UID outside
s is modified; (3) the response code is MODIFIED with the set of the UIDs of
the specified set that are not in s if there is such a UID, and none
otherwise; (4) that set holds every UID of the specified set whose rows all
have a modseq that is not smaller than the bound. -/
theorem C11_unchangedsince (ctx : Context) (c : Store)
    (hs : c.state = CommandState.Executing) (he : c.error = none)
    (hp : ctx.permitted = true) (ho : c.d.obtainModSeq = false)
    (hw : c.d.sentWorkQueries = false) (hm : c.d.modseq = 0)
    (hn : c.d.sentNextModSeq = false) (hst : c.statements = [])
    (hse : c.d.s = IntegerSet.empty) (hpe : c.d.present = [])
    (hrc : c.respTextCode = none) (hus : c.d.seenUnchangedSince = true)
    (hspec : c.d.specified.wf) :
    (∀ uid, (sendQueries ctx (checkPermission c)).d.s.contains uid = true ↔
      (c.d.specified.contains uid = true ∧
        ∃ r ∈ ctx.messages, r.uid = uid ∧ r.modseq < (modseqBound c.d : Int))) ∧
    (c.d.unchangedSince < 4294967295 → modseqBound c.d = c.d.unchangedSince + 1) ∧
    (∀ q ∈ (execute ctx c).statements, ∀ uid, q.writes uid = true →
      (sendQueries ctx (checkPermission c)).d.s.contains uid = true) ∧
    ((∃ uid, c.d.specified.contains uid = true ∧
        (sendQueries ctx (checkPermission c)).d.s.contains uid = false) →
      (execute ctx c).respTextCode =
        some ("MODIFIED " ++ ((IntegerSet.empty.addSet c.d.specified).removeSet
          (sendQueries ctx (checkPermission c)).d.s).set)) ∧
    ((¬ ∃ uid, c.d.specified.contains uid = true ∧
        (sendQueries ctx (checkPermission c)).d.s.contains uid = false) →
      (execute ctx c).respTextCode = none) ∧
    (∀ uid, ((IntegerSet.empty.addSet c.d.specified).removeSet
        (sendQueries ctx (checkPermission c)).d.s).contains uid = true ↔
      (c.d.specified.contains uid = true ∧
        (sendQueries ctx (checkPermission c)).d.s.contains uid = false)) ∧
    (∀ uid, c.d.specified.contains uid = true →
      (∀ r ∈ ctx.messages, r.uid = uid → (modseqBound c.d : Int) ≤ r.modseq) →
      ((IntegerSet.empty.addSet c.d.specified).removeSet
        (sendQueries ctx (checkPermission c)).d.s).contains uid = true) := by
  obtain ⟨_, _, _, _, _, _, p7, p8, _, _, p11, p12, _, _, _, _, _⟩ := checkPermission_frame c
  obtain ⟨_, _, _, _, q5, q6, _, _, q9, _, _, _, _, q14, _, _⟩ :=
    sendQueries_spec ctx (checkPermission c)
  have hrows : findSetRows ctx (checkPermission c).d = findSetRows ctx c.d := by
    unfold findSetRows modseqBound
    rw [p7, p11, p12]
  have hS : ∀ uid, (sendQueries ctx (checkPermission c)).d.s.contains uid = true ↔
      (c.d.specified.contains uid = true ∧
        ∃ r ∈ ctx.messages, r.uid = uid ∧ r.modseq < (modseqBound c.d : Int)) := by
    intro uid
    rw [q14, p8, hse, IntegerSet.contains_foldl_add _ IntegerSet.wf_empty, hrows]
    unfold findSetRows
    simp only [hus, Bool.not_true, Bool.false_or, List.mem_map, List.mem_filter,
      Bool.and_eq_true, decide_eq_true_eq, IntegerSet.contains_empty, Bool.false_eq_true,
      or_false]
    constructor
    · rintro ⟨r, ⟨hr, h1, h2⟩, rfl⟩
      exact ⟨h1, r, hr, rfl, h2⟩
    · rintro ⟨h1, r, hr, rfl, h2⟩
      exact ⟨r, ⟨hr, h1, h2⟩, rfl⟩
  have hSwf : (sendQueries ctx (checkPermission c)).d.s.wf := by
    rw [q14, p8, hse]; exact IntegerSet.wf_foldl_add _ IntegerSet.wf_empty
  have hAwf : (IntegerSet.empty.addSet c.d.specified).wf :=
    IntegerSet.wf_addSet IntegerSet.wf_empty _
  have hM : ∀ uid, ((IntegerSet.empty.addSet c.d.specified).removeSet
        (sendQueries ctx (checkPermission c)).d.s).contains uid = true ↔
      (c.d.specified.contains uid = true ∧
        (sendQueries ctx (checkPermission c)).d.s.contains uid = false) := by
    intro uid
    rw [IntegerSet.contains_removeSet hAwf hSwf,
      IntegerSet.contains_addSet IntegerSet.wf_empty hspec, IntegerSet.contains_empty]
    simp
  have hcode : (execute ctx c).respTextCode =
      if ((IntegerSet.empty.addSet c.d.specified).removeSet
          (sendQueries ctx (checkPermission c)).d.s).isEmpty = false then
        some ("MODIFIED " ++ ((IntegerSet.empty.addSet c.d.specified).removeSet
          (sendQueries ctx (checkPermission c)).d.s).set)
      else none := by
    rw [execute_respTextCode ctx c hs he hp ho hw hm hn,
      (workStart_spec _).2.2.2.2.2.2, q9, p11, hus, q6, p7, q5,
      (checkPermission_frame c).2.2.2.2.2.1, hrc]
    simp
  refine ⟨hS, ?_, ?_, ?_, ?_, hM, ?_⟩
  · intro hlt
    unfold modseqBound uintSucc
    rw [if_neg (by omega)]
  · exact execute_writes ctx c hs he hp ho hw hm hn hst (by rw [hse]; exact IntegerSet.wf_empty)
      (by rw [hpe]; intro e h; cases h)
  · rintro ⟨uid, h1, h2⟩
    rw [hcode, if_pos]
    exact (IntegerSet.isEmpty_eq_false_iff (IntegerSet.wf_removeSet hAwf _)).mpr
      ⟨uid, (hM uid).mpr ⟨h1, h2⟩⟩
  · intro hno
    rw [hcode, if_neg]
    intro hne
    obtain ⟨uid, hu⟩ := (IntegerSet.isEmpty_eq_false_iff
      (IntegerSet.wf_removeSet hAwf _)).mp hne
    exact hno ⟨uid, (hM uid).mp hu⟩
  · intro uid h1 h2
    refine (hM uid).mpr ⟨h1, ?_⟩
    cases hc : (sendQueries ctx (checkPermission c)).d.s.contains uid
    · rfl
    · obtain ⟨_, r, hr, hru, hlt⟩ := (hS uid).mp hc
      have := h2 r hr hru
      omega

/-- C11 at `STORE 1:3 (UNCHANGEDSINCE 3) -FLAGS (\Flagged)`, where UID 2 has
the modseq 4: UID 2 is of the specified set and not selected, and the response
code is MODIFIED 2. -/
theorem C11_unchangedsince_witness :
    (execute Example.storeContext
      (Example.store ⟨[(1, 3)]⟩ Op.RemoveFlags ["\\Flagged"] false (some 3))).respTextCode =
      some "MODIFIED 2" :=
  (C11_unchangedsince Example.storeContext
    (Example.store ⟨[(1, 3)]⟩ Op.RemoveFlags ["\\Flagged"] false (some 3))
    rfl rfl rfl rfl rfl rfl rfl rfl rfl rfl rfl rfl (by decide)).2.2.2.1
    ⟨2, by decide, by decide⟩

end Aox
